import Mathlib

/-!
# Verification development for the `logging` repository (package `core`)

Shallow embedding of `pkg/core/level.go`, `pkg/core/logger.go` and
`pkg/core/transaction.go` (namespace `core`), of `pkg/drivers/driver.go`,
`console.go`, `json_file.go` and `text_file.go` (namespace `drivers`) and of
`Config.CreateLogger` of `pkg/config/config.go` (namespace `config`), followed
by theorems about level parsing and formatting, about the dispatch engine of
`logger` and `transaction`, about the driver registry, about the three concrete
drivers and about the construction of a logger from a configuration.

Modelling conventions

* A Go `error` is `Option String` (`none` is `nil`, `some m` an error with message `m`).
* `Level` is Go's `type Level int`, embedded as `Int`; no arithmetic is done on levels.
* A Go string is a Lean `String` (valid UTF-8 text).
* A `Driver` is an interface value whose methods act on the state of the world
  (driver objects, files, streams).  That state is a type parameter `σ`; a
  method takes the world before the call and returns the world after it with
  the returned `error`.  Drivers return (they do not panic) and treat the entry
  they are handed as read-only, as every driver of the repository does.
* `time.Now()` is an input of each logging call (`now`).
* The variadic `attrs ...Attributes` is a `List Attributes`.
* A Go map with string keys is an association list (`GoMap`).  Where a map is shared
  and assigned to, in `CreateLogger`, a map value is the address of a map object
  (`Maps`).
* The operating system is the record of the calls made on it (`MkdirAll`,
  `OpenFile`, `Write`, `Close`) together with the outcomes of the calls to come
  (`OS`); a call is recorded whether or not it fails, so "a driver writes a
  record" means that it issues the `Write` of that record.
* A method with a pointer receiver takes the struct and returns it with its
  result; the three concrete drivers become `core.Driver` values through
  pointers into a heap of structs (`driverAt`).  The mutexes are left out: every
  run here is sequential.
* `time.Time.Format` and the order in which `range` enumerates a map are supplied
  by a `Runtime`; `encoding/json` is modelled on the one struct it is used on, the
  encoder with the error it keeps from the first `Write` that failed.
-/

namespace core

/-! ## level.go -/

/-- Go `type Level int`. -/
abbrev Level := Int

/-- Go `error`: `none` is `nil`. -/
abbrev error := Option String

def Debug : Level := 0
def Info : Level := 1
def Warning : Level := 2
def Error : Level := 3

/-- `func (l Level) String() string`; `fmt.Sprintf` with the verb `%d` prints the
integer in decimal, with a leading `-` when negative. -/
def Level.String (l : Level) : String :=
  if l = Debug then "DEBUG"
  else if l = Info then "INFO"
  else if l = Warning then "WARNING"
  else if l = Error then "ERROR"
  else "UNKNOWN(" ++ toString l ++ ")"

/-- Go `unicode.ToUpper` on one rune, as far as `ParseLevel` can observe it: ASCII
`a`..`z` go to `A`..`Z`, and the only two non-ASCII runes whose upper case is an
ASCII letter are mapped as Go's case tables map them: U+0131 (dotless i) to `I`
and U+017F (long s) to `S`.  Every other rune that Go changes is sent by Go to
another non-ASCII rune; it is left unchanged here, which no comparison with an
ASCII literal can tell apart. -/
def unicodeToUpper (r : Char) : Char :=
  if r = Char.ofNat 0x131 then 'I'
  else if r = Char.ofNat 0x17F then 'S'
  else Char.toUpper r

/-- Go `strings.ToUpper`: the rune-wise upper-case mapping. -/
def ToUpper (s : String) : String := String.mk (s.data.map unicodeToUpper)

/-- `func ParseLevel(levelStr string) (Level, error)`. -/
def ParseLevel (levelStr : String) : Level × error :=
  let u := ToUpper levelStr
  if u = "DEBUG" then (Debug, none)
  else if u = "INFO" then (Info, none)
  else if u = "WARNING" ∨ u = "WARN" then (Warning, none)
  else if u = "ERROR" ∨ u = "ERR" then (Error, none)
  else (Info, some ("unknown log level: " ++ levelStr))

/-! ## logger.go -/

/-- Go `type Attributes map[string]string`, as an association list; the nil map
and the empty map are both `[]`. -/
abbrev Attributes := List (String × String)

/-- An instant as returned by `time.Now()`. -/
abbrev Time := Int

/-- Go `type LogEntry struct`. -/
structure LogEntry where
  Timestamp : Time
  Level : Level
  Message : String
  Attrs : Attributes
  TransactionID : String
deriving DecidableEq, Repr

/-- Go `type Driver interface { Log(entry *LogEntry) error; Close() error }`, acting
on a world of type `σ`. -/
structure Driver (σ : Type) where
  Log : LogEntry → σ → σ × error
  Close : σ → σ × error

/-- Go `type logger struct { drivers []Driver }`. -/
structure logger (σ : Type) where
  drivers : List (Driver σ)

/-- `func NewLogger(drivers ...Driver) *logger`. -/
def NewLogger {σ : Type} (drivers : List (Driver σ)) : logger σ :=
  { drivers := drivers }

/-- The loop shared by `logger.Log`, `logger.Close` and `transaction.Log`:
```
for _, driver := range drivers {
    if err := call(driver); err != nil {
        lastErr = err
    }
}
```
returning the world after the loop and the final `lastErr`. -/
def rangeDrivers {σ : Type} (call : Driver σ → σ → σ × error) :
    List (Driver σ) → error → σ → σ × error
  | [], lastErr, w => (w, lastErr)
  | driver :: rest, lastErr, w =>
    match call driver w with
    | (w1, some err) => rangeDrivers call rest (some err) w1
    | (w1, none) => rangeDrivers call rest lastErr w1

/-- `func (l *logger) Log(level Level, msg string, attrs ...Attributes) error`. -/
def logger.Log {σ : Type} (l : logger σ) (now : Time) (level : Level) (msg : String)
    (attrs : List Attributes) (w : σ) : σ × error :=
  let entry : LogEntry :=
    { Timestamp := now, Level := level, Message := msg, Attrs := [], TransactionID := "" }
  let entry := if attrs.length > 0 then { entry with Attrs := attrs.headD [] } else entry
  rangeDrivers (fun driver => driver.Log entry) l.drivers none w

/-- `func (l *logger) Debug(msg string, attrs ...Attributes) error`. -/
def logger.Debug {σ : Type} (l : logger σ) (now : Time) (msg : String)
    (attrs : List Attributes) (w : σ) : σ × error :=
  l.Log now core.Debug msg attrs w

/-- `func (l *logger) Info(msg string, attrs ...Attributes) error`. -/
def logger.Info {σ : Type} (l : logger σ) (now : Time) (msg : String)
    (attrs : List Attributes) (w : σ) : σ × error :=
  l.Log now core.Info msg attrs w

/-- `func (l *logger) Warning(msg string, attrs ...Attributes) error`. -/
def logger.Warning {σ : Type} (l : logger σ) (now : Time) (msg : String)
    (attrs : List Attributes) (w : σ) : σ × error :=
  l.Log now core.Warning msg attrs w

/-- `func (l *logger) Error(msg string, attrs ...Attributes) error`. -/
def logger.Error {σ : Type} (l : logger σ) (now : Time) (msg : String)
    (attrs : List Attributes) (w : σ) : σ × error :=
  l.Log now core.Error msg attrs w

/-- `func (l *logger) Close() error`. -/
def logger.Close {σ : Type} (l : logger σ) (w : σ) : σ × error :=
  rangeDrivers (fun driver => driver.Close) l.drivers none w

/-! ## transaction.go -/

/-- Go `type transaction struct { id string; logger *logger }`. -/
structure transaction (σ : Type) where
  id : String
  logger : logger σ

/-- `func newTransaction(id string, logger *logger) Transaction`. -/
def newTransaction {σ : Type} (id : String) (l : logger σ) : transaction σ :=
  { id := id, logger := l }

/-- `func (l *logger) NewTransaction(txID string) Transaction`. -/
def logger.NewTransaction {σ : Type} (l : logger σ) (txID : String) : transaction σ :=
  newTransaction txID l

/-- `func (t *transaction) Log(level Level, msg string, attrs ...Attributes) error`. -/
def transaction.Log {σ : Type} (t : transaction σ) (now : Time) (level : Level)
    (msg : String) (attrs : List Attributes) (w : σ) : σ × error :=
  let entry : LogEntry :=
    { Timestamp := now, Level := level, Message := msg, Attrs := [], TransactionID := t.id }
  let entry := if attrs.length > 0 then { entry with Attrs := attrs.headD [] } else entry
  rangeDrivers (fun driver => driver.Log entry) t.logger.drivers none w

/-- `func (t *transaction) Debug(msg string, attrs ...Attributes) error`. -/
def transaction.Debug {σ : Type} (t : transaction σ) (now : Time) (msg : String)
    (attrs : List Attributes) (w : σ) : σ × error :=
  t.Log now core.Debug msg attrs w

/-- `func (t *transaction) Info(msg string, attrs ...Attributes) error`. -/
def transaction.Info {σ : Type} (t : transaction σ) (now : Time) (msg : String)
    (attrs : List Attributes) (w : σ) : σ × error :=
  t.Log now core.Info msg attrs w

/-- `func (t *transaction) Warning(msg string, attrs ...Attributes) error`. -/
def transaction.Warning {σ : Type} (t : transaction σ) (now : Time) (msg : String)
    (attrs : List Attributes) (w : σ) : σ × error :=
  t.Log now core.Warning msg attrs w

/-- `func (t *transaction) Error(msg string, attrs ...Attributes) error`. -/
def transaction.Error {σ : Type} (t : transaction σ) (now : Time) (msg : String)
    (attrs : List Attributes) (w : σ) : σ × error :=
  t.Log now core.Error msg attrs w

/-- `func (t *transaction) ID() string`. -/
def transaction.ID {σ : Type} (t : transaction σ) : String := t.id

/-! ## Observation of driver calls

To state which driver methods a logger calls, and in which order, every driver
is wrapped so that it appends a record of each call to a trace kept next to the
world.  The wrapper forwards the call unchanged. -/

/-- Method called on a driver, with its argument. -/
inductive Invocation where
  | log (entry : LogEntry)
  | close
deriving DecidableEq, Repr

/-- One call made on a driver: the position of the driver in the list given to
`NewLogger`, the method called, and the `error` the driver returned. -/
structure Event where
  driver : Nat
  call : Invocation
  result : error
deriving DecidableEq, Repr

/-- Driver `d` at position `i`, recording each of its calls. -/
def traced {σ : Type} (i : Nat) (d : Driver σ) : Driver (σ × List Event) :=
  { Log := fun entry w =>
      (((d.Log entry w.1).1, w.2 ++ [Event.mk i (Invocation.log entry) (d.Log entry w.1).2]),
        (d.Log entry w.1).2)
    Close := fun w =>
      (((d.Close w.1).1, w.2 ++ [Event.mk i Invocation.close (d.Close w.1).2]),
        (d.Close w.1).2) }

/-- Drivers `ds`, recording their calls under the positions `i`, `i+1`, ... -/
def tracedFrom {σ : Type} : Nat → List (Driver σ) → List (Driver (σ × List Event))
  | _, [] => []
  | i, d :: ds => traced i d :: tracedFrom (i + 1) ds

/-- Drivers `ds`, recording their calls under their positions `0`, `1`, ... -/
def tracedAll {σ : Type} (ds : List (Driver σ)) : List (Driver (σ × List Event)) :=
  tracedFrom 0 ds

/-- The entry carried by a recorded call, if the call is a `Log`. -/
def Event.entry? (ev : Event) : Option LogEntry :=
  match ev.call with
  | Invocation.log entry => some entry
  | Invocation.close => none

/-- The `error` returned by the last failing call of a trace, and `dflt` when no
call of the trace failed. -/
def lastFailureOr (dflt : error) (tr : List Event) : error :=
  match (tr.filter (fun ev => ev.result.isSome)).getLast? with
  | some ev => ev.result
  | none => dflt

/-- The `error` returned by the last failing call of a trace: `nil` when no call
failed. -/
def lastFailure (tr : List Event) : error := lastFailureOr none tr

/-- `MockDriver` of `logger_test.go`: it records entries, fails when `ShouldError`
is set, and remembers that it was closed. -/
structure MockDriver where
  Logs : List LogEntry
  ShouldError : Bool
  Closed : Bool
deriving DecidableEq, Repr

/-- `func (d *MockDriver) Log(entry *LogEntry) error`. -/
def MockDriver.Log (d : MockDriver) (entry : LogEntry) : MockDriver × error :=
  let d1 := { d with Logs := d.Logs ++ [entry] }
  if d1.ShouldError then (d1, some "mock driver error") else (d1, none)

/-- `func (d *MockDriver) Close() error`. -/
def MockDriver.Close (d : MockDriver) : MockDriver × error :=
  let d1 := { d with Closed := true }
  if d1.ShouldError then (d1, some "mock driver close error") else (d1, none)

/-- Value `&MockDriver{...}` stored at address `i` of a heap of mock drivers, as a
`Driver`; a call on an address outside the heap leaves the heap unchanged. -/
def mockAt (i : Nat) : Driver (List MockDriver) :=
  { Log := fun entry heap =>
      match heap.get? i with
      | some d => (heap.set i (d.Log entry).1, (d.Log entry).2)
      | none => (heap, none)
    Close := fun heap =>
      match heap.get? i with
      | some d => (heap.set i d.Close.1, d.Close.2)
      | none => (heap, none) }

/-- The entry a logging call is specified to build: the timestamp of the call, the
level and message given, the first attribute argument when there is one, and
the transaction identifier (`""` on a `logger`). -/
def entryFor (now : Time) (level : Level) (msg : String) (attrs : List Attributes)
    (txID : String) : LogEntry :=
  { Timestamp := now, Level := level, Message := msg, Attrs := attrs.headD [],
    TransactionID := txID }

/-- A driver that refuses entries carrying a transaction identifier and accepts
the others; it keeps no state. -/
def txRejecting : Driver Unit :=
  { Log := fun entry w =>
      if entry.TransactionID = "" then (w, none) else (w, some "transaction entries refused")
    Close := fun w => (w, none) }

/-- A driver that counts the entries it accepts and refuses entries below
`Warning`; it does not look at the transaction identifier. -/
def countingFromWarning : Driver Nat :=
  { Log := fun entry n =>
      if entry.Level < Warning then (n, some "below threshold") else (n + 1, none)
    Close := fun n => (n, none) }

/-- One logging call of a client program: made on the logger itself (`tx = none`)
or on the transaction `NewTransaction id` of that logger (`tx = some id`), at the
instant `now`. -/
structure LogCall where
  tx : Option String
  now : Time
  level : Level
  msg : String
  attrs : List Attributes
deriving DecidableEq, Repr

/-- Perform one call of a client program on the logger `l`. -/
def issue {σ : Type} (l : logger σ) (c : LogCall) (w : σ) : σ × error :=
  match c.tx with
  | none => l.Log c.now c.level c.msg c.attrs w
  | some id => (l.NewTransaction id).Log c.now c.level c.msg c.attrs w

/-- Perform the calls of a client program one after another on the logger `l`,
collecting the errors returned. -/
def issueAll {σ : Type} (l : logger σ) : List LogCall → σ → σ × List error
  | [], w => (w, [])
  | c :: cs, w =>
    ((issueAll l cs (issue l c w).1).1,
      (issue l c w).2 :: (issueAll l cs (issue l c w).1).2)

/-- The entry that the call `c` is specified to deliver: the entry of the call
with the identifier of its transaction, `""` for a call on the logger. -/
def LogCall.entry (c : LogCall) : LogEntry :=
  entryFor c.now c.level c.msg c.attrs (c.tx.getD "")

/-! ## Spellings of level names -/

/-- The six names `ParseLevel` lists in its `case` clauses. -/
def levelNames : List String := ["DEBUG", "INFO", "WARNING", "WARN", "ERROR", "ERR"]

/-- The letters occurring in the six names. -/
def levelLetters : List Char := "DEBUGINFOWAR".data

/-- `c` is the upper-case ASCII letter `n` or its lower-case form. -/
def spellsLetter (n c : Char) : Bool :=
  c == n || c == Char.ofNat (n.toNat + 32)

/-- Letter by letter, `cs` spells the upper-case letters `ns` in upper, lower or
mixed case. -/
def spellsChars : List Char → List Char → Bool
  | [], [] => true
  | n :: ns, c :: cs => spellsLetter n c && spellsChars ns cs
  | _, _ => false

/-- `s` is an upper-, lower- or mixed-case spelling of the upper-case ASCII name
`name`. -/
def isCaseVariant (name s : String) : Bool := spellsChars name.data s.data

/-- `c` is a spelling of the upper-case ASCII letter `n` for Unicode upper-casing:
the letter, its lower-case form, or U+0131 (dotless i) for `I`. -/
def spellsLetterUnicode (n c : Char) : Bool :=
  spellsLetter n c || (n == 'I' && c == Char.ofNat 0x131)

/-- Letter by letter, `cs` spells `ns` for Unicode upper-casing. -/
def spellsCharsUnicode : List Char → List Char → Bool
  | [], [] => true
  | n :: ns, c :: cs => spellsLetterUnicode n c && spellsCharsUnicode ns cs
  | _, _ => false

/-- `s` is a spelling of `name` for Unicode upper-casing: a case variant in
which U+0131 may stand for `I`. -/
def isUnicodeCaseVariant (name s : String) : Bool := spellsCharsUnicode name.data s.data

/-- Go `ErrDriverNotFound = errors.New("driver not found")` of `logger.go`. -/
def ErrDriverNotFound : error := some "driver not found"

/-- Go `ErrInvalidLevel = errors.New("invalid log level")` of `logger.go`. -/
def ErrInvalidLevel : error := some "invalid log level"

end core

namespace drivers

open core

/-! ## driver.go -/

/-- A value of Go type `interface{}` as it occurs in an options map. -/
inductive Value where
  | str (s : String)
  | bool (b : Bool)
  | int (n : Int)
  | null
deriving DecidableEq, Repr

/-- Go `map[string]V` as an association list; the first pair with a key is its
entry. -/
abbrev GoMap (V : Type) := List (String × V)

/-- Go `v, ok := m[k]`. -/
def GoMap.get {V : Type} (m : GoMap V) (k : String) : Option V := List.lookup k m

/-- Go `m[k] = v`. -/
def GoMap.set {V : Type} (m : GoMap V) (k : String) (v : V) : GoMap V :=
  (k, v) :: m.filter (fun kv => kv.1 != k)

/-- Go `map[string]interface{}`, the options handed to a constructor. -/
abbrev Options := GoMap Value

/-- Go `s, ok := options[k].(string)`: `none` when the key is absent or its value is
not a string. -/
def Options.string (options : Options) (k : String) : Option String :=
  match GoMap.get options k with
  | some (Value.str s) => some s
  | _ => none

/-- Go `b, ok := options[k].(bool)`. -/
def Options.bool (options : Options) (k : String) : Option Bool :=
  match GoMap.get options k with
  | some (Value.bool b) => some b
  | _ => none

/-- Go `type DriverConstructor func(options map[string]interface{}) (core.Driver, error)`;
a constructor acts on a world of type `σ` and returns a driver value of type `δ`
(`none` is the nil driver) with an `error`. -/
abbrev DriverConstructor (σ δ : Type) := Options → σ → σ × (Option δ × error)

/-- Go `var registry = make(map[string]DriverConstructor)`: the value of the global
variable. -/
abbrev Registry (σ δ : Type) := GoMap (DriverConstructor σ δ)

/-- `func Register(name string, constructor DriverConstructor)`, returning the new
value of `registry`. -/
def Register {σ δ : Type} (registry : Registry σ δ) (name : String)
    (constructor : DriverConstructor σ δ) : Registry σ δ :=
  GoMap.set registry name constructor

/-- `func Create(name string, options map[string]interface{}) (core.Driver, error)`. -/
def Create {σ δ : Type} (registry : Registry σ δ) (name : String) (options : Options)
    (w : σ) : σ × (Option δ × error) :=
  match GoMap.get registry name with
  | some constructor => constructor options w
  | none => (w, (none, ErrDriverNotFound))

/-! ## Operating system -/

/-- An `io.Writer` or `*os.File`, by identity. -/
abbrev Handle := Nat

/-- Go `os.Stdout`. -/
def Stdout : Handle := 1

/-- Go `os.Stderr`. -/
def Stderr : Handle := 2

/-- A call made on the operating system or on a writer. -/
inductive SysCall where
  /-- `os.MkdirAll(filepath.Dir(path), 0755)` -/
  | mkdirAll (path : String)
  /-- `os.OpenFile(path, os.O_APPEND|os.O_CREATE|os.O_WRONLY, 0644)` -/
  | openFile (path : String)
  /-- One `Write` of `bytes` on the writer `h`. -/
  | write (h : Handle) (bytes : String)
  /-- `Close` on the file `h`. -/
  | close (h : Handle)
deriving DecidableEq, Repr

/-- The operating system as the drivers see it: the calls made so far, oldest
first, and the outcome (`nil` or an error) of each call still to come; once the
outcomes are used up every call succeeds. -/
structure OS where
  calls : List SysCall
  outcomes : List error
deriving DecidableEq, Repr

/-- Make one call: it is recorded and receives the next outcome. -/
def OS.perform (os : OS) (c : SysCall) : OS × error :=
  ({ calls := os.calls ++ [c], outcomes := os.outcomes.tail }, os.outcomes.headD none)

/-- The payloads of the `Write` calls made on the writer `h`, oldest first. -/
def OS.written (os : OS) (h : Handle) : List String :=
  os.calls.filterMap (fun c =>
    match c with
    | SysCall.write h1 bytes => if h1 = h then some bytes else none
    | _ => none)

/-- What the Go runtime and standard library supply to the drivers:
`time.Time.Format` and the order in which a `range` statement enumerates the
entries of a map, which is some enumeration of the entries. -/
structure Runtime where
  Format : Time → String → String
  rangeOrder : Attributes → List (String × String)
  rangeOrder_perm : ∀ a : Attributes, (rangeOrder a).Perm a

/-! ## console.go -/

/-- Go `type ConsoleDriver struct`. -/
structure ConsoleDriver where
  stdout : Handle
  stderr : Handle
  minLevel : Level
  timeFormat : String
  colorized : Bool
deriving DecidableEq, Repr

/-- Go `time.RFC3339`. -/
def RFC3339 : String := "2006-01-02T15:04:05Z07:00"

/-- Go `type ConsoleDriverOption func(*ConsoleDriver)`. -/
abbrev ConsoleDriverOption := ConsoleDriver → ConsoleDriver

/-- `func WithMinLevel(level core.Level) ConsoleDriverOption`. -/
def WithMinLevel (level : Level) : ConsoleDriverOption :=
  fun d => { d with minLevel := level }

/-- `func WithTimeFormat(format string) ConsoleDriverOption`. -/
def WithTimeFormat (format : String) : ConsoleDriverOption :=
  fun d => { d with timeFormat := format }

/-- `func WithColorized(colorized bool) ConsoleDriverOption`. -/
def WithColorized (colorized : Bool) : ConsoleDriverOption :=
  fun d => { d with colorized := colorized }

/-- `func WithStdout(w io.Writer) ConsoleDriverOption`. -/
def WithStdout (w : Handle) : ConsoleDriverOption :=
  fun d => { d with stdout := w }

/-- `func WithStderr(w io.Writer) ConsoleDriverOption`. -/
def WithStderr (w : Handle) : ConsoleDriverOption :=
  fun d => { d with stderr := w }

/-- `func NewConsoleDriverWithOptions(options ...ConsoleDriverOption) *ConsoleDriver`. -/
def NewConsoleDriverWithOptions (options : List ConsoleDriverOption) : ConsoleDriver :=
  options.foldl (fun driver option => option driver)
    { stdout := Stdout, stderr := Stderr, minLevel := Debug, timeFormat := RFC3339,
      colorized := true }

/-- `func NewConsoleDriver(options map[string]interface{}) (core.Driver, error)`. -/
def NewConsoleDriver (options : Options) : ConsoleDriver × error :=
  let driver : ConsoleDriver :=
    { stdout := Stdout, stderr := Stderr, minLevel := Debug, timeFormat := RFC3339,
      colorized := true }
  let driver :=
    match options.string "min_level" with
    | some levelStr =>
      match ParseLevel levelStr with
      | (level, none) => { driver with minLevel := level }
      | (_, some _) => driver
    | none => driver
  let driver :=
    match options.string "time_format" with
    | some format => { driver with timeFormat := format }
    | none => driver
  let driver :=
    match options.bool "colorized" with
    | some colorized => { driver with colorized := colorized }
    | none => driver
  (driver, none)

def colorReset : String := "\x1b[0m"
def colorRed : String := "\x1b[31m"
def colorGreen : String := "\x1b[32m"
def colorYellow : String := "\x1b[33m"
def colorBlue : String := "\x1b[34m"

/-- `func (d *ConsoleDriver) colorizeLevel(level core.Level, levelStr string) string`. -/
def ConsoleDriver.colorizeLevel (_d : ConsoleDriver) (level : Level) (levelStr : String) :
    String :=
  if level = Debug then colorBlue ++ levelStr ++ colorReset
  else if level = Info then colorGreen ++ levelStr ++ colorReset
  else if level = Warning then colorYellow ++ levelStr ++ colorReset
  else if level = core.Error then colorRed ++ levelStr ++ colorReset
  else levelStr

/-- `func (d *ConsoleDriver) format(entry *core.LogEntry) string`; `strings.Join` is
`String.intercalate` and each `fmt.Sprintf` with `%s` verbs a concatenation. -/
def ConsoleDriver.format (rt : Runtime) (d : ConsoleDriver) (entry : LogEntry) : String :=
  let timestamp := rt.Format entry.Timestamp d.timeFormat
  let levelStr := entry.Level.String
  let levelStr := if d.colorized then d.colorizeLevel entry.Level levelStr else levelStr
  let message := entry.Message
  let attrsStr :=
    if entry.Attrs.length > 0 then
      " [" ++ ", ".intercalate ((rt.rangeOrder entry.Attrs).map (fun kv => kv.1 ++ "=" ++ kv.2))
        ++ "]"
    else ""
  let txID :=
    if entry.TransactionID ≠ "" then " (tx: " ++ entry.TransactionID ++ ")" else ""
  timestamp ++ " [" ++ levelStr ++ "]" ++ txID ++ attrsStr ++ " " ++ message

/-- `func (d *ConsoleDriver) Log(entry *core.LogEntry) error`; `fmt.Fprintln` formats
the line, appends a newline and makes one `Write` on `out`, whose error it
returns.  The receiver is returned with the operating system. -/
def ConsoleDriver.Log (rt : Runtime) (d : ConsoleDriver) (entry : LogEntry) (os : OS) :
    (ConsoleDriver × OS) × error :=
  if entry.Level < d.minLevel then ((d, os), none)
  else
    let formatted := d.format rt entry
    let out := if entry.Level ≥ core.Error then d.stderr else d.stdout
    ((d, (os.perform (SysCall.write out (formatted ++ "\n"))).1),
      (os.perform (SysCall.write out (formatted ++ "\n"))).2)

/-- `func (d *ConsoleDriver) Close() error`. -/
def ConsoleDriver.Close (d : ConsoleDriver) (os : OS) : (ConsoleDriver × OS) × error :=
  ((d, os), none)

/-! ## json_file.go -/

/-- The layout both file drivers pass to `time.Time.Format`. -/
def fileTimeLayout : String := "2006-01-02T15:04:05.000Z07:00"

/-- Go `json.Encoder` as far as `Encode` uses it: the writer `w` it was created on and
the field `err`, the error of the first `Write` that failed, `nil` while none
has. -/
structure Encoder where
  w : Handle
  err : error
deriving DecidableEq, Repr

/-- Go `json.NewEncoder(w)`. -/
def NewEncoder (w : Handle) : Encoder := { w := w, err := none }

/-- Go `type JSONFileDriver struct`; `file` is `none` for the nil pointer, `encoder`
is the encoder the pointer field refers to, which no other value refers to, and
the mutex is left out. -/
structure JSONFileDriver where
  filePath : String
  file : Option Handle
  encoder : Encoder
  minLevel : Level
deriving DecidableEq, Repr

/-- Go `type JSONLogEntry struct`, also the anonymous struct built in
`JSONFileDriver.Log`. -/
structure JSONLogEntry where
  Timestamp : String
  Level : String
  Message : String
  Attributes : Attributes
  TransactionID : String
deriving DecidableEq, Repr

/-- A field value of the JSON object of a log entry: a string or an object of
strings. -/
inductive JSONField where
  | str (s : String)
  | strMap (m : Attributes)
deriving DecidableEq, Repr

/-- The double quote character. -/
def quoteChar : Char := Char.ofNat 34

/-- The backslash character. -/
def backslashChar : Char := Char.ofNat 92

/-- The line feed character. -/
def newlineChar : Char := Char.ofNat 10

/-- Lower-case hexadecimal digit. -/
def hexDigit (n : Nat) : Char := "0123456789abcdef".data.getD n '0'

/-- How `encoding/json` writes one character of a string, with the HTML escaping
that `json.Encoder` has on by default. -/
def jsonEscape (c : Char) : List Char :=
  if c = quoteChar then [backslashChar, quoteChar]
  else if c = backslashChar then [backslashChar, backslashChar]
  else if c = Char.ofNat 8 then [backslashChar, 'b']
  else if c = Char.ofNat 12 then [backslashChar, 'f']
  else if c = newlineChar then [backslashChar, 'n']
  else if c = Char.ofNat 13 then [backslashChar, 'r']
  else if c = Char.ofNat 9 then [backslashChar, 't']
  else if c.toNat < 32 ∨ c = '<' ∨ c = '>' ∨ c = '&' then
    [backslashChar, 'u', '0', '0', hexDigit (c.toNat / 16), hexDigit (c.toNat % 16)]
  else if c = Char.ofNat 0x2028 then [backslashChar, 'u', '2', '0', '2', '8']
  else if c = Char.ofNat 0x2029 then [backslashChar, 'u', '2', '0', '2', '9']
  else [c]

/-- A string as a JSON string literal. -/
def jsonString (s : String) : String :=
  String.mk (quoteChar :: (s.data.flatMap jsonEscape ++ [quoteChar]))

/-- Byte-wise order of keys (`strings.Compare`), which on valid UTF-8 is the
lexicographic order of code points. -/
def keyLE : List Char → List Char → Bool
  | [], _ => true
  | _ :: _, [] => false
  | a :: as, b :: bs => decide (a.toNat < b.toNat) || (a == b && keyLE as bs)

/-- The entries of a map in the order `encoding/json` writes them: sorted by key. -/
def sortedByKey (m : Attributes) : List (String × String) :=
  m.insertionSort (fun a b => keyLE a.1.data b.1.data = true)

/-- How `encoding/json` writes a field value. -/
def JSONField.render : JSONField → String
  | JSONField.str s => jsonString s
  | JSONField.strMap m =>
    "\x7b" ++ ",".intercalate ((sortedByKey m).map
      (fun kv => jsonString kv.1 ++ ":" ++ jsonString kv.2)) ++ "\x7d"

/-- How `encoding/json` writes an object with the given fields. -/
def renderObject (fields : List (String × JSONField)) : String :=
  "\x7b" ++ ",".intercalate (fields.map (fun f => jsonString f.1 ++ ":" ++ f.2.render))
    ++ "\x7d"

/-- The fields `encoding/json` writes for a `JSONLogEntry`, in declaration order
under the names of the `json` tags; `omitempty` drops a map without entries and
an empty string. -/
def JSONLogEntry.fields (v : JSONLogEntry) : List (String × JSONField) :=
  [("timestamp", JSONField.str v.Timestamp), ("level", JSONField.str v.Level),
    ("message", JSONField.str v.Message)]
  ++ (if v.Attributes.length > 0 then [("attributes", JSONField.strMap v.Attributes)] else [])
  ++ (if v.TransactionID ≠ "" then [("transaction_id", JSONField.str v.TransactionID)] else [])

/-- Go `json.Marshal` on a `JSONLogEntry`; it cannot fail on this type. -/
def JSONLogEntry.Marshal (v : JSONLogEntry) : String := renderObject v.fields

/-- Go `(*json.Encoder).Encode` on a `JSONLogEntry`, returning the encoder with the
operating system:
```
if enc.err != nil { return enc.err }
... // the encoding of v followed by a newline, in b; it cannot fail on this type
if _, err = enc.w.Write(b); err != nil { enc.err = err }
return err
```
-/
def Encode (enc : Encoder) (v : JSONLogEntry) (os : OS) : (Encoder × OS) × error :=
  match enc.err with
  | some err => ((enc, os), some err)
  | none =>
    match os.perform (SysCall.write enc.w (v.Marshal ++ "\n")) with
    | (os1, some err) => (({ enc with err := some err }, os1), some err)
    | (os1, none) => ((enc, os1), none)

/-- The part shared by `NewJSONFileDriver` and `NewTextFileDriver` up to the
opened file: the `file_path` check, `os.MkdirAll` and `os.OpenFile`.  The file
opened is identified by the number of calls made before it. -/
def openLogFile (options : Options) (os : OS) : OS × (Option (String × Handle) × error) :=
  match options.string "file_path" with
  | none => (os, (none, some "file_path is required"))
  | some filePath =>
    if filePath = "" then (os, (none, some "file_path is required"))
    else
      match os.perform (SysCall.mkdirAll filePath) with
      | (os1, some err) => (os1, (none, some ("failed to create directory: " ++ err)))
      | (os1, none) =>
        match os1.perform (SysCall.openFile filePath) with
        | (os2, some err) => (os2, (none, some ("failed to open file: " ++ err)))
        | (os2, none) => (os2, (some (filePath, 3 + os1.calls.length), none))

/-- `func NewJSONFileDriver(options map[string]interface{}) (core.Driver, error)`. -/
def NewJSONFileDriver (options : Options) (os : OS) :
    OS × (Option JSONFileDriver × error) :=
  match openLogFile options os with
  | (os1, (none, err)) => (os1, (none, err))
  | (os1, (some (filePath, file), _)) =>
    let driver : JSONFileDriver :=
      { filePath := filePath, file := some file, encoder := NewEncoder file,
        minLevel := Debug }
    let driver :=
      match options.string "min_level" with
      | some levelStr =>
        match ParseLevel levelStr with
        | (level, none) => { driver with minLevel := level }
        | (_, some _) => driver
      | none => driver
    (os1, (some driver, none))

/-- `func (d *JSONFileDriver) Log(entry *core.LogEntry) error`; the receiver is
returned with the encoder as `Encode` left it. -/
def JSONFileDriver.Log (rt : Runtime) (d : JSONFileDriver) (entry : LogEntry) (os : OS) :
    (JSONFileDriver × OS) × error :=
  if entry.Level < d.minLevel then ((d, os), none)
  else
    match d.file with
    | none => ((d, os), some "driver is closed")
    | some _ =>
      let jsonEntry : JSONLogEntry :=
        { Timestamp := rt.Format entry.Timestamp fileTimeLayout
          Level := entry.Level.String
          Message := entry.Message
          Attributes := entry.Attrs
          TransactionID := entry.TransactionID }
      (({ d with encoder := (Encode d.encoder jsonEntry os).1.1 },
          (Encode d.encoder jsonEntry os).1.2), (Encode d.encoder jsonEntry os).2)

/-- `func (d *JSONFileDriver) Close() error`. -/
def JSONFileDriver.Close (d : JSONFileDriver) (os : OS) : (JSONFileDriver × OS) × error :=
  match d.file with
  | none => ((d, os), none)
  | some file =>
    (({ d with file := none }, (os.perform (SysCall.close file)).1),
      (os.perform (SysCall.close file)).2)

/-! ## text_file.go -/

/-- Go `type TextFileDriver struct`; `file` is `none` for the nil pointer and the
mutex is left out. -/
structure TextFileDriver where
  filePath : String
  file : Option Handle
  minLevel : Level
deriving DecidableEq, Repr

/-- `func NewTextFileDriver(options map[string]interface{}) (core.Driver, error)`. -/
def NewTextFileDriver (options : Options) (os : OS) :
    OS × (Option TextFileDriver × error) :=
  match openLogFile options os with
  | (os1, (none, err)) => (os1, (none, err))
  | (os1, (some (filePath, file), _)) =>
    let driver : TextFileDriver :=
      { filePath := filePath, file := some file, minLevel := Debug }
    let driver :=
      match options.string "min_level" with
      | some levelStr =>
        match ParseLevel levelStr with
        | (level, none) => { driver with minLevel := level }
        | (_, some _) => driver
      | none => driver
    (os1, (some driver, none))

/-- The loop of `TextFileDriver.Log` over the attributes, run on the entries in the
order `range` yields them, from the flag `first` and the builder content:
```
for k, v := range entry.Attrs {
    if !first { builder.WriteString(", ") }
    first = false
    builder.WriteString(k); builder.WriteString("="); builder.WriteString(v)
}
```
-/
def writeAttrs : List (String × String) → Bool → String → String
  | [], _, builder => builder
  | (k, v) :: rest, first, builder =>
    let builder := if !first then builder ++ ", " else builder
    writeAttrs rest false (((builder ++ k) ++ "=") ++ v)

/-- `func (d *TextFileDriver) Log(entry *core.LogEntry) error`; the `strings.Builder`
is the string built so far and `d.file.WriteString` is one `Write` on the file. -/
def TextFileDriver.Log (rt : Runtime) (d : TextFileDriver) (entry : LogEntry) (os : OS) :
    (TextFileDriver × OS) × error :=
  if entry.Level < d.minLevel then ((d, os), none)
  else
    match d.file with
    | none => ((d, os), some "driver is closed")
    | some file =>
      let builder := ""
      let builder := builder ++ rt.Format entry.Timestamp fileTimeLayout
      let builder := builder ++ " ["
      let builder := builder ++ entry.Level.String
      let builder := builder ++ "] "
      let builder := builder ++ entry.Message
      let builder :=
        if entry.Attrs.length > 0 then
          let builder := builder ++ " \x7b"
          let builder := writeAttrs (rt.rangeOrder entry.Attrs) true builder
          builder ++ "\x7d"
        else builder
      let builder :=
        if entry.TransactionID ≠ "" then
          ((builder ++ " (txn: ") ++ entry.TransactionID) ++ ")"
        else builder
      let builder := builder ++ "\n"
      ((d, (os.perform (SysCall.write file builder)).1),
        (os.perform (SysCall.write file builder)).2)

/-- `func (d *TextFileDriver) Close() error`. -/
def TextFileDriver.Close (d : TextFileDriver) (os : OS) : (TextFileDriver × OS) × error :=
  match d.file with
  | none => ((d, os), none)
  | some file =>
    (({ d with file := none }, (os.perform (SysCall.close file)).1),
      (os.perform (SysCall.close file)).2)

/-! ## Drivers as `core.Driver` values -/

/-- A driver struct in memory, of one of the three concrete types. -/
inductive DriverObject where
  | console (d : ConsoleDriver)
  | jsonFile (d : JSONFileDriver)
  | textFile (d : TextFileDriver)
deriving DecidableEq, Repr

/-- The world the concrete drivers act on: the operating system and the driver
structs allocated so far; a pointer to a driver struct is its index in `heap`. -/
structure World where
  os : OS
  heap : List DriverObject
deriving DecidableEq, Repr

/-- `Log` through a pointer to a driver struct, dispatched on the type of the
struct. -/
def DriverObject.Log (rt : Runtime) (o : DriverObject) (entry : LogEntry) (os : OS) :
    (DriverObject × OS) × error :=
  match o with
  | DriverObject.console d =>
    ((DriverObject.console (d.Log rt entry os).1.1, (d.Log rt entry os).1.2),
      (d.Log rt entry os).2)
  | DriverObject.jsonFile d =>
    ((DriverObject.jsonFile (d.Log rt entry os).1.1, (d.Log rt entry os).1.2),
      (d.Log rt entry os).2)
  | DriverObject.textFile d =>
    ((DriverObject.textFile (d.Log rt entry os).1.1, (d.Log rt entry os).1.2),
      (d.Log rt entry os).2)

/-- `Close` through a pointer to a driver struct, dispatched on the type of the
struct. -/
def DriverObject.Close (o : DriverObject) (os : OS) : (DriverObject × OS) × error :=
  match o with
  | DriverObject.console d =>
    ((DriverObject.console (d.Close os).1.1, (d.Close os).1.2), (d.Close os).2)
  | DriverObject.jsonFile d =>
    ((DriverObject.jsonFile (d.Close os).1.1, (d.Close os).1.2), (d.Close os).2)
  | DriverObject.textFile d =>
    ((DriverObject.textFile (d.Close os).1.1, (d.Close os).1.2), (d.Close os).2)

/-- The `core.Driver` interface value holding the pointer `p`: its methods run the
methods of the struct at `p` and store the struct back.  No struct is ever
freed, so a pointer handed out by a constructor is always valid; on another
index the methods do nothing. -/
def driverAt (rt : Runtime) (p : Nat) : Driver World :=
  { Log := fun entry w =>
      match w.heap[p]? with
      | some o =>
        ({ os := (o.Log rt entry w.os).1.2, heap := w.heap.set p (o.Log rt entry w.os).1.1 },
          (o.Log rt entry w.os).2)
      | none => (w, none)
    Close := fun w =>
      match w.heap[p]? with
      | some o =>
        ({ os := (o.Close w.os).1.2, heap := w.heap.set p (o.Close w.os).1.1 },
          (o.Close w.os).2)
      | none => (w, none) }

/-- A runtime for examples: timestamps are written as `T` followed by the instant
in decimal, and `range` enumerates a map in the order of its association
list. -/
def exampleRuntime : Runtime :=
  { Format := fun t _ => "T" ++ toString t
    rangeOrder := fun a => a
    rangeOrder_perm := fun a => List.Perm.refl a }

/-! ## Vocabulary of the driver theorems -/

/-- Between the states `os` and `os1` exactly one call was made, a `Write` of
`bytes` on the writer `h`. -/
def wroteExactly (os os1 : OS) (h : Handle) (bytes : String) : Prop :=
  os1.calls = os.calls ++ [SysCall.write h bytes]

/-- The text a driver writes for the attributes `pairs`: `k=v` for each pair,
separated by `", "`. -/
def joinPairs (pairs : List (String × String)) : String :=
  ", ".intercalate (pairs.map (fun kv => kv.1 ++ "=" ++ kv.2))

/-- The record the JSON file driver is specified to write for an entry. -/
def jsonRecord (rt : Runtime) (entry : LogEntry) : JSONLogEntry :=
  { Timestamp := rt.Format entry.Timestamp fileTimeLayout
    Level := entry.Level.String
    Message := entry.Message
    Attributes := entry.Attrs
    TransactionID := entry.TransactionID }

/-- The line the text file driver is specified to write for an entry whose
attributes `range` yields in the order `pairs`. -/
def textLine (rt : Runtime) (entry : LogEntry) (pairs : List (String × String)) : String :=
  rt.Format entry.Timestamp fileTimeLayout ++ " [" ++ entry.Level.String ++ "] "
    ++ entry.Message
    ++ (if entry.Attrs.length > 0 then " \x7b" ++ joinPairs pairs ++ "\x7d" else "")
    ++ (if entry.TransactionID ≠ "" then " (txn: " ++ entry.TransactionID ++ ")" else "")
    ++ "\n"

/-- The driver struct `o` once closed: a file driver without its file, a console
driver as it is. -/
def DriverObject.closed : DriverObject → DriverObject
  | DriverObject.console d => DriverObject.console d
  | DriverObject.jsonFile d => DriverObject.jsonFile { d with file := none }
  | DriverObject.textFile d => DriverObject.textFile { d with file := none }

/-- The threshold `m` is the one prescribed for `options`: the default `Debug` when
`min_level` is absent, is not a string, or is a string `ParseLevel` rejects, and
the parsed level when it is a string `ParseLevel` accepts. -/
def thresholdAsConfigured (options : Options) (m : Level) : Prop :=
  ((∀ s, GoMap.get options "min_level" ≠ some (Value.str s)) → m = Debug) ∧
  (∀ s, GoMap.get options "min_level" = some (Value.str s) → (ParseLevel s).2 ≠ none →
    m = Debug) ∧
  (∀ s l, GoMap.get options "min_level" = some (Value.str s) → ParseLevel s = (l, none) →
    m = l)

/-- The option `file_path` is absent, is not a string, or is the empty string. -/
def filePathMissing (options : Options) : Prop :=
  (∀ s, GoMap.get options "file_path" ≠ some (Value.str s)) ∨
    GoMap.get options "file_path" = some (Value.str "")

/-- The string holds no line feed. -/
def noNewline (s : String) : Prop := newlineChar ∉ s.data

instance (s : String) : Decidable (noNewline s) :=
  inferInstanceAs (Decidable (newlineChar ∉ s.data))

/-- Go `const ConsoleDriverName = "console"`. -/
def ConsoleDriverName : String := "console"

/-- Go `const JSONFileDriverName = "json_file"`. -/
def JSONFileDriverName : String := "json_file"

/-- Go `const TextFileDriverName = "text_file"`. -/
def TextFileDriverName : String := "text_file"

/-- A runtime for examples in which the layout shows: a timestamp is written as the
layout, `@`, and the instant in decimal; `range` enumerates a map in the order
of its association list. -/
def layoutRuntime : Runtime :=
  { Format := fun t layout => layout ++ "@" ++ toString t
    rangeOrder := fun a => a
    rangeOrder_perm := fun a => List.Perm.refl a }

/-- The number of line feeds in a string. -/
def newlineCount (s : String) : Nat := s.data.count newlineChar

end drivers

namespace config

open core drivers

/-! ## config.go -/

/-- The `map[string]interface{}` objects in memory, by address.  A map value of Go is
nil or a reference to a map object: here `none` or the index of the object, so
that two values holding the same index share the object, and an assignment
through one shows through the other. -/
abbrev Maps := List Options

/-- The contents of the map object at the address `p`.  A map value of Go holds the
address of an allocated object, `p < maps.length`. -/
def mapAt (maps : Maps) (p : Nat) : Options := (maps[p]?).getD []

/-- Go `type DriverConfig struct`; the field `Type` is `Typ` here, and `Options` is
`none` for the nil map or the address of the map object. -/
structure DriverConfig where
  Typ : String
  MinLevel : String
  Options : Option Nat
deriving DecidableEq, Repr

/-- Go `type Config struct`, without the field `Logger`, which `CreateLogger` does
not read. -/
structure Config where
  DefaultLevel : String
  Drivers : List DriverConfig
deriving DecidableEq, Repr

/-- The value `core.NewLogger(driverInstances...)` that `CreateLogger` returns, given
by `driverInstances`: the driver values in order, `none` being a nil
`core.Driver`. -/
abbrev Logger (δ : Type) := List (Option δ)

/-- The loop of `CreateLogger` over the remaining driver configurations, from the
drivers built so far and the map objects in memory:
```
for _, driverConfig := range c.Drivers {
    if driverConfig.Options == nil { driverConfig.Options = make(map[string]interface{}) }
    if _, ok := driverConfig.Options["min_level"]; !ok && driverConfig.MinLevel != "" {
        driverConfig.Options["min_level"] = driverConfig.MinLevel
    }
    driver, err := drivers.Create(driverConfig.Type, driverConfig.Options)
    if err != nil { return nil, fmt.Errorf("failed to create driver '%s': %w", ...) }
    driverInstances = append(driverInstances, driver)
}
```
`driverConfig` is a copy of the element of `c.Drivers`, so `c.Drivers` keeps its
nil maps, while the assignment of `min_level` goes into the map object the
element refers to.  `ref` is `driverConfig.Options` after the first statement.
A constructor is given the contents of the map at the time of its call. -/
def createLoop {σ δ : Type} (registry : Registry σ δ) :
    List DriverConfig → List (Option δ) → Maps → σ →
      (Maps × σ) × (Option (Logger δ) × error)
  | [], driverInstances, maps, w => ((maps, w), (some driverInstances, none))
  | driverConfig :: rest, driverInstances, maps, w =>
    let ref : Nat :=
      match driverConfig.Options with
      | none => maps.length
      | some p => p
    let maps : Maps :=
      match driverConfig.Options with
      | none => maps ++ [[]]
      | some _ => maps
    let maps : Maps :=
      if (GoMap.get (mapAt maps ref) "min_level").isNone ∧ driverConfig.MinLevel ≠ "" then
        maps.set ref (GoMap.set (mapAt maps ref) "min_level" (Value.str driverConfig.MinLevel))
      else maps
    match Create registry driverConfig.Typ (mapAt maps ref) w with
    | (w1, (_, some err)) =>
      ((maps, w1),
        (none, some ("failed to create driver '" ++ driverConfig.Typ ++ "': " ++ err)))
    | (w1, (driver, none)) => createLoop registry rest (driverInstances ++ [driver]) maps w1

/-- `func (c *Config) CreateLogger() (Logger, error)`, run with the value `registry`
of the registry of package `drivers` and the map objects `maps` in memory. -/
def Config.CreateLogger {σ δ : Type} (registry : Registry σ δ) (c : Config) (maps : Maps)
    (w : σ) : (Maps × σ) × (Option (Logger δ) × error) :=
  createLoop registry c.Drivers [] maps w

/-! ## Observation of constructor calls -/

/-- The constructor `c` registered under `name`, recording each of its calls with
the options it is given. -/
def recorded {σ δ : Type} (name : String) (c : DriverConstructor σ δ) :
    DriverConstructor (σ × List (String × Options)) δ :=
  fun options w => (((c options w.1).1, w.2 ++ [(name, options)]), (c options w.1).2)

/-- The registry with every constructor recording its calls. -/
def recordedRegistry {σ δ : Type} (registry : Registry σ δ) :
    Registry (σ × List (String × Options)) δ :=
  registry.map (fun nc => (nc.1, recorded nc.1 nc.2))

/-- The map of a driver configuration refers to a map object in memory, or is
nil. -/
def refValid (maps : Maps) (dc : DriverConfig) : Bool :=
  match dc.Options with
  | none => true
  | some p => decide (p < maps.length)

/-- Every map of the driver configurations refers to a map object in memory, or is
nil. -/
def validRefs (maps : Maps) (dcs : List DriverConfig) : Bool := dcs.all (refValid maps)

/-- No two of the driver configurations share a map object. -/
def distinctRefs (dcs : List DriverConfig) : Prop :=
  (dcs.filterMap (fun x : DriverConfig => x.Options)).Nodup

instance (dcs : List DriverConfig) : Decidable (distinctRefs dcs) :=
  inferInstanceAs
    (Decidable (dcs.filterMap (fun x : DriverConfig => x.Options)).Nodup)

/-- The options under a driver configuration when its turn comes: the contents of
its map, none for the nil map. -/
def configuredOptions (maps : Maps) (dc : DriverConfig) : Options :=
  match dc.Options with
  | none => []
  | some p => mapAt maps p

/-- The options `CreateLogger` is specified to pass for a driver configuration, from
the options under it when its turn comes: these, with `min_level` set to
`MinLevel` when the key is absent and `MinLevel` is not empty. -/
def passedOptions (maps : Maps) (dc : DriverConfig) : Options :=
  match GoMap.get (configuredOptions maps dc) "min_level" with
  | some _ => configuredOptions maps dc
  | none =>
    if dc.MinLevel ≠ "" then
      GoMap.set (configuredOptions maps dc) "min_level" (Value.str dc.MinLevel)
    else configuredOptions maps dc

/-- The map objects after the turn of a driver configuration: its map object holds
the options passed, a new object in the place of a nil map. -/
def mapsAfter (maps : Maps) (dc : DriverConfig) : Maps :=
  match dc.Options with
  | none => maps ++ [passedOptions maps dc]
  | some p => maps.set p (passedOptions maps dc)

/-- The calls `CreateLogger` is specified to make when no call fails: for each driver
configuration in list order its `Type` with the options passed, the map objects
being those the earlier turns left. -/
def plannedCalls : Maps → List DriverConfig → List (String × Options)
  | _, [] => []
  | maps, dc :: rest => (dc.Typ, passedOptions maps dc) :: plannedCalls (mapsAfter maps dc) rest

/-- The registry after `Register(ConsoleDriverName, NewConsoleDriver)` alone. -/
def consoleRegistry : Registry Unit ConsoleDriver :=
  Register [] ConsoleDriverName
    (fun options w => (w, (some (NewConsoleDriver options).1, (NewConsoleDriver options).2)))

/-- The driver values returned by the constructors when the driver configurations
are created one after another, in list order, each on the world and the map
objects the previous one left: the constructor registered under `Typ`, applied
to `passedOptions`. -/
def createdDrivers {σ δ : Type} (registry : Registry σ δ) :
    Maps → List DriverConfig → σ → List (Option δ)
  | _, [], _ => []
  | maps, dc :: rest, w =>
    (Create registry dc.Typ (passedOptions maps dc) w).2.1 ::
      createdDrivers registry (mapsAfter maps dc) rest
        (Create registry dc.Typ (passedOptions maps dc) w).1

end config

namespace core

/-! ## Lemmas on the driver loop -/

theorem lastFailureOr_cons_none (dflt : error) (i : Nat) (inv : Invocation) (tr : List Event) :
    lastFailureOr dflt (Event.mk i inv none :: tr) = lastFailureOr dflt tr := by
  simp [lastFailureOr, List.filter_cons]

theorem lastFailureOr_cons_some (dflt : error) (i : Nat) (inv : Invocation) (e : String)
    (tr : List Event) :
    lastFailureOr dflt (Event.mk i inv (some e) :: tr) = lastFailureOr (some e) tr := by
  simp only [lastFailureOr, List.filter_cons, Option.isSome_some, if_true, List.getLast?_cons]
  cases (tr.filter (fun ev => ev.result.isSome)).getLast? <;> simp

/-- Running the loop over recording drivers: the world and the returned error are
those of the plain loop, and the trace grows by one event per driver, in list
order, whose results determine the returned error. -/
theorem rangeDrivers_traced {σ : Type} (call : Driver σ → σ → σ × error)
    (callT : Driver (σ × List Event) → σ × List Event → (σ × List Event) × error)
    (inv : Invocation)
    (hT : ∀ (i : Nat) (d : Driver σ) (w : σ) (tr : List Event),
      callT (traced i d) (w, tr) =
        (((call d w).1, tr ++ [Event.mk i inv (call d w).2]), (call d w).2))
    (ds : List (Driver σ)) :
    ∀ (k : Nat) (lastErr : error) (w : σ) (tr : List Event),
      ∃ evs : List Event,
        rangeDrivers callT (tracedFrom k ds) lastErr (w, tr) =
          (((rangeDrivers call ds lastErr w).1, tr ++ evs), (rangeDrivers call ds lastErr w).2) ∧
        evs.map (fun ev => (ev.driver, ev.call)) =
          (List.range' k ds.length).map (fun i => (i, inv)) ∧
        (rangeDrivers call ds lastErr w).2 = lastFailureOr lastErr evs := by
  induction ds with
  | nil =>
    intro k lastErr w tr
    exact ⟨[], by simp [tracedFrom, rangeDrivers], by simp, by simp [rangeDrivers, lastFailureOr]⟩
  | cons d ds ih =>
    intro k lastErr w tr
    cases hc : call d w with
    | mk w1 r =>
      cases r with
      | none =>
        obtain ⟨evs, hrun, hord, herr⟩ := ih (k + 1) lastErr w1 (tr ++ [Event.mk k inv none])
        refine ⟨Event.mk k inv none :: evs, ?_, ?_, ?_⟩
        · simp only [tracedFrom, rangeDrivers, hT, hc, hrun, List.append_assoc,
            List.singleton_append]
        · simp [List.range'_succ, hord]
        · simp only [rangeDrivers, hc, herr, lastFailureOr_cons_none]
      | some e =>
        obtain ⟨evs, hrun, hord, herr⟩ :=
          ih (k + 1) (some e) w1 (tr ++ [Event.mk k inv (some e)])
        refine ⟨Event.mk k inv (some e) :: evs, ?_, ?_, ?_⟩
        · simp only [tracedFrom, rangeDrivers, hT, hc, hrun, List.append_assoc,
            List.singleton_append]
        · simp [List.range'_succ, hord]
        · simp only [rangeDrivers, hc, herr, lastFailureOr_cons_some]

theorem lastFailure_eq_none_iff (tr : List Event) :
    lastFailure tr = none ↔ ∀ ev ∈ tr, ev.result = none := by
  unfold lastFailure lastFailureOr
  constructor
  · intro h ev hev
    cases hf : (tr.filter (fun ev => ev.result.isSome)).getLast? with
    | none =>
      have hnil : tr.filter (fun ev => ev.result.isSome) = [] := by simpa using hf
      cases hr : ev.result with
      | none => rfl
      | some e =>
        have : ev ∈ tr.filter (fun ev => ev.result.isSome) := by
          simp [List.mem_filter, hev, hr]
        simp [hnil] at this
    | some x =>
      rw [hf] at h
      have hx : x ∈ tr.filter (fun ev => ev.result.isSome) := List.mem_of_getLast?_eq_some hf
      have hx2 : x.result.isSome = true := (List.mem_filter.mp hx).2
      have h2 : x.result = none := h
      simp [h2] at hx2
  · intro h
    have hnil : tr.filter (fun ev => ev.result.isSome) = [] := by
      simp only [List.filter_eq_nil_iff]
      intro ev hev
      simp [h ev hev]
    simp [hnil]

theorem logger_Log_eq {σ : Type} (l : logger σ) (now : Time) (level : Level) (msg : String)
    (attrs : List Attributes) (w : σ) :
    l.Log now level msg attrs w =
      rangeDrivers (fun driver => driver.Log (entryFor now level msg attrs "")) l.drivers none w := by
  cases attrs <;> simp [logger.Log, entryFor]

theorem transaction_Log_eq {σ : Type} (t : transaction σ) (now : Time) (level : Level)
    (msg : String) (attrs : List Attributes) (w : σ) :
    t.Log now level msg attrs w =
      rangeDrivers (fun driver => driver.Log (entryFor now level msg attrs t.id))
        t.logger.drivers none w := by
  cases attrs <;> simp [transaction.Log, entryFor]

/-- One dispatch of `entry` over recording drivers, started on the trace `tr`. -/
theorem dispatch_traced {σ : Type} (entry : LogEntry) (ds : List (Driver σ)) (w : σ)
    (tr : List Event) :
    ∃ evs : List Event,
      rangeDrivers (fun driver => driver.Log entry) (tracedAll ds) none (w, tr) =
        (((rangeDrivers (fun driver => driver.Log entry) ds none w).1, tr ++ evs),
          (rangeDrivers (fun driver => driver.Log entry) ds none w).2) ∧
      evs.map (fun ev => (ev.driver, ev.call)) =
        (List.range ds.length).map (fun i => (i, Invocation.log entry)) ∧
      (rangeDrivers (fun driver => driver.Log entry) ds none w).2 = lastFailure evs := by
  have h := rangeDrivers_traced (fun driver => driver.Log entry)
    (fun driver => driver.Log entry) (Invocation.log entry) (fun _ _ _ _ => rfl) ds 0 none w tr
  simpa [tracedAll, lastFailure, List.range_eq_range'] using h

/-- One `Close` sweep over recording drivers, started on the trace `tr`. -/
theorem close_traced {σ : Type} (ds : List (Driver σ)) (w : σ) (tr : List Event) :
    ∃ evs : List Event,
      rangeDrivers (fun driver => driver.Close) (tracedAll ds) none (w, tr) =
        (((rangeDrivers (fun driver => driver.Close) ds none w).1, tr ++ evs),
          (rangeDrivers (fun driver => driver.Close) ds none w).2) ∧
      evs.map (fun ev => (ev.driver, ev.call)) =
        (List.range ds.length).map (fun i => (i, Invocation.close)) ∧
      (rangeDrivers (fun driver => driver.Close) ds none w).2 = lastFailure evs := by
  have h := rangeDrivers_traced (fun driver => driver.Close)
    (fun driver => driver.Close) Invocation.close (fun _ _ _ _ => rfl) ds 0 none w tr
  simpa [tracedAll, lastFailure, List.range_eq_range'] using h

/-! ## Dispatch: `logger.Log` and `logger.Close` -/

/-- C1: a logging call on a logger built from the drivers `ds` calls `Log` on every
driver exactly once, in the order of `ds`, each time with the entry of the call,
whatever the drivers return (so a failing driver does not stop the later ones);
recording the calls changes neither the resulting world nor the returned error.
The four level methods are `Log` at their level. -/
theorem logger_Log_calls_each_driver_once_in_order {σ : Type} (ds : List (Driver σ))
    (now : Time) (level : Level) (msg : String) (attrs : List Attributes) (w : σ) :
    (∃ evs : List Event,
      (NewLogger (tracedAll ds)).Log now level msg attrs (w, []) =
        ((((NewLogger ds).Log now level msg attrs w).1, evs),
          ((NewLogger ds).Log now level msg attrs w).2) ∧
      evs.map (fun ev => (ev.driver, ev.call)) =
        (List.range ds.length).map
          (fun i => (i, Invocation.log (entryFor now level msg attrs "")))) ∧
    (NewLogger ds).Debug now msg attrs w = (NewLogger ds).Log now Debug msg attrs w ∧
    (NewLogger ds).Info now msg attrs w = (NewLogger ds).Log now Info msg attrs w ∧
    (NewLogger ds).Warning now msg attrs w = (NewLogger ds).Log now Warning msg attrs w ∧
    (NewLogger ds).Error now msg attrs w = (NewLogger ds).Log now Error msg attrs w := by
  refine ⟨?_, rfl, rfl, rfl, rfl⟩
  obtain ⟨evs, hrun, hord, _⟩ := dispatch_traced (entryFor now level msg attrs "") ds w []
  refine ⟨evs, ?_, hord⟩
  rw [logger_Log_eq, logger_Log_eq]
  simpa [NewLogger] using hrun

/-- C2: the error returned by a logging call is the error returned by the last
driver, in construction order, whose `Log` failed, and `nil` when none failed: it
is non-nil exactly when some driver returned an error.  A logger without drivers
returns `nil`; with two drivers of which the first succeeds and the second fails,
the call returns the second driver's error after both drivers have run, as
`MockDriver`s show: the first mock has recorded the entry. -/
theorem logger_Log_returns_last_failure {σ : Type} (ds : List (Driver σ))
    (now : Time) (level : Level) (msg : String) (attrs : List Attributes) (w : σ) :
    (∃ evs : List Event,
      (NewLogger (tracedAll ds)).Log now level msg attrs (w, []) =
        ((((NewLogger ds).Log now level msg attrs w).1, evs),
          ((NewLogger ds).Log now level msg attrs w).2) ∧
      evs.map (fun ev => ev.driver) = List.range ds.length ∧
      ((NewLogger ds).Log now level msg attrs w).2 = lastFailure evs ∧
      (((NewLogger ds).Log now level msg attrs w).2 ≠ none ↔ ∃ ev ∈ evs, ev.result ≠ none)) ∧
    (NewLogger ([] : List (Driver σ))).Log now level msg attrs w = (w, none) ∧
    (∀ (d1 d2 : Driver σ) (err : String),
      (d1.Log (entryFor now level msg attrs "") w).2 = none →
      (d2.Log (entryFor now level msg attrs "")
        (d1.Log (entryFor now level msg attrs "") w).1).2 = some err →
      (NewLogger [d1, d2]).Log now level msg attrs w =
        ((d2.Log (entryFor now level msg attrs "")
          (d1.Log (entryFor now level msg attrs "") w).1).1, some err)) ∧
    (NewLogger [mockAt 0, mockAt 1]).Info now msg attrs
        [MockDriver.mk [] false false, MockDriver.mk [] true false] =
      ([MockDriver.mk [entryFor now Info msg attrs ""] false false,
        MockDriver.mk [entryFor now Info msg attrs ""] true false],
       some "mock driver error") := by
  refine ⟨?_, ?_, ?_, ?_⟩
  · obtain ⟨evs, hrun, hord, herr⟩ := dispatch_traced (entryFor now level msg attrs "") ds w []
    refine ⟨evs, ?_, ?_, ?_, ?_⟩
    · rw [logger_Log_eq, logger_Log_eq]
      simpa [NewLogger] using hrun
    · have h := congrArg (List.map Prod.fst) hord
      simpa [List.map_map, Function.comp_def] using h
    · rw [logger_Log_eq]
      simpa [NewLogger] using herr
    · rw [logger_Log_eq]
      have hiff := lastFailure_eq_none_iff evs
      simp only [NewLogger, herr, ne_eq, hiff]
      push_neg
      rfl
  · rw [logger_Log_eq]
    rfl
  · intro d1 d2 err h1 h2
    rw [logger_Log_eq]
    cases hc1 : d1.Log (entryFor now level msg attrs "") w with
    | mk w1 r1 =>
      rw [hc1] at h1 h2
      simp only at h1 h2
      subst h1
      cases hc2 : d2.Log (entryFor now level msg attrs "") w1 with
      | mk w2 r2 =>
        rw [hc2] at h2
        simp only at h2
        subst h2
        simp [NewLogger, rangeDrivers, hc1, hc2]
  · rw [logger.Info, logger_Log_eq]
    simp [NewLogger, rangeDrivers, mockAt, MockDriver.Log]

/-- C3: `Close` on a logger built from the drivers `ds` calls `Close` on every driver
exactly once, in the order of `ds`, whatever the drivers return; it returns the
error of the last driver whose `Close` failed, and `nil` exactly when none
failed.  In the scenario of `TestLoggerClose` both mock drivers end up closed and
the error is the second driver's. -/
theorem logger_Close_closes_every_driver {σ : Type} (ds : List (Driver σ)) (w : σ) :
    ∃ evs : List Event,
      (NewLogger (tracedAll ds)).Close (w, []) =
        ((((NewLogger ds).Close w).1, evs), ((NewLogger ds).Close w).2) ∧
      evs.map (fun ev => (ev.driver, ev.call)) =
        (List.range ds.length).map (fun i => (i, Invocation.close)) ∧
      ((NewLogger ds).Close w).2 = lastFailure evs ∧
      (((NewLogger ds).Close w).2 = none ↔ ∀ ev ∈ evs, ev.result = none) ∧
      (NewLogger [mockAt 0, mockAt 1]).Close
          [MockDriver.mk [] false false, MockDriver.mk [] true false] =
        ([MockDriver.mk [] false true, MockDriver.mk [] true true],
          some "mock driver close error") := by
  obtain ⟨evs, hrun, hord, herr⟩ := close_traced ds w []
  refine ⟨evs, ?_, hord, ?_, ?_, by decide⟩
  · simpa [NewLogger, logger.Close] using hrun
  · simpa [NewLogger, logger.Close] using herr
  · have hiff := lastFailure_eq_none_iff evs
    simp only [NewLogger, logger.Close, herr, hiff]

/-! ## Transactions -/

theorem entries_of_ordered_calls (evs : List Event) (n : Nat) (entry : LogEntry)
    (h : evs.map (fun ev => (ev.driver, ev.call)) =
      (List.range n).map (fun i => (i, Invocation.log entry))) :
    evs.map Event.entry? = List.replicate n (some entry) ∧
      evs.map (fun ev => ev.driver) = List.range n := by
  constructor
  · have h2 := congrArg (List.map (fun p : Nat × Invocation =>
      (Event.mk p.1 p.2 none).entry?)) h
    simp only [List.map_map, Function.comp_def, Event.entry?] at h2
    have h3 : evs.map Event.entry? = List.map (fun _ => some entry) (List.range n) := h2
    rw [h3]
    simp
  · have h2 := congrArg (List.map Prod.fst) h
    simpa [List.map_map, Function.comp_def] using h2

/-- C4: every entry that a transaction created by `NewTransaction id` hands to a
driver carries `TransactionID = id` (one entry per driver), `ID()` returns `id`,
and every entry that a call made on the logger itself hands to a driver carries
the empty `TransactionID`. -/
theorem transaction_entries_carry_id {σ : Type} (ds : List (Driver σ)) (id : String)
    (now : Time) (level : Level) (msg : String) (attrs : List Attributes) (w : σ) :
    (∃ evs : List Event,
      ((NewLogger (tracedAll ds)).NewTransaction id).Log now level msg attrs (w, []) =
        (((((NewLogger ds).NewTransaction id).Log now level msg attrs w).1, evs),
          (((NewLogger ds).NewTransaction id).Log now level msg attrs w).2) ∧
      evs.map (fun ev => ev.entry?.map (fun e => e.TransactionID)) =
        List.replicate ds.length (some id)) ∧
    ((NewLogger ds).NewTransaction id).ID = id ∧
    (∃ evs : List Event,
      (NewLogger (tracedAll ds)).Log now level msg attrs (w, []) =
        ((((NewLogger ds).Log now level msg attrs w).1, evs),
          ((NewLogger ds).Log now level msg attrs w).2) ∧
      evs.map (fun ev => ev.entry?.map (fun e => e.TransactionID)) =
        List.replicate ds.length (some "")) := by
  refine ⟨?_, rfl, ?_⟩
  · obtain ⟨evs, hrun, hord, _⟩ := dispatch_traced (entryFor now level msg attrs id) ds w []
    refine ⟨evs, ?_, ?_⟩
    · rw [transaction_Log_eq, transaction_Log_eq]
      simpa [NewLogger, logger.NewTransaction, newTransaction] using hrun
    · have h := congrArg (List.map (fun o : Option LogEntry => o.map (fun e => e.TransactionID)))
        (entries_of_ordered_calls evs ds.length _ hord).1
      simpa [List.map_map, Function.comp_def, entryFor] using h
  · obtain ⟨evs, hrun, hord, _⟩ := dispatch_traced (entryFor now level msg attrs "") ds w []
    refine ⟨evs, ?_, ?_⟩
    · rw [logger_Log_eq, logger_Log_eq]
      simpa [NewLogger] using hrun
    · have h := congrArg (List.map (fun o : Option LogEntry => o.map (fun e => e.TransactionID)))
        (entries_of_ordered_calls evs ds.length _ hord).1
      simpa [List.map_map, Function.comp_def, entryFor] using h

theorem rangeDrivers_congr {σ : Type} (f g : Driver σ → σ → σ × error) (ds : List (Driver σ))
    (h : ∀ d ∈ ds, ∀ w, f d w = g d w) :
    ∀ (lastErr : error) (w : σ), rangeDrivers f ds lastErr w = rangeDrivers g ds lastErr w := by
  induction ds with
  | nil => intro lastErr w; rfl
  | cons d ds ih =>
    intro lastErr w
    have hd := h d (List.mem_cons_self d ds)
    have ih2 := ih (fun d2 hd2 => h d2 (List.mem_cons_of_mem d hd2))
    simp only [rangeDrivers, hd]
    cases g d w with
    | mk w1 r => cases r <;> simp [ih2]

/-- C5 as stated fails: a driver that refuses entries carrying a transaction
identifier makes `transaction.Log` return an error where `logger.Log`, called
with the same arguments, returns `nil`. -/
theorem transaction_Log_error_differs_for_id_sensitive_driver :
    (((NewLogger [txRejecting]).NewTransaction "tx-1").Log 0 Info "m" [] ()).2 =
        some "transaction entries refused" ∧
      ((NewLogger [txRejecting]).Log 0 Info "m" [] ()).2 = none := by
  decide

/-- C5, amended: `transaction.Log` is the dispatch of `logger.Log` on the entry of
`logger.Log` with only `TransactionID` set to the identifier: the same drivers are
called in the same order, each once, and the returned error is the last failure
among their answers in both operations.  With the identifier `""` the two
operations are equal, and so they are for every identifier when no driver's
`Log` depends on the `TransactionID` of the entry. -/
theorem transaction_Log_is_logger_dispatch_with_id {σ : Type} (ds : List (Driver σ))
    (id : String) (now : Time) (level : Level) (msg : String) (attrs : List Attributes)
    (w : σ) :
    ((NewLogger ds).Log now level msg attrs w =
        rangeDrivers (fun d => d.Log (entryFor now level msg attrs "")) ds none w ∧
      ((NewLogger ds).NewTransaction id).Log now level msg attrs w =
        rangeDrivers
          (fun d => d.Log { entryFor now level msg attrs "" with TransactionID := id })
          ds none w) ∧
    (∃ evsL evsT : List Event,
      (NewLogger (tracedAll ds)).Log now level msg attrs (w, []) =
        ((((NewLogger ds).Log now level msg attrs w).1, evsL),
          ((NewLogger ds).Log now level msg attrs w).2) ∧
      ((NewLogger (tracedAll ds)).NewTransaction id).Log now level msg attrs (w, []) =
        (((((NewLogger ds).NewTransaction id).Log now level msg attrs w).1, evsT),
          (((NewLogger ds).NewTransaction id).Log now level msg attrs w).2) ∧
      evsL.map (fun ev => ev.driver) = List.range ds.length ∧
      evsT.map (fun ev => ev.driver) = List.range ds.length ∧
      evsL.map Event.entry? = List.replicate ds.length (some (entryFor now level msg attrs "")) ∧
      evsT.map Event.entry? = List.replicate ds.length
        (some { entryFor now level msg attrs "" with TransactionID := id }) ∧
      ((NewLogger ds).Log now level msg attrs w).2 = lastFailure evsL ∧
      (((NewLogger ds).NewTransaction id).Log now level msg attrs w).2 = lastFailure evsT) ∧
    ((NewLogger ds).NewTransaction "").Log now level msg attrs w =
      (NewLogger ds).Log now level msg attrs w ∧
    ((∀ d ∈ ds, ∀ (e : LogEntry) (w1 : σ),
        d.Log e w1 = d.Log { e with TransactionID := "" } w1) →
      ((NewLogger ds).NewTransaction id).Log now level msg attrs w =
        (NewLogger ds).Log now level msg attrs w) := by
  refine ⟨⟨?_, ?_⟩, ?_, ?_, ?_⟩
  · rw [logger_Log_eq]; rfl
  · rw [transaction_Log_eq]; rfl
  · obtain ⟨evsL, hrunL, hordL, herrL⟩ :=
      dispatch_traced (entryFor now level msg attrs "") ds w []
    obtain ⟨evsT, hrunT, hordT, herrT⟩ :=
      dispatch_traced (entryFor now level msg attrs id) ds w []
    refine ⟨evsL, evsT, ?_, ?_, (entries_of_ordered_calls _ _ _ hordL).2,
      (entries_of_ordered_calls _ _ _ hordT).2, (entries_of_ordered_calls _ _ _ hordL).1,
      (entries_of_ordered_calls _ _ _ hordT).1, ?_, ?_⟩
    · rw [logger_Log_eq, logger_Log_eq]
      simpa [NewLogger] using hrunL
    · rw [transaction_Log_eq, transaction_Log_eq]
      simpa [NewLogger, logger.NewTransaction, newTransaction] using hrunT
    · rw [logger_Log_eq]
      simpa [NewLogger] using herrL
    · rw [transaction_Log_eq]
      simpa [NewLogger, logger.NewTransaction, newTransaction] using herrT
  · rw [logger_Log_eq, transaction_Log_eq]; rfl
  · intro h
    rw [logger_Log_eq, transaction_Log_eq]
    apply rangeDrivers_congr
    intro d hd w1
    have h1 := h d hd (entryFor now level msg attrs id) w1
    simpa [NewLogger, logger.NewTransaction, newTransaction, entryFor] using h1

/-- Witness for C5 amended: a driver that counts accepted entries and refuses
those below `Warning` never looks at `TransactionID`, so a transaction call and
a logger call with the same arguments return the same world and error. -/
theorem transaction_Log_is_logger_dispatch_with_id_witness :
    ((NewLogger [countingFromWarning]).NewTransaction "tx-1").Log 0 Info "m" [] 0 =
      (NewLogger [countingFromWarning]).Log 0 Info "m" [] 0 :=
  (transaction_Log_is_logger_dispatch_with_id [countingFromWarning] "tx-1" 0 Info "m" [] 0).2.2.2
    (by
      intro d hd e w1
      have hd2 : d = countingFromWarning := by simpa using hd
      subst hd2
      rfl)

/-! ## Sequences of calls -/

theorem issue_traced {σ : Type} (ds : List (Driver σ)) (c : LogCall) (w : σ)
    (tr : List Event) :
    ∃ evs : List Event,
      issue (NewLogger (tracedAll ds)) c (w, tr) =
        (((issue (NewLogger ds) c w).1, tr ++ evs), (issue (NewLogger ds) c w).2) ∧
      evs.map (fun ev => (ev.driver, ev.call)) =
        (List.range ds.length).map (fun i => (i, Invocation.log c.entry)) := by
  obtain ⟨evs, hrun, hord, _⟩ := dispatch_traced c.entry ds w tr
  refine ⟨evs, ?_, hord⟩
  cases htx : c.tx with
  | none =>
    simp only [issue, htx]
    rw [logger_Log_eq, logger_Log_eq]
    simpa [NewLogger, LogCall.entry, htx] using hrun
  | some id =>
    simp only [issue, htx]
    rw [transaction_Log_eq, transaction_Log_eq]
    simpa [NewLogger, logger.NewTransaction, newTransaction, LogCall.entry, htx] using hrun

theorem issueAll_traced {σ : Type} (ds : List (Driver σ)) (calls : List LogCall) :
    ∀ (w : σ) (tr : List Event),
      ∃ evs : List Event,
        issueAll (NewLogger (tracedAll ds)) calls (w, tr) =
          (((issueAll (NewLogger ds) calls w).1, tr ++ evs),
            (issueAll (NewLogger ds) calls w).2) ∧
        evs.map (fun ev => (ev.driver, ev.call)) =
          calls.flatMap (fun c =>
            (List.range ds.length).map (fun i => (i, Invocation.log c.entry))) := by
  induction calls with
  | nil =>
    intro w tr
    exact ⟨[], by simp [issueAll], by simp⟩
  | cons c cs ih =>
    intro w tr
    obtain ⟨evs1, hrun1, hord1⟩ := issue_traced ds c w tr
    obtain ⟨evs2, hrun2, hord2⟩ := ih (issue (NewLogger ds) c w).1 (tr ++ evs1)
    refine ⟨evs1 ++ evs2, ?_, ?_⟩
    · simp only [issueAll, hrun1, hrun2, List.append_assoc]
    · simp [hord1, hord2]

theorem filter_positions {α : Type} (x : α) (i : Nat) :
    ∀ n : Nat, (((List.range n).map (fun j => (j, x))).filter (fun p => p.1 = i)).map Prod.snd =
      if i < n then [x] else [] := by
  intro n
  induction n with
  | zero => simp
  | succ n ih =>
    rw [List.range_succ, List.map_append, List.filter_append, List.map_append, ih]
    by_cases h1 : i < n
    · have h2 : ¬ n = i := by omega
      have h3 : i < n + 1 := by omega
      simp [h1, h2, h3]
    · by_cases h4 : n = i
      · subst h4
        simp
      · have h5 : ¬ i < n + 1 := by omega
        simp [h1, h4, h5]

theorem filter_flatMap_positions {α β : Type} (f : β → α) (n i : Nat) (hi : i < n) :
    ∀ cs : List β,
      ((cs.flatMap (fun c => (List.range n).map (fun j => (j, f c)))).filter
        (fun p => p.1 = i)).map Prod.snd = cs.map f := by
  intro cs
  induction cs with
  | nil => simp
  | cons c cs ih =>
    rw [List.flatMap_cons, List.filter_append, List.map_append, ih, filter_positions]
    simp [hi]

/-- C6: when logging calls are issued one after another on a logger and on
transactions of that logger, the drivers are called call by call (all drivers for
the first call, then all drivers for the second, and so on), so every driver
receives exactly one entry per call, in the order of the calls: the `k`-th entry
driver `i` receives has the level, message and transaction identifier of the
`k`-th call (`""` for a call on the logger itself). -/
theorem drivers_receive_calls_in_issue_order {σ : Type} (ds : List (Driver σ))
    (calls : List LogCall) (w : σ) (i : Nat) (hi : i < ds.length) :
    ∃ evs : List Event,
      issueAll (NewLogger (tracedAll ds)) calls (w, []) =
        (((issueAll (NewLogger ds) calls w).1, evs), (issueAll (NewLogger ds) calls w).2) ∧
      evs.map (fun ev => (ev.driver, ev.call)) =
        calls.flatMap (fun c =>
          (List.range ds.length).map (fun j => (j, Invocation.log c.entry))) ∧
      (evs.filter (fun ev => ev.driver = i)).map Event.entry? =
        calls.map (fun c => some c.entry) ∧
      (evs.filter (fun ev => ev.driver = i)).map
          (fun ev => ev.entry?.map (fun e => (e.Level, e.Message, e.TransactionID))) =
        calls.map (fun c => some (c.level, c.msg, c.tx.getD "")) := by
  obtain ⟨evs, hrun, hord⟩ := issueAll_traced ds calls w []
  have hcalls : (evs.filter (fun ev => ev.driver = i)).map (fun ev => ev.call) =
      calls.map (fun c => Invocation.log c.entry) := by
    have h := filter_flatMap_positions (fun c : LogCall => Invocation.log c.entry)
      ds.length i hi calls
    rw [← hord, List.filter_map, List.map_map] at h
    simpa [Function.comp_def] using h
  have hentries : (evs.filter (fun ev => ev.driver = i)).map Event.entry? =
      calls.map (fun c => some c.entry) := by
    have h := congrArg (List.map (fun inv : Invocation => (Event.mk 0 inv none).entry?)) hcalls
    simp only [List.map_map, Function.comp_def, Event.entry?] at h
    exact h
  refine ⟨evs, by simpa using hrun, hord, hentries, ?_⟩
  have h := congrArg (List.map (fun o : Option LogEntry =>
    o.map (fun e => (e.Level, e.Message, e.TransactionID)))) hentries
  simpa [List.map_map, Function.comp_def, LogCall.entry, entryFor] using h

/-- Witness for C6: the scenario of `TestMultipleTransactions`, one mock driver and
the calls `tx1.Info`, `tx2.Info`, `tx1.Warning`. -/
theorem drivers_receive_calls_in_issue_order_witness :
    ∃ evs : List Event,
      issueAll (NewLogger (tracedAll [mockAt 0]))
          [LogCall.mk (some "tx-1") 1 Info "tx1 message" [],
            LogCall.mk (some "tx-2") 2 Info "tx2 message" [],
            LogCall.mk (some "tx-1") 3 Warning "tx1 warning" []]
          ([MockDriver.mk [] false false], []) =
        (([MockDriver.mk
            [LogEntry.mk 1 Info "tx1 message" [] "tx-1",
              LogEntry.mk 2 Info "tx2 message" [] "tx-2",
              LogEntry.mk 3 Warning "tx1 warning" [] "tx-1"] false false], evs),
          [none, none, none]) ∧
      (evs.filter (fun ev => ev.driver = 0)).map
          (fun ev => ev.entry?.map (fun e => (e.Level, e.Message, e.TransactionID))) =
        [some (Info, "tx1 message", "tx-1"), some (Info, "tx2 message", "tx-2"),
          some (Warning, "tx1 warning", "tx-1")] := by
  obtain ⟨evs, hrun, _, _, hfields⟩ := drivers_receive_calls_in_issue_order [mockAt 0]
    [LogCall.mk (some "tx-1") 1 Info "tx1 message" [],
      LogCall.mk (some "tx-2") 2 Info "tx2 message" [],
      LogCall.mk (some "tx-1") 3 Warning "tx1 warning" []]
    [MockDriver.mk [] false false] 0 (by decide)
  exact ⟨evs, hrun, hfields⟩

/-! ## Levels -/

theorem lower_mem_alphabet (c : Char) (h : 97 ≤ c.toNat ∧ c.toNat ≤ 122) :
    c ∈ "abcdefghijklmnopqrstuvwxyz".data := by
  obtain ⟨h1, h2⟩ := h
  have hc : Char.ofNat c.toNat = c := Char.ofNat_toNat c
  generalize c.toNat = k at h1 h2 hc
  subst hc
  interval_cases k <;> decide

theorem unicodeToUpper_of_spellsLetter (n c : Char) (hn : n ∈ levelLetters)
    (h : spellsLetter n c = true) : unicodeToUpper c = n := by
  have key : ∀ m ∈ levelLetters,
      unicodeToUpper m = m ∧ unicodeToUpper (Char.ofNat (m.toNat + 32)) = m := by decide
  simp only [spellsLetter, Bool.or_eq_true, beq_iff_eq] at h
  rcases h with h | h
  · rw [h]; exact (key n hn).1
  · rw [h]; exact (key n hn).2

theorem map_unicodeToUpper_of_spellsChars :
    ∀ (ns cs : List Char), (∀ n ∈ ns, n ∈ levelLetters) → spellsChars ns cs = true →
      cs.map unicodeToUpper = ns
  | [], [], _, _ => rfl
  | [], _ :: _, _, h => by simp [spellsChars] at h
  | _ :: _, [], _, h => by simp [spellsChars] at h
  | n :: ns, c :: cs, hns, h => by
    simp only [spellsChars, Bool.and_eq_true] at h
    have h1 := unicodeToUpper_of_spellsLetter n c (hns n (List.mem_cons_self n ns)) h.1
    have h2 := map_unicodeToUpper_of_spellsChars ns cs
      (fun m hm => hns m (List.mem_cons_of_mem n hm)) h.2
    simp [h1, h2]

theorem ToUpper_of_isCaseVariant (name s : String) (hname : ∀ n ∈ name.data, n ∈ levelLetters)
    (h : isCaseVariant name s = true) : ToUpper s = name := by
  have h2 := map_unicodeToUpper_of_spellsChars name.data s.data hname h
  simp [ToUpper, h2]

/-- C7: for each of the four levels `L`, `ParseLevel (L.String())` succeeds with `L`, so
formatting the parsed level gives `L.String()` again. -/
theorem ParseLevel_String_roundtrip (l : Level)
    (hl : l = Debug ∨ l = Info ∨ l = Warning ∨ l = Error) :
    ParseLevel l.String = (l, none) ∧ (ParseLevel l.String).1.String = l.String := by
  rcases hl with h | h | h | h <;> subst h <;> decide

/-- Witness for C7 at `Warning`. -/
theorem ParseLevel_String_roundtrip_witness :
    ParseLevel (Level.String Warning) = (Warning, none) ∧
      (ParseLevel (Level.String Warning)).1.String = Level.String Warning :=
  ParseLevel_String_roundtrip Warning (Or.inr (Or.inr (Or.inl rfl)))

/-- C8: every upper-, lower- or mixed-case spelling of `DEBUG`, `INFO`, `WARNING`,
`WARN`, `ERROR`, `ERR` parses without error to `Debug`, `Info`, `Warning`,
`Warning`, `Error`, `Error` respectively. -/
theorem ParseLevel_accepts_case_variants (s : String) :
    (isCaseVariant "DEBUG" s = true → ParseLevel s = (Debug, none)) ∧
    (isCaseVariant "INFO" s = true → ParseLevel s = (Info, none)) ∧
    (isCaseVariant "WARNING" s = true → ParseLevel s = (Warning, none)) ∧
    (isCaseVariant "WARN" s = true → ParseLevel s = (Warning, none)) ∧
    (isCaseVariant "ERROR" s = true → ParseLevel s = (Error, none)) ∧
    (isCaseVariant "ERR" s = true → ParseLevel s = (Error, none)) := by
  refine ⟨?_, ?_, ?_, ?_, ?_, ?_⟩ <;> intro h
  · have hu := ToUpper_of_isCaseVariant _ s (by decide) h
    simp [ParseLevel, hu]
  · have hu := ToUpper_of_isCaseVariant _ s (by decide) h
    simp [ParseLevel, hu]
  · have hu := ToUpper_of_isCaseVariant _ s (by decide) h
    simp [ParseLevel, hu]
  · have hu := ToUpper_of_isCaseVariant _ s (by decide) h
    simp [ParseLevel, hu]
  · have hu := ToUpper_of_isCaseVariant _ s (by decide) h
    simp [ParseLevel, hu]
  · have hu := ToUpper_of_isCaseVariant _ s (by decide) h
    simp [ParseLevel, hu]

/-- Witness for C8: the mixed-case spelling `WaRn` of `WARN` parses to `Warning`. -/
theorem ParseLevel_accepts_case_variants_witness :
    isCaseVariant "WARN" "WaRn" = true ∧ ParseLevel "WaRn" = (Warning, none) :=
  ⟨by decide, (ParseLevel_accepts_case_variants "WaRn").2.2.2.1 (by decide)⟩

theorem spellsLetterUnicode_of_unicodeToUpper (n c : Char) (hn : n ∈ levelLetters)
    (h : unicodeToUpper c = n) : spellsLetterUnicode n c = true := by
  unfold unicodeToUpper at h
  by_cases h1 : c = Char.ofNat 0x131
  · rw [if_pos h1] at h
    subst h
    subst h1
    decide
  · rw [if_neg h1] at h
    by_cases h2 : c = Char.ofNat 0x17F
    · rw [if_pos h2] at h
      subst h
      exact absurd hn (by decide)
    · rw [if_neg h2] at h
      by_cases h3 : 97 ≤ c.toNat ∧ c.toNat ≤ 122
      · have hmem := lower_mem_alphabet c h3
        have key : ∀ x ∈ "abcdefghijklmnopqrstuvwxyz".data, ∀ m ∈ levelLetters,
            Char.toUpper x = m → spellsLetterUnicode m x = true := by decide
        exact key c hmem n hn h
      · have h4 : Char.toUpper c = c := by
          unfold Char.toUpper
          simp only [ge_iff_le]
          rw [if_neg h3]
        rw [h4] at h
        subst h
        simp [spellsLetterUnicode, spellsLetter]

theorem spellsCharsUnicode_of_map :
    ∀ (ns cs : List Char), (∀ n ∈ ns, n ∈ levelLetters) → cs.map unicodeToUpper = ns →
      spellsCharsUnicode ns cs = true
  | [], [], _, _ => rfl
  | [], _ :: _, _, h => by simp at h
  | _ :: _, [], _, h => by simp at h
  | n :: ns, c :: cs, hns, h => by
    simp only [List.map_cons, List.cons.injEq] at h
    have h1 := spellsLetterUnicode_of_unicodeToUpper n c (hns n (List.mem_cons_self n ns)) h.1
    have h2 := spellsCharsUnicode_of_map ns cs
      (fun m hm => hns m (List.mem_cons_of_mem n hm)) h.2
    simp [spellsCharsUnicode, h1, h2]

theorem isUnicodeCaseVariant_of_ToUpper (name s : String)
    (hname : ∀ n ∈ name.data, n ∈ levelLetters) (h : ToUpper s = name) :
    isUnicodeCaseVariant name s = true := by
  have h2 : s.data.map unicodeToUpper = name.data := by
    rw [← h]; rfl
  exact spellsCharsUnicode_of_map name.data s.data hname h2

theorem ToUpper_mem_levelNames_of_ParseLevel_ok (s : String) (h : (ParseLevel s).2 = none) :
    ToUpper s ∈ levelNames := by
  unfold ParseLevel at h
  simp only at h
  by_cases h1 : ToUpper s = "DEBUG"
  · simp [levelNames, h1]
  · rw [if_neg h1] at h
    by_cases h2 : ToUpper s = "INFO"
    · simp [levelNames, h2]
    · rw [if_neg h2] at h
      by_cases h3 : ToUpper s = "WARNING" ∨ ToUpper s = "WARN"
      · rcases h3 with h3 | h3 <;> simp [levelNames, h3]
      · rw [if_neg h3] at h
        by_cases h4 : ToUpper s = "ERROR" ∨ ToUpper s = "ERR"
        · rcases h4 with h4 | h4 <;> simp [levelNames, h4]
        · rw [if_neg h4] at h
          simp at h

theorem chars_of_spellsCharsUnicode :
    ∀ (ns cs : List Char), (∀ n ∈ ns, n ∈ levelLetters) → spellsCharsUnicode ns cs = true →
      ∀ c ∈ cs, c ∈ levelLetters ∨ c ∈ levelLetters.map Char.toLower ∨ c = Char.ofNat 0x131
  | [], [], _, _ => by simp
  | [], _ :: _, _, h => by simp [spellsCharsUnicode] at h
  | _ :: _, [], _, _ => by simp
  | n :: ns, x :: cs, hns, h => by
    simp only [spellsCharsUnicode, Bool.and_eq_true] at h
    intro c hc
    rcases List.mem_cons.mp hc with hcx | hcs
    · subst hcx
      have hn := hns n (List.mem_cons_self n ns)
      have key : ∀ m ∈ levelLetters, Char.ofNat (m.toNat + 32) ∈ levelLetters.map Char.toLower := by
        decide
      have h1 := h.1
      simp only [spellsLetterUnicode, spellsLetter, Bool.or_eq_true, Bool.and_eq_true,
        beq_iff_eq] at h1
      rcases h1 with (h1 | h1) | h1
      · left; rw [h1]; exact hn
      · right; left; rw [h1]; exact key n hn
      · right; right; exact h1.2
    · exact chars_of_spellsCharsUnicode ns cs
        (fun m hm => hns m (List.mem_cons_of_mem n hm)) h.2 c hcs

theorem unicodeToUpper_of_spellsLetterUnicode (n c : Char) (hn : n ∈ levelLetters)
    (h : spellsLetterUnicode n c = true) : unicodeToUpper c = n := by
  simp only [spellsLetterUnicode, Bool.or_eq_true, Bool.and_eq_true, beq_iff_eq] at h
  rcases h with h | h
  · exact unicodeToUpper_of_spellsLetter n c hn h
  · rw [h.1, h.2]; decide

theorem map_unicodeToUpper_of_spellsCharsUnicode :
    ∀ (ns cs : List Char), (∀ n ∈ ns, n ∈ levelLetters) → spellsCharsUnicode ns cs = true →
      cs.map unicodeToUpper = ns
  | [], [], _, _ => rfl
  | [], _ :: _, _, h => by simp [spellsCharsUnicode] at h
  | _ :: _, [], _, h => by simp [spellsCharsUnicode] at h
  | n :: ns, c :: cs, hns, h => by
    simp only [spellsCharsUnicode, Bool.and_eq_true] at h
    have h1 := unicodeToUpper_of_spellsLetterUnicode n c (hns n (List.mem_cons_self n ns)) h.1
    have h2 := map_unicodeToUpper_of_spellsCharsUnicode ns cs
      (fun m hm => hns m (List.mem_cons_of_mem n hm)) h.2
    simp [h1, h2]

theorem ParseLevel_ok_of_ToUpper_mem_levelNames (s : String) (h : ToUpper s ∈ levelNames) :
    (ParseLevel s).2 = none := by
  simp only [levelNames, List.mem_cons, List.mem_singleton, List.not_mem_nil, or_false] at h
  rcases h with h | h | h | h | h | h <;> simp [ParseLevel, h]

/-- C9 as stated fails: `ınfo`, written with U+0131 (dotless i), is no case variant
of any of the six names (U+0131 is not a letter of those names), and `ParseLevel`
accepts it as `Info` without error, because `strings.ToUpper` maps U+0131 to `I`. -/
theorem ParseLevel_accepts_dotless_i :
    (∀ name ∈ levelNames, isCaseVariant name "ınfo" = false) ∧
      Char.ofNat 0x131 ∈ "ınfo".data ∧ Char.ofNat 0x131 ∉ levelLetters ∧
      Char.ofNat 0x131 ∉ levelLetters.map Char.toLower ∧
      ParseLevel "ınfo" = (Info, none) := by
  decide

/-- C9, amended: `ParseLevel` fails on every string that is not a spelling of one of
the six names in which each letter is written in upper case, in lower case or,
for `I`, as U+0131 (and on no other string); in particular on every string
containing a character that is neither a letter of the six names (in either
case) nor U+0131, which covers surrounding white space, and on the empty
string. -/
theorem ParseLevel_rejects_other_strings (s : String) :
    ((∀ name ∈ levelNames, isUnicodeCaseVariant name s = false) → (ParseLevel s).2 ≠ none) ∧
    ((∃ c ∈ s.data, c ∉ levelLetters ∧ c ∉ levelLetters.map Char.toLower ∧
        c ≠ Char.ofNat 0x131) → (ParseLevel s).2 ≠ none) ∧
    (ParseLevel "").2 ≠ none ∧
    ((ParseLevel s).2 ≠ none → ∀ name ∈ levelNames, isUnicodeCaseVariant name s = false) := by
  have hletters0 : ∀ name ∈ levelNames, ∀ n ∈ name.data, n ∈ levelLetters := by decide
  have conv : (ParseLevel s).2 ≠ none →
      ∀ name ∈ levelNames, isUnicodeCaseVariant name s = false := by
    intro herr name hname
    cases hv : isUnicodeCaseVariant name s with
    | false => rfl
    | true =>
      have hmap := map_unicodeToUpper_of_spellsCharsUnicode name.data s.data
        (hletters0 name hname) hv
      have hup : ToUpper s = name := by simp [ToUpper, hmap]
      exact absurd (ParseLevel_ok_of_ToUpper_mem_levelNames s (hup ▸ hname)) herr
  have main : (∀ name ∈ levelNames, isUnicodeCaseVariant name s = false) →
      (ParseLevel s).2 ≠ none := by
    intro hno hok
    have hmem := ToUpper_mem_levelNames_of_ParseLevel_ok s hok
    have hletters : ∀ name ∈ levelNames, ∀ n ∈ name.data, n ∈ levelLetters := by decide
    have hv := isUnicodeCaseVariant_of_ToUpper (ToUpper s) s (hletters _ hmem) rfl
    rw [hno _ hmem] at hv
    exact Bool.false_ne_true hv
  refine ⟨main, ?_, by decide, conv⟩
  rintro ⟨c, hc, hc1, hc2, hc3⟩
  apply main
  intro name hname
  have hletters : ∀ name ∈ levelNames, ∀ n ∈ name.data, n ∈ levelLetters := by decide
  cases hv : isUnicodeCaseVariant name s with
  | false => rfl
  | true =>
    rcases chars_of_spellsCharsUnicode name.data s.data (hletters name hname) hv c hc with
      h | h | h
    · exact absurd h hc1
    · exact absurd h hc2
    · exact absurd h hc3

/-- Witness for C9 amended: `warn` preceded by a space is rejected. -/
theorem ParseLevel_rejects_other_strings_witness :
    (∀ name ∈ levelNames, isUnicodeCaseVariant name " warn" = false) ∧
      (ParseLevel " warn").2 ≠ none :=
  ⟨by decide, (ParseLevel_rejects_other_strings " warn").1 (by decide)⟩

/-- C10: `Level.String` returns `DEBUG`, `INFO`, `WARNING`, `ERROR` for the four levels,
and for every other integer `n` (negative or greater than 3) the text `UNKNOWN(`
followed by `n` in decimal and `)`; `Level(99)` gives `UNKNOWN(99)`. -/
theorem Level_String_values :
    Level.String Debug = "DEBUG" ∧ Level.String Info = "INFO" ∧
    Level.String Warning = "WARNING" ∧ Level.String Error = "ERROR" ∧
    (∀ n : Level, (n < 0 ∨ 3 < n) → Level.String n = "UNKNOWN(" ++ toString n ++ ")") ∧
    Level.String 99 = "UNKNOWN(99)" ∧ Level.String (-7) = "UNKNOWN(-7)" := by
  refine ⟨by decide, by decide, by decide, by decide, ?_, by decide, by decide⟩
  intro n hn
  have h0 : n ≠ Debug := by rintro rfl; exact absurd hn (by decide)
  have h1 : n ≠ Info := by rintro rfl; exact absurd hn (by decide)
  have h2 : n ≠ Warning := by rintro rfl; exact absurd hn (by decide)
  have h3 : n ≠ Error := by rintro rfl; exact absurd hn (by decide)
  simp [Level.String, h0, h1, h2, h3]

/-- Witness for C10 at the out-of-range value 1000. -/
theorem Level_String_values_witness :
    Level.String 1000 = "UNKNOWN(" ++ toString (1000 : Level) ++ ")" :=
  Level_String_values.2.2.2.2.1 1000 (Or.inr (by decide))

/-! ## Entries built, rejected level names -/

/-- C22: a logging call on a logger or on a transaction builds one entry and hands
that entry to every driver: its level is the level given to `Log` (whatever it
is: nothing is filtered here) and `Debug`, `Info`, `Warning`, `Error` for the four
level methods, its message is the message given, and its attributes are the
first attribute argument when there is one, further arguments being ignored,
and the nil map when there is none. -/
theorem one_entry_per_call {σ : Type} (ds : List (Driver σ)) (id : String) (now : Time)
    (level : Level) (msg : String) (attrs : List Attributes) (w : σ) :
    (∃ evs : List Event,
      (NewLogger (tracedAll ds)).Log now level msg attrs (w, []) =
        ((((NewLogger ds).Log now level msg attrs w).1, evs),
          ((NewLogger ds).Log now level msg attrs w).2) ∧
      evs.map Event.entry? = List.replicate ds.length (some (entryFor now level msg attrs ""))) ∧
    (∃ evs : List Event,
      ((NewLogger (tracedAll ds)).NewTransaction id).Log now level msg attrs (w, []) =
        (((((NewLogger ds).NewTransaction id).Log now level msg attrs w).1, evs),
          (((NewLogger ds).NewTransaction id).Log now level msg attrs w).2) ∧
      evs.map Event.entry? = List.replicate ds.length (some (entryFor now level msg attrs id))) ∧
    ((entryFor now level msg attrs id).Level = level ∧
      (entryFor now level msg attrs id).Message = msg ∧
      (entryFor now level msg attrs id).Timestamp = now ∧
      (entryFor now level msg attrs id).TransactionID = id ∧
      (attrs = [] → (entryFor now level msg attrs id).Attrs = []) ∧
      (∀ a rest, attrs = a :: rest → (entryFor now level msg attrs id).Attrs = a)) ∧
    ((NewLogger ds).Debug now msg attrs w = (NewLogger ds).Log now Debug msg attrs w ∧
      (NewLogger ds).Info now msg attrs w = (NewLogger ds).Log now Info msg attrs w ∧
      (NewLogger ds).Warning now msg attrs w = (NewLogger ds).Log now Warning msg attrs w ∧
      (NewLogger ds).Error now msg attrs w = (NewLogger ds).Log now Error msg attrs w) ∧
    (((NewLogger ds).NewTransaction id).Debug now msg attrs w =
        ((NewLogger ds).NewTransaction id).Log now Debug msg attrs w ∧
      ((NewLogger ds).NewTransaction id).Info now msg attrs w =
        ((NewLogger ds).NewTransaction id).Log now Info msg attrs w ∧
      ((NewLogger ds).NewTransaction id).Warning now msg attrs w =
        ((NewLogger ds).NewTransaction id).Log now Warning msg attrs w ∧
      ((NewLogger ds).NewTransaction id).Error now msg attrs w =
        ((NewLogger ds).NewTransaction id).Log now Error msg attrs w) := by
  refine ⟨?_, ?_, ⟨rfl, rfl, rfl, rfl, ?_, ?_⟩, ⟨rfl, rfl, rfl, rfl⟩, ⟨rfl, rfl, rfl, rfl⟩⟩
  · obtain ⟨evs, hrun, hord, _⟩ := dispatch_traced (entryFor now level msg attrs "") ds w []
    refine ⟨evs, ?_, (entries_of_ordered_calls _ _ _ hord).1⟩
    rw [logger_Log_eq, logger_Log_eq]
    simpa [NewLogger] using hrun
  · obtain ⟨evs, hrun, hord, _⟩ := dispatch_traced (entryFor now level msg attrs id) ds w []
    refine ⟨evs, ?_, (entries_of_ordered_calls _ _ _ hord).1⟩
    rw [transaction_Log_eq, transaction_Log_eq]
    simpa [NewLogger, logger.NewTransaction, newTransaction] using hrun
  · intro h
    rw [h]
    rfl
  · intro a rest h
    rw [h]
    rfl

/-- Witness for C22: `TestLoggerWithAttributes` with a second attribute argument
added: the mock driver records one `Info` entry carrying the first argument. -/
theorem one_entry_per_call_witness :
    (NewLogger [mockAt 0]).Info 5 "test with attributes"
        [[("key1", "value1"), ("key2", "value2")], [("ignored", "yes")]]
        [MockDriver.mk [] false false] =
      ([MockDriver.mk
          [LogEntry.mk 5 Info "test with attributes" [("key1", "value1"), ("key2", "value2")] ""]
          false false], none) ∧
      (entryFor 5 Info "test with attributes"
        [[("key1", "value1"), ("key2", "value2")], [("ignored", "yes")]] "").Attrs =
        [("key1", "value1"), ("key2", "value2")] :=
  ⟨by decide,
    (one_entry_per_call [mockAt 0] "" 5 Info "test with attributes"
      [[("key1", "value1"), ("key2", "value2")], [("ignored", "yes")]]
      [MockDriver.mk [] false false]).2.2.1.2.2.2.2.2 _ _ rfl⟩

theorem ToUpper_unknown_not_level_name (x : String) :
    ToUpper ("UNKNOWN(" ++ x ++ ")") ∉ levelNames := by
  intro hmem
  have hhead : (ToUpper ("UNKNOWN(" ++ x ++ ")")).data.head? = some 'U' := by
    simp only [ToUpper, String.data_append]
    rfl
  have hnames : ∀ name ∈ levelNames, name.data.head? ≠ some 'U' := by decide
  exact hnames _ hmem hhead

/-- C24: for every level value `n` other than `Debug`, `Info`, `Warning`, `Error`,
`ParseLevel (n.String())` returns an error: the `UNKNOWN(n)` marker is not parsed
back into a level. -/
theorem ParseLevel_rejects_unknown_marker (n : Level)
    (hn : n ≠ Debug ∧ n ≠ Info ∧ n ≠ Warning ∧ n ≠ Error) :
    (ParseLevel n.String).2 ≠ none ∧
      ParseLevel n.String = (Info, some ("unknown log level: " ++ n.String)) := by
  obtain ⟨h0, h1, h2, h3⟩ := hn
  have hs : n.String = "UNKNOWN(" ++ toString n ++ ")" := by
    simp [Level.String, h0, h1, h2, h3]
  have hnot : ToUpper n.String ∉ levelNames := by
    rw [hs]
    exact ToUpper_unknown_not_level_name _
  have herr : (ParseLevel n.String).2 ≠ none := by
    intro hok
    exact hnot (ToUpper_mem_levelNames_of_ParseLevel_ok _ hok)
  refine ⟨herr, ?_⟩
  simp only [levelNames, List.mem_cons, List.mem_singleton, List.not_mem_nil, or_false,
    not_or] at hnot
  obtain ⟨a1, a2, a3, a4, a5, a6⟩ := hnot
  simp only [ParseLevel, a1, a2, a3, a4, a5, a6, if_false, or_self]

/-- Witness for C24 at `Level(99)`. -/
theorem ParseLevel_rejects_unknown_marker_witness :
    (ParseLevel (Level.String 99)).2 ≠ none ∧
      ParseLevel (Level.String 99) = (Info, some "unknown log level: UNKNOWN(99)") :=
  ParseLevel_rejects_unknown_marker 99 (by decide)

/-- C26: when `ParseLevel` rejects a string `s`, it returns the level `Info`, one of the
four levels, with the error "unknown log level: " followed by `s` as given. -/
theorem ParseLevel_rejection_value (s : String) (h : (ParseLevel s).2 ≠ none) :
    ParseLevel s = (Info, some ("unknown log level: " ++ s)) ∧
      (ParseLevel s).1 ∈ [Debug, Info, Warning, Error] := by
  have hnot : ToUpper s ∉ levelNames := by
    intro hmem
    exact h (ParseLevel_ok_of_ToUpper_mem_levelNames s hmem)
  simp only [levelNames, List.mem_cons, List.mem_singleton, List.not_mem_nil, or_false,
    not_or] at hnot
  obtain ⟨a1, a2, a3, a4, a5, a6⟩ := hnot
  have hval : ParseLevel s = (Info, some ("unknown log level: " ++ s)) := by
    simp only [ParseLevel, a1, a2, a3, a4, a5, a6, if_false, or_self]
  refine ⟨hval, ?_⟩
  rw [hval]
  exact List.mem_cons_of_mem _ (List.mem_cons_self _ _)

/-- Witness for C26: the rejected string keeps its case in the message. -/
theorem ParseLevel_rejection_value_witness :
    ParseLevel "Verbose" = (Info, some "unknown log level: Verbose") ∧
      (ParseLevel "Verbose").1 ∈ [Debug, Info, Warning, Error] :=
  ParseLevel_rejection_value "Verbose" (by decide)

end core

namespace drivers

open core

/-! ## Lemmas on the concrete drivers -/

theorem GoMap.lookup_filter_ne {V : Type} (k k1 : String) (hk : k1 ≠ k) :
    ∀ m : GoMap V, List.lookup k1 (m.filter (fun kv => kv.1 != k)) = List.lookup k1 m := by
  intro m
  induction m with
  | nil => rfl
  | cons kv m ih =>
    obtain ⟨a, v⟩ := kv
    by_cases ha : a = k
    · subst ha
      have h1 : (k1 == a) = false := by simpa using hk
      simp [List.filter_cons, List.lookup_cons, h1, ih]
    · have h2 : (a != k) = true := by simpa using ha
      simp only [List.filter_cons, h2, if_true, List.lookup_cons, ih]

theorem GoMap.get_set {V : Type} (m : GoMap V) (k k1 : String) (v : V) :
    GoMap.get (GoMap.set m k v) k1 = if k1 = k then some v else GoMap.get m k1 := by
  unfold GoMap.get GoMap.set
  by_cases h : k1 = k
  · subst h
    simp [List.lookup_cons]
  · have h1 : (k1 == k) = false := by simpa using h
    simp only [List.lookup_cons, h1, if_neg h]
    exact GoMap.lookup_filter_ne k k1 h m

/-- C11: when the registry holds a constructor `c` under `name`, `Create` returns what
`c options` returns, unchanged (world, driver and error, whatever they are);
when it holds none, `Create` returns the nil driver with `ErrDriverNotFound` and
leaves the world as it was, whatever constructors are registered under other
names.  The scenario of `TestDriverRegistry` is included. -/
theorem Create_returns_constructor_result {σ δ : Type} (registry : Registry σ δ)
    (name : String) (options : Options) (w : σ) :
    (∀ c : DriverConstructor σ δ, GoMap.get registry name = some c →
      Create registry name options w = c options w) ∧
    (GoMap.get registry name = none →
      Create registry name options w = (w, (none, ErrDriverNotFound))) ∧
    Create (Register ([] : Registry σ δ) "test" (fun _ w1 => (w1, (none, none))))
      "test" options w = (w, (none, none)) ∧
    Create (Register ([] : Registry σ δ) "test" (fun _ w1 => (w1, (none, none))))
      "non-existent" options w = (w, (none, ErrDriverNotFound)) := by
  refine ⟨?_, ?_, ?_, ?_⟩
  · intro c hc
    simp only [Create, hc]
  · intro hnone
    simp only [Create, hnone]
  · simp [Create, Register, GoMap.get_set]
  · simp only [Create, Register, GoMap.get_set]
    simp [GoMap.get]

/-- Witness for C11: a constructor registered under `failing` returns its own error,
which `Create` hands on, and `Create` on a name that was not registered gives
`ErrDriverNotFound`. -/
theorem Create_returns_constructor_result_witness :
    Create ([("failing", fun _ (n : Nat) => (n + 1, ((none : Option Nat), some "no disk")))])
        "failing" [] 0 = (1, (none, some "no disk")) ∧
      Create ([("failing", fun _ (n : Nat) => (n + 1, ((none : Option Nat), some "no disk")))])
        "Failing" [] 0 = (0, (none, ErrDriverNotFound)) :=
  ⟨(Create_returns_constructor_result
      [("failing", fun _ (n : Nat) => (n + 1, ((none : Option Nat), some "no disk")))]
      "failing" [] 0).1 _ rfl,
    (Create_returns_constructor_result
      [("failing", fun _ (n : Nat) => (n + 1, ((none : Option Nat), some "no disk")))]
      "Failing" [] 0).2.1 rfl⟩

/-- C12: `Register` overwrites: after `Register(n, c1)` and then `Register(n, c2)`,
`Create(n, o)` is `c2(o)` whatever `c1` is, and `Register(n, c)` does not change
`Create(m, o)` for a name `m` other than `n`. -/
theorem Register_overwrites {σ δ : Type} (registry : Registry σ δ) (n m : String)
    (c c1 c2 : DriverConstructor σ δ) (o : Options) (w : σ) :
    Create (Register (Register registry n c1) n c2) n o w = c2 o w ∧
    Create (Register registry n c) n o w = c o w ∧
    (m ≠ n → Create (Register registry n c) m o w = Create registry m o w) := by
  refine ⟨?_, ?_, ?_⟩
  · simp [Create, Register, GoMap.get_set]
  · simp [Create, Register, GoMap.get_set]
  · intro hmn
    simp [Create, Register, GoMap.get_set, hmn]

/-- Witness for C12: registering `b` leaves the creation of `a` as it was. -/
theorem Register_overwrites_witness :
    Create (Register ([("a", fun _ (k : Nat) => (k + 1, (some 7, none)))] : Registry Nat Nat)
        "b" (fun _ k => (k, (none, some "b fails")))) "a" [] 0 =
      Create ([("a", fun _ (k : Nat) => (k + 1, (some 7, none)))] : Registry Nat Nat) "a" [] 0 :=
  (Register_overwrites ([("a", fun _ (k : Nat) => (k + 1, (some 7, none)))] : Registry Nat Nat)
    "b" "a" (fun _ k => (k, (none, some "b fails"))) (fun _ k => (k, (none, none)))
    (fun _ k => (k, (none, none))) [] 0).2.2 (by decide)

/-! ## The `Log` methods, case by case -/

theorem ConsoleDriver_Log_below (rt : Runtime) (d : ConsoleDriver) (e : LogEntry) (os : OS)
    (h : e.Level < d.minLevel) : d.Log rt e os = ((d, os), none) := by
  simp [ConsoleDriver.Log, h]

theorem ConsoleDriver_Log_from (rt : Runtime) (d : ConsoleDriver) (e : LogEntry) (os : OS)
    (h : ¬ e.Level < d.minLevel) :
    d.Log rt e os =
      ((d, (os.perform (SysCall.write (if e.Level ≥ core.Error then d.stderr else d.stdout)
          (d.format rt e ++ "\n"))).1),
        (os.perform (SysCall.write (if e.Level ≥ core.Error then d.stderr else d.stdout)
          (d.format rt e ++ "\n"))).2) := by
  simp only [ConsoleDriver.Log, if_neg h]

theorem JSONFileDriver_Log_below (rt : Runtime) (d : JSONFileDriver) (e : LogEntry) (os : OS)
    (h : e.Level < d.minLevel) : d.Log rt e os = ((d, os), none) := by
  simp [JSONFileDriver.Log, h]

theorem JSONFileDriver_Log_closed (rt : Runtime) (d : JSONFileDriver) (e : LogEntry) (os : OS)
    (h : ¬ e.Level < d.minLevel) (hf : d.file = none) :
    d.Log rt e os = ((d, os), some "driver is closed") := by
  simp [JSONFileDriver.Log, h, hf]

theorem Encode_ready (enc : Encoder) (v : JSONLogEntry) (os : OS) (h : enc.err = none) :
    Encode enc v os =
      (({ enc with err := (os.perform (SysCall.write enc.w (v.Marshal ++ "\n"))).2 },
          (os.perform (SysCall.write enc.w (v.Marshal ++ "\n"))).1),
        (os.perform (SysCall.write enc.w (v.Marshal ++ "\n"))).2) := by
  obtain ⟨w, err⟩ := enc
  simp only at h
  subst h
  simp only [Encode]
  cases hp : os.perform (SysCall.write w (v.Marshal ++ "\n")) with
  | mk os1 r => cases r <;> rfl

theorem Encode_failed (enc : Encoder) (v : JSONLogEntry) (os : OS) (err : String)
    (h : enc.err = some err) : Encode enc v os = ((enc, os), some err) := by
  simp only [Encode, h]

theorem JSONFileDriver_Log_open (rt : Runtime) (d : JSONFileDriver) (e : LogEntry) (os : OS)
    (h : ¬ e.Level < d.minLevel) (file : Handle) (hf : d.file = some file)
    (henc : d.encoder.err = none) :
    d.Log rt e os =
      (({ d with encoder :=
            { d.encoder with err :=
                (os.perform (SysCall.write d.encoder.w ((jsonRecord rt e).Marshal ++ "\n"))).2 } },
          (os.perform (SysCall.write d.encoder.w ((jsonRecord rt e).Marshal ++ "\n"))).1),
        (os.perform (SysCall.write d.encoder.w ((jsonRecord rt e).Marshal ++ "\n"))).2) := by
  simp only [JSONFileDriver.Log, if_neg h, hf, jsonRecord, Encode_ready _ _ _ henc]

theorem JSONFileDriver_Log_stuck (rt : Runtime) (d : JSONFileDriver) (e : LogEntry) (os : OS)
    (h : ¬ e.Level < d.minLevel) (file : Handle) (hf : d.file = some file) (err : String)
    (henc : d.encoder.err = some err) :
    d.Log rt e os = ((d, os), some err) := by
  obtain ⟨filePath, file1, encoder, minLevel⟩ := d
  simp only at hf henc h
  subst hf
  simp only [JSONFileDriver.Log, if_neg h, Encode_failed _ _ _ err henc]

theorem TextFileDriver_Log_below (rt : Runtime) (d : TextFileDriver) (e : LogEntry) (os : OS)
    (h : e.Level < d.minLevel) : d.Log rt e os = ((d, os), none) := by
  simp [TextFileDriver.Log, h]

theorem TextFileDriver_Log_closed (rt : Runtime) (d : TextFileDriver) (e : LogEntry) (os : OS)
    (h : ¬ e.Level < d.minLevel) (hf : d.file = none) :
    d.Log rt e os = ((d, os), some "driver is closed") := by
  simp [TextFileDriver.Log, h, hf]

theorem intercalate_go_append (sep : String) (as : List String) :
    ∀ a b : String, String.intercalate.go (b ++ a) sep as = b ++ String.intercalate.go a sep as := by
  induction as with
  | nil => intro a b; simp [String.intercalate.go]
  | cons x xs ih =>
    intro a b
    simp only [String.intercalate.go]
    rw [String.append_assoc b a sep, String.append_assoc b (a ++ sep) x, ih]

theorem writeAttrs_false (pairs : List (String × String)) :
    ∀ builder : String, writeAttrs pairs false builder =
      String.intercalate.go builder ", " (pairs.map (fun kv => kv.1 ++ "=" ++ kv.2)) := by
  induction pairs with
  | nil => intro builder; simp [writeAttrs, String.intercalate.go]
  | cons kv rest ih =>
    intro builder
    obtain ⟨k, v⟩ := kv
    simp only [writeAttrs, Bool.not_false, if_true, List.map_cons, String.intercalate.go, ih]
    simp only [String.append_assoc]

theorem writeAttrs_true (pairs : List (String × String)) (builder : String) :
    writeAttrs pairs true builder = builder ++ joinPairs pairs := by
  cases pairs with
  | nil => simp [writeAttrs, joinPairs, String.intercalate]
  | cons kv rest =>
    obtain ⟨k, v⟩ := kv
    simp only [writeAttrs, Bool.not_true, joinPairs, List.map_cons, String.intercalate,
      writeAttrs_false]
    rw [← intercalate_go_append]
    simp [String.append_assoc]

theorem TextFileDriver_Log_open (rt : Runtime) (d : TextFileDriver) (e : LogEntry) (os : OS)
    (h : ¬ e.Level < d.minLevel) (file : Handle) (hf : d.file = some file) :
    d.Log rt e os =
      ((d, (os.perform (SysCall.write file (textLine rt e (rt.rangeOrder e.Attrs)))).1),
        (os.perform (SysCall.write file (textLine rt e (rt.rangeOrder e.Attrs)))).2) := by
  have hline :
      (let builder := ""
      let builder := builder ++ rt.Format e.Timestamp fileTimeLayout
      let builder := builder ++ " ["
      let builder := builder ++ e.Level.String
      let builder := builder ++ "] "
      let builder := builder ++ e.Message
      let builder :=
        if e.Attrs.length > 0 then
          let builder := builder ++ " \x7b"
          let builder := writeAttrs (rt.rangeOrder e.Attrs) true builder
          builder ++ "\x7d"
        else builder
      let builder :=
        if e.TransactionID ≠ "" then
          ((builder ++ " (txn: ") ++ e.TransactionID) ++ ")"
        else builder
      builder ++ "\n") = textLine rt e (rt.rangeOrder e.Attrs) := by
    simp only [textLine, writeAttrs_true]
    by_cases ha : e.Attrs.length > 0 <;> by_cases ht : e.TransactionID = "" <;>
      simp only [ha, ht, if_true, if_false, ne_eq, not_true_eq_false, not_false_eq_true,
        String.append_assoc, String.empty_append, String.append_empty]
  simp only [TextFileDriver.Log, if_neg h, hf]
  simp only at hline
  rw [hline]

/-! ## Threshold, closed drivers, `Close` -/

theorem perform_calls (os : OS) (c : SysCall) : (os.perform c).1.calls = os.calls ++ [c] := rfl

/-- The driver `NewJSONFileDriver` returns writes through a new encoder on its
file. -/
theorem NewJSONFileDriver_fresh (options : Options) (os : OS) (d : JSONFileDriver)
    (hd : (NewJSONFileDriver options os).2.1 = some d) :
    d.file = some d.encoder.w ∧ d.encoder.err = none := by
  unfold NewJSONFileDriver at hd
  cases ho : openLogFile options os with
  | mk os1 r =>
    obtain ⟨opened, err⟩ := r
    rw [ho] at hd
    cases opened with
    | none => simp at hd
    | some pf =>
      obtain ⟨filePath, file⟩ := pf
      simp only [Option.some.injEq] at hd
      subst hd
      cases options.string "min_level" with
      | none => exact ⟨rfl, rfl⟩
      | some s =>
        cases hp : ParseLevel s with
        | mk l r2 => cases r2 <;> simp [hp, NewEncoder]

/-- The encoder of a driver takes an error only from a `Write` that `Log` issued and
that failed: the error is the outcome of that `Write`. -/
theorem JSONFileDriver_Log_error_from_failed_write (rt : Runtime) (d : JSONFileDriver)
    (e : LogEntry) (os : OS) (henc : d.encoder.err = none)
    (herr : (d.Log rt e os).1.1.encoder.err ≠ none) :
    wroteExactly os (d.Log rt e os).1.2 d.encoder.w ((jsonRecord rt e).Marshal ++ "\n") ∧
      (d.Log rt e os).1.1.encoder.err = os.outcomes.headD none ∧
      (d.Log rt e os).2 = os.outcomes.headD none := by
  by_cases h : e.Level < d.minLevel
  · rw [JSONFileDriver_Log_below rt d e os h] at herr
    exact absurd henc herr
  · cases hf : d.file with
    | none =>
      rw [JSONFileDriver_Log_closed rt d e os h hf] at herr
      exact absurd henc herr
    | some file =>
      rw [JSONFileDriver_Log_open rt d e os h file hf henc]
      exact ⟨perform_calls _ _, rfl, rfl⟩

/-- A `Log` that returns `nil` on a driver whose encoder holds no error leaves the
encoder so. -/
theorem JSONFileDriver_Log_nil_keeps_ready (rt : Runtime) (d : JSONFileDriver) (e : LogEntry)
    (os : OS) (henc : d.encoder.err = none) (hnil : (d.Log rt e os).2 = none) :
    (d.Log rt e os).1.1.encoder.err = none := by
  by_cases h : e.Level < d.minLevel
  · rw [JSONFileDriver_Log_below rt d e os h]
    exact henc
  · cases hf : d.file with
    | none =>
      rw [JSONFileDriver_Log_closed rt d e os h hf]
      exact henc
    | some file =>
      rw [JSONFileDriver_Log_open rt d e os h file hf henc] at hnil ⊢
      exact hnil

theorem JSONFileDriver_Close_file (d : JSONFileDriver) (os : OS) :
    (d.Close os).1.1 = { d with file := none } := by
  cases hf : d.file with
  | none =>
    simp only [JSONFileDriver.Close, hf]
    cases d
    simp_all
  | some file => simp only [JSONFileDriver.Close, hf]

theorem TextFileDriver_Close_file (d : TextFileDriver) (os : OS) :
    (d.Close os).1.1 = { d with file := none } := by
  cases hf : d.file with
  | none =>
    simp only [TextFileDriver.Close, hf]
    cases d
    simp_all
  | some file => simp only [TextFileDriver.Close, hf]

theorem JSONFileDriver_Log_after_close (rt : Runtime) (d : JSONFileDriver) (e : LogEntry)
    (os : OS) (hf : d.file = none) :
    d.Log rt e os = ((d, os), if e.Level < d.minLevel then none else some "driver is closed") := by
  by_cases h : e.Level < d.minLevel
  · rw [JSONFileDriver_Log_below rt d e os h, if_pos h]
  · rw [JSONFileDriver_Log_closed rt d e os h hf, if_neg h]

theorem TextFileDriver_Log_after_close (rt : Runtime) (d : TextFileDriver) (e : LogEntry)
    (os : OS) (hf : d.file = none) :
    d.Log rt e os = ((d, os), if e.Level < d.minLevel then none else some "driver is closed") := by
  by_cases h : e.Level < d.minLevel
  · rw [TextFileDriver_Log_below rt d e os h, if_pos h]
  · rw [TextFileDriver_Log_closed rt d e os h hf, if_neg h]

theorem JSONFileDriver_Close_closed (d : JSONFileDriver) (os : OS) (hf : d.file = none) :
    d.Close os = ((d, os), none) := by
  simp only [JSONFileDriver.Close, hf]

theorem TextFileDriver_Close_closed (d : TextFileDriver) (os : OS) (hf : d.file = none) :
    d.Close os = ((d, os), none) := by
  simp only [TextFileDriver.Close, hf]

/-- C15: `Close` on a JSON or text file driver is idempotent: after one `Close`,
whatever that call returned, a further `Close` returns `nil`, makes no call on
the file and leaves driver and operating system as they were; the first `Close`
on an open driver makes exactly one call, the `Close` of its file, and returns
that call's outcome. -/
theorem Close_is_idempotent (j : JSONFileDriver) (t : TextFileDriver) (os : OS) :
    (j.Close os).1.1.Close (j.Close os).1.2 = ((j.Close os).1, none) ∧
    (t.Close os).1.1.Close (t.Close os).1.2 = ((t.Close os).1, none) ∧
    (j.Close os).1.1.file = none ∧ (t.Close os).1.1.file = none ∧
    (∀ file, j.file = some file →
      (j.Close os).1.2.calls = os.calls ++ [SysCall.close file] ∧
      (j.Close os).2 = os.outcomes.headD none) ∧
    (∀ file, t.file = some file →
      (t.Close os).1.2.calls = os.calls ++ [SysCall.close file] ∧
      (t.Close os).2 = os.outcomes.headD none) := by
  have hj : (j.Close os).1.1.file = none := by rw [JSONFileDriver_Close_file]
  have ht : (t.Close os).1.1.file = none := by rw [TextFileDriver_Close_file]
  refine ⟨?_, ?_, hj, ht, ?_, ?_⟩
  · exact JSONFileDriver_Close_closed _ _ hj
  · exact TextFileDriver_Close_closed _ _ ht
  · intro file hf
    simp only [JSONFileDriver.Close, hf, OS.perform, and_self]
  · intro file hf
    simp only [TextFileDriver.Close, hf, OS.perform, and_self]

/-- Witness for C15: the first `Close` of an open JSON file driver fails in the
operating system; the second returns `nil` and makes no further call. -/
theorem Close_is_idempotent_witness :
    ((JSONFileDriver.mk "app.json" (some 5) (NewEncoder 5) Debug).Close (OS.mk [] [some "EIO"])).2 =
        some "EIO" ∧
      ((JSONFileDriver.mk "app.json" (some 5) (NewEncoder 5) Debug).Close (OS.mk [] [some "EIO"])).1.1.Close
          ((JSONFileDriver.mk "app.json" (some 5) (NewEncoder 5) Debug).Close (OS.mk [] [some "EIO"])).1.2 =
        ((JSONFileDriver.mk "app.json" none (NewEncoder 5) Debug, OS.mk [SysCall.close 5] []), none) :=
  ⟨((Close_is_idempotent (JSONFileDriver.mk "app.json" (some 5) (NewEncoder 5) Debug)
      (TextFileDriver.mk "app.log" none Debug) (OS.mk [] [some "EIO"])).2.2.2.2.1 5 rfl).2,
    (Close_is_idempotent (JSONFileDriver.mk "app.json" (some 5) (NewEncoder 5) Debug)
      (TextFileDriver.mk "app.log" none Debug) (OS.mk [] [some "EIO"])).1⟩

theorem DriverObject_Close_closed (o : DriverObject) (os : OS) :
    (o.Close os).1.1 = o.closed := by
  cases o with
  | console d => rfl
  | jsonFile d => simp only [DriverObject.Close, DriverObject.closed, JSONFileDriver_Close_file]
  | textFile d => simp only [DriverObject.Close, DriverObject.closed, TextFileDriver_Close_file]

theorem DriverObject_closed_closed (o : DriverObject) : o.closed.closed = o.closed := by
  cases o <;> rfl

theorem list_set_self {α : Type} :
    ∀ (l : List α) (p : Nat) (o : α), l[p]? = some o → l.set p o = l
  | [], _, _, h => by simp at h
  | a :: l, 0, o, h => by
    simp only [List.getElem?_cons_zero, Option.some.injEq] at h
    simp [h]
  | a :: l, p + 1, o, h => by
    simp only [List.getElem?_cons_succ] at h
    simp [list_set_self l p o h]

theorem driverAt_Close_heap (rt : Runtime) (q p : Nat) (w : World) :
    ((driverAt rt q).Close w).1.heap[p]? =
      if q = p then (w.heap[p]?).map DriverObject.closed else w.heap[p]? := by
  simp only [driverAt]
  cases hq : w.heap[q]? with
  | none =>
    by_cases hqp : q = p
    · subst hqp
      simp [hq]
    · simp [hqp]
  | some o =>
    by_cases hqp : q = p
    · subst hqp
      simp only [if_true, hq, Option.map_some', DriverObject_Close_closed]
      rw [List.getElem?_set_self', hq]
      rfl
    · simp only [if_neg hqp]
      exact List.getElem?_set_ne hqp

theorem rangeDrivers_preserves {σ : Type} (call : Driver σ → σ → σ × error) (Q : σ → Prop)
    (ds : List (Driver σ)) (hQ : ∀ d ∈ ds, ∀ w, Q w → Q (call d w).1) :
    ∀ (lastErr : error) (w : σ), Q w → Q (rangeDrivers call ds lastErr w).1 := by
  induction ds with
  | nil => intro lastErr w hw; exact hw
  | cons d ds ih =>
    intro lastErr w hw
    have h1 := hQ d (List.mem_cons_self d ds) w hw
    have ih2 := ih (fun d2 hd2 => hQ d2 (List.mem_cons_of_mem d hd2))
    simp only [rangeDrivers]
    cases hc : call d w with
    | mk w1 r =>
      rw [hc] at h1
      cases r with
      | none => exact ih2 lastErr w1 h1
      | some err => exact ih2 (some err) w1 h1

theorem rangeDrivers_establishes {σ : Type} (call : Driver σ → σ → σ × error) (P Q : σ → Prop)
    (ds : List (Driver σ)) (hP : ∀ d ∈ ds, ∀ w, P w → P (call d w).1)
    (hQ : ∀ d ∈ ds, ∀ w, Q w → Q (call d w).1)
    (d0 : Driver σ) (hd0 : d0 ∈ ds) (h0 : ∀ w, P w → Q (call d0 w).1) :
    ∀ (lastErr : error) (w : σ), P w → Q (rangeDrivers call ds lastErr w).1 := by
  induction ds with
  | nil => simp at hd0
  | cons d ds ih =>
    intro lastErr w hw
    have hPd := hP d (List.mem_cons_self d ds) w hw
    have hQrest := rangeDrivers_preserves call Q ds
      (fun d2 hd2 => hQ d2 (List.mem_cons_of_mem d hd2))
    simp only [rangeDrivers]
    rcases List.mem_cons.mp hd0 with hEq | hMem
    · subst hEq
      have hQd := h0 w hw
      cases hc : call d0 w with
      | mk w1 r =>
        rw [hc] at hQd
        cases r with
        | none => exact hQrest lastErr w1 hQd
        | some err => exact hQrest (some err) w1 hQd
    · have ih2 := ih (fun d2 hd2 => hP d2 (List.mem_cons_of_mem d hd2))
        (fun d2 hd2 => hQ d2 (List.mem_cons_of_mem d hd2)) hMem
      cases hc : call d w with
      | mk w1 r =>
        rw [hc] at hPd
        cases r with
        | none => exact ih2 lastErr w1 hPd
        | some err => exact ih2 (some err) w1 hPd

/-- After `Close` on a logger whose drivers are the pointers `ptrs`, the driver
struct at each of these pointers is closed. -/
theorem logger_Close_closes_struct (rt : Runtime) (ptrs : List Nat) (p : Nat) (w : World)
    (o : DriverObject) (hp : p ∈ ptrs) (ho : w.heap[p]? = some o) :
    ((NewLogger (ptrs.map (driverAt rt))).Close w).1.heap[p]? = some o.closed := by
  have key := rangeDrivers_establishes (fun driver : Driver World => driver.Close)
    (fun w1 => ∃ o1, w1.heap[p]? = some o1 ∧ o1.closed = o.closed)
    (fun w1 => w1.heap[p]? = some o.closed)
    (ptrs.map (driverAt rt))
    (by
      intro d hd w1 hw1
      obtain ⟨q, _, rfl⟩ := List.mem_map.mp hd
      obtain ⟨o1, h1, h2⟩ := hw1
      simp only [driverAt_Close_heap, h1]
      by_cases hqp : q = p
      · exact ⟨o1.closed, by simp [hqp], by rw [DriverObject_closed_closed, h2]⟩
      · exact ⟨o1, by simp [hqp], h2⟩)
    (by
      intro d hd w1 hw1
      obtain ⟨q, _, rfl⟩ := List.mem_map.mp hd
      simp only [driverAt_Close_heap, hw1]
      by_cases hqp : q = p
      · simp [hqp, DriverObject_closed_closed]
      · simp [hqp])
    (driverAt rt p) (List.mem_map.mpr ⟨p, hp, rfl⟩)
    (by
      intro w1 hw1
      obtain ⟨o1, h1, h2⟩ := hw1
      simp only [driverAt_Close_heap, h1, if_true, Option.map_some', h2])
    none w ⟨o, ho, rfl⟩
  simpa [logger.Close, NewLogger] using key

theorem driverAt_Log_closed_json (rt : Runtime) (p : Nat) (w : World) (d : JSONFileDriver)
    (e : LogEntry) (hp : w.heap[p]? = some (DriverObject.jsonFile { d with file := none })) :
    (driverAt rt p).Log e w =
      (w, if e.Level < d.minLevel then none else some "driver is closed") := by
  have hlog := JSONFileDriver_Log_after_close rt { d with file := none } e w.os rfl
  simp only [driverAt, hp, DriverObject.Log, hlog, list_set_self w.heap p _ hp]

theorem driverAt_Log_closed_text (rt : Runtime) (p : Nat) (w : World) (d : TextFileDriver)
    (e : LogEntry) (hp : w.heap[p]? = some (DriverObject.textFile { d with file := none })) :
    (driverAt rt p).Log e w =
      (w, if e.Level < d.minLevel then none else some "driver is closed") := by
  have hlog := TextFileDriver_Log_after_close rt { d with file := none } e w.os rfl
  simp only [driverAt, hp, DriverObject.Log, hlog, list_set_self w.heap p _ hp]

/-- C14 as stated fails: a JSON file driver and a text file driver constructed with
`min_level` `warning` and then closed return `nil`, not a "driver is closed"
error, when a `Debug` entry is logged, because `Log` tests the level before it
tests the file. -/
theorem Log_below_threshold_after_Close_returns_nil :
    (∃ d os1,
      NewJSONFileDriver [("file_path", Value.str "app.json"), ("min_level", Value.str "warning")]
        (OS.mk [] []) = (os1, (some d, none)) ∧
      ((d.Close os1).1.1.Log exampleRuntime (LogEntry.mk 7 Debug "late" [] "")
        (d.Close os1).1.2).2 = none) ∧
    (∃ d os1,
      NewTextFileDriver [("file_path", Value.str "app.log"), ("min_level", Value.str "warning")]
        (OS.mk [] []) = (os1, (some d, none)) ∧
      ((d.Close os1).1.1.Log exampleRuntime (LogEntry.mk 7 Debug "late" [] "")
        (d.Close os1).1.2).2 = none) := by
  refine ⟨⟨JSONFileDriver.mk "app.json" (some 4) (NewEncoder 4) Warning,
      OS.mk [SysCall.mkdirAll "app.json", SysCall.openFile "app.json"] [], by decide, by decide⟩,
    ⟨TextFileDriver.mk "app.log" (some 4) Warning,
      OS.mk [SysCall.mkdirAll "app.log", SysCall.openFile "app.log"] [], by decide, by decide⟩⟩

/-- C14, amended: once `Close` has been called on a JSON or text file driver, directly
or through `Close` of a logger holding it, every later `Log` call makes no call
on any file and leaves driver and operating system as they are; it fails with
"driver is closed" when the entry is at or above the driver's minimum level and
returns `nil` when the entry is below it. -/
theorem Log_after_Close (rt : Runtime) (j : JSONFileDriver) (t : TextFileDriver)
    (e : LogEntry) (os : OS) (ptrs : List Nat) (p : Nat) (w : World) :
    (j.Close os).1.1.Log rt e (j.Close os).1.2 =
      ((j.Close os).1, if e.Level < j.minLevel then none else some "driver is closed") ∧
    (t.Close os).1.1.Log rt e (t.Close os).1.2 =
      ((t.Close os).1, if e.Level < t.minLevel then none else some "driver is closed") ∧
    (∀ d : JSONFileDriver, p ∈ ptrs → w.heap[p]? = some (DriverObject.jsonFile d) →
      (driverAt rt p).Log e ((NewLogger (ptrs.map (driverAt rt))).Close w).1 =
        (((NewLogger (ptrs.map (driverAt rt))).Close w).1,
          if e.Level < d.minLevel then none else some "driver is closed")) ∧
    (∀ d : TextFileDriver, p ∈ ptrs → w.heap[p]? = some (DriverObject.textFile d) →
      (driverAt rt p).Log e ((NewLogger (ptrs.map (driverAt rt))).Close w).1 =
        (((NewLogger (ptrs.map (driverAt rt))).Close w).1,
          if e.Level < d.minLevel then none else some "driver is closed")) := by
  refine ⟨?_, ?_, ?_, ?_⟩
  · have h := JSONFileDriver_Log_after_close rt (j.Close os).1.1 e (j.Close os).1.2
      (by rw [JSONFileDriver_Close_file])
    have hm : (j.Close os).1.1.minLevel = j.minLevel := by rw [JSONFileDriver_Close_file]
    rw [h, hm]
  · have h := TextFileDriver_Log_after_close rt (t.Close os).1.1 e (t.Close os).1.2
      (by rw [TextFileDriver_Close_file])
    have hm : (t.Close os).1.1.minLevel = t.minLevel := by rw [TextFileDriver_Close_file]
    rw [h, hm]
  · intro d hp hd
    exact driverAt_Log_closed_json rt p _ d e (logger_Close_closes_struct rt ptrs p w _ hp hd)
  · intro d hp hd
    exact driverAt_Log_closed_text rt p _ d e (logger_Close_closes_struct rt ptrs p w _ hp hd)

/-- Witness for C14 amended: a logger holding a console driver and an open text file
driver is closed; an `Info` entry then logged through the text file driver fails
with "driver is closed" and the world stays as `Close` left it. -/
theorem Log_after_Close_witness :
    (driverAt exampleRuntime 1).Log (LogEntry.mk 9 Info "late" [] "")
        ((NewLogger ([0, 1].map (driverAt exampleRuntime))).Close
          (World.mk (OS.mk [] [])
            [DriverObject.console (NewConsoleDriverWithOptions []),
              DriverObject.textFile (TextFileDriver.mk "app.log" (some 5) Debug)])).1 =
      (World.mk (OS.mk [SysCall.close 5] [])
          [DriverObject.console (NewConsoleDriverWithOptions []),
            DriverObject.textFile (TextFileDriver.mk "app.log" none Debug)],
        some "driver is closed") :=
  (Log_after_Close exampleRuntime (JSONFileDriver.mk "a.json" none (NewEncoder 0) Debug)
    (TextFileDriver.mk "app.log" none Debug) (LogEntry.mk 9 Info "late" [] "") (OS.mk [] [])
    [0, 1] 1
    (World.mk (OS.mk [] [])
      [DriverObject.console (NewConsoleDriverWithOptions []),
        DriverObject.textFile (TextFileDriver.mk "app.log" (some 5) Debug)])).2.2.2
    (TextFileDriver.mk "app.log" (some 5) Debug) (by decide) rfl

/-! ## Constructors -/

theorem Options.string_set_ne (options : Options) (k k1 : String) (v : Value) (h : k1 ≠ k) :
    Options.string (GoMap.set options k v) k1 = Options.string options k1 := by
  simp only [Options.string, GoMap.get_set, if_neg h]

theorem openLogFile_set_min_level (options : Options) (v : Value) (os : OS) :
    openLogFile (GoMap.set options "min_level" v) os = openLogFile options os := by
  simp only [openLogFile, Options.string_set_ne options "min_level" "file_path" v (by decide)]

theorem openLogFile_missing (options : Options) (os : OS)
    (h : options.string "file_path" = none ∨ options.string "file_path" = some "") :
    openLogFile options os = (os, (none, some "file_path is required")) := by
  rcases h with h | h <;> simp [openLogFile, h]

theorem openLogFile_result (options : Options) (os : OS) :
    (∃ err, openLogFile options os = ((openLogFile options os).1, (none, some err))) ∨
    (∃ filePath file,
      openLogFile options os = ((openLogFile options os).1, (some (filePath, file), none))) := by
  unfold openLogFile
  cases options.string "file_path" with
  | none => exact Or.inl ⟨_, rfl⟩
  | some filePath =>
    by_cases hp : filePath = ""
    · simp only [hp, if_true]
      exact Or.inl ⟨_, rfl⟩
    · simp only [if_neg hp]
      cases h1 : os.perform (SysCall.mkdirAll filePath) with
      | mk os1 r1 =>
        cases r1 with
        | some err =>
          dsimp only
          exact Or.inl ⟨_, rfl⟩
        | none =>
          dsimp only
          cases h2 : os1.perform (SysCall.openFile filePath) with
          | mk os2 r2 =>
            cases r2 with
            | some err =>
              dsimp only
              exact Or.inl ⟨_, rfl⟩
            | none =>
              dsimp only
              exact Or.inr ⟨_, _, rfl⟩

/-- The threshold a constructor sets, from the value of `min_level`. -/
theorem minLevel_cases (options : Options) (m : Level)
    (hm : m = (match options.string "min_level" with
      | some levelStr =>
        match ParseLevel levelStr with
        | (level, none) => level
        | (_, some _) => Debug
      | none => Debug)) :
    (options.string "min_level" = none → m = Debug) ∧
    (∀ s, options.string "min_level" = some s → (ParseLevel s).2 ≠ none → m = Debug) ∧
    (∀ s l, options.string "min_level" = some s → ParseLevel s = (l, none) → m = l) := by
  refine ⟨?_, ?_, ?_⟩
  · intro h
    rw [hm, h]
  · intro s h herr
    cases hp : ParseLevel s with
    | mk l r =>
      cases r with
      | none => rw [hp] at herr; exact absurd rfl herr
      | some err => simp only [hm, h, hp]
  · intro s l h hp
    simp only [hm, h, hp]

theorem NewConsoleDriver_minLevel (options : Options) :
    (NewConsoleDriver options).1.minLevel =
      (match options.string "min_level" with
      | some levelStr =>
        match ParseLevel levelStr with
        | (level, none) => level
        | (_, some _) => Debug
      | none => Debug) := by
  unfold NewConsoleDriver
  cases options.string "min_level" with
  | none => cases options.string "time_format" <;> cases options.bool "colorized" <;> rfl
  | some s =>
    cases hp : ParseLevel s with
    | mk l r =>
      cases r <;> cases options.string "time_format" <;> cases options.bool "colorized" <;>
        simp [hp]

theorem NewJSONFileDriver_result (options : Options) (os : OS) :
    (NewJSONFileDriver options os).1 = (openLogFile options os).1 ∧
    (NewJSONFileDriver options os).2.2 = (openLogFile options os).2.2 ∧
    ((NewJSONFileDriver options os).2.1 = none ↔ (openLogFile options os).2.1 = none) ∧
    (∀ d, (NewJSONFileDriver options os).2.1 = some d →
      d.minLevel = (match options.string "min_level" with
        | some levelStr =>
          match ParseLevel levelStr with
          | (level, none) => level
          | (_, some _) => Debug
        | none => Debug) ∧ d.file ≠ none ∧ d.file = some d.encoder.w) := by
  rcases openLogFile_result options os with ⟨err, h⟩ | ⟨filePath, file, h⟩
  · generalize (openLogFile options os).1 = os1 at h
    simp [NewJSONFileDriver, h]
  · generalize (openLogFile options os).1 = os1 at h
    simp only [NewJSONFileDriver, h]
    refine ⟨trivial, trivial, by simp, ?_⟩
    intro d hd
    simp only [Option.some.injEq] at hd
    subst hd
    cases options.string "min_level" with
    | none => simp [NewEncoder]
    | some s =>
      cases hp : ParseLevel s with
      | mk l r => cases r <;> simp [hp, NewEncoder]

theorem NewTextFileDriver_result (options : Options) (os : OS) :
    (NewTextFileDriver options os).1 = (openLogFile options os).1 ∧
    (NewTextFileDriver options os).2.2 = (openLogFile options os).2.2 ∧
    ((NewTextFileDriver options os).2.1 = none ↔ (openLogFile options os).2.1 = none) ∧
    (∀ d, (NewTextFileDriver options os).2.1 = some d →
      d.minLevel = (match options.string "min_level" with
        | some levelStr =>
          match ParseLevel levelStr with
          | (level, none) => level
          | (_, some _) => Debug
        | none => Debug) ∧ d.file ≠ none) := by
  rcases openLogFile_result options os with ⟨err, h⟩ | ⟨filePath, file, h⟩
  · generalize (openLogFile options os).1 = os1 at h
    simp [NewTextFileDriver, h]
  · generalize (openLogFile options os).1 = os1 at h
    simp only [NewTextFileDriver, h]
    refine ⟨trivial, trivial, by simp, ?_⟩
    intro d hd
    simp only [Option.some.injEq] at hd
    subst hd
    cases options.string "min_level" with
    | none => simp
    | some s =>
      cases hp : ParseLevel s with
      | mk l r => cases r <;> simp [hp]

theorem Options.string_eq_some_iff (options : Options) (k s : String) :
    options.string k = some s ↔ GoMap.get options k = some (Value.str s) := by
  unfold Options.string
  cases h : GoMap.get options k with
  | none => simp
  | some v => cases v <;> simp

theorem Options.string_eq_none_iff (options : Options) (k : String) :
    options.string k = none ↔ ∀ s, GoMap.get options k ≠ some (Value.str s) := by
  unfold Options.string
  cases h : GoMap.get options k with
  | none => simp
  | some v => cases v <;> simp

theorem thresholdAsConfigured_of_eq (options : Options) (m : Level)
    (hm : m = (match options.string "min_level" with
      | some levelStr =>
        match ParseLevel levelStr with
        | (level, none) => level
        | (_, some _) => Debug
      | none => Debug)) :
    thresholdAsConfigured options m := by
  obtain ⟨h1, h2, h3⟩ := minLevel_cases options m hm
  refine ⟨?_, ?_, ?_⟩
  · intro h
    exact h1 ((Options.string_eq_none_iff options "min_level").mpr h)
  · intro s h herr
    exact h2 s ((Options.string_eq_some_iff options "min_level" s).mpr h) herr
  · intro s l h hp
    exact h3 s l ((Options.string_eq_some_iff options "min_level" s).mpr h) hp

theorem NewConsoleDriver_error (options : Options) : (NewConsoleDriver options).2 = none := rfl

/-- The file a constructor opens, when `file_path` is a non-empty string and the two
calls on the operating system succeed. -/
theorem openLogFile_opened (options : Options) (os : OS) (fp : String)
    (hfp : GoMap.get options "file_path" = some (Value.str fp)) (hne : fp ≠ "")
    (hmk : os.outcomes.headD none = none) (hop : os.outcomes.tail.headD none = none) :
    (openLogFile options os).2 = (some (fp, 3 + (os.calls.length + 1)), none) := by
  have hs := (Options.string_eq_some_iff options "file_path" fp).mpr hfp
  simp only [openLogFile, hs, if_neg hne, OS.perform, hmk, hop, List.length_append,
    List.length_singleton]

theorem four_levels_from_Debug (l : Level) (hl : l ∈ [Debug, Info, Warning, core.Error]) :
    Debug ≤ l := by
  simp only [List.mem_cons, List.mem_singleton, List.not_mem_nil, or_false] at hl
  rcases hl with h | h | h | h <;> rw [h] <;> decide

theorem thresholdAsConfigured_unusable (options : Options) (m : Level)
    (hm : thresholdAsConfigured options m)
    (hbad : ∀ s, GoMap.get options "min_level" = some (Value.str s) → (ParseLevel s).2 ≠ none) :
    m = Debug := by
  by_cases h : ∃ s, GoMap.get options "min_level" = some (Value.str s)
  · obtain ⟨s, hs⟩ := h
    exact hm.2.1 s hs (hbad s hs)
  · exact hm.1 (fun s hs => h ⟨s, hs⟩)

/-- C16: for the console, JSON file and text file constructors, a `min_level` that is
absent, is not a string, or is a string `ParseLevel` rejects never makes
construction fail: the console constructor always returns a `nil` error; for
the file constructors the operating system calls, the error and whether a
driver is returned do not depend on `min_level` at all, and with a non-empty
`file_path` and a directory and a file the operating system grants, each
returns a driver and a `nil` error.  The driver built has the default threshold
`Debug`, below or equal to each of the four levels, so that it writes entries of
all four, not the `Info` that `ParseLevel` returns with its error; a string
`ParseLevel` accepts sets the threshold to the parsed level. -/
theorem min_level_option_sets_threshold (rt : Runtime) (options : Options) (os : OS)
    (v : Value) (e : LogEntry) (os2 : OS) :
    ((NewConsoleDriver options).2 = none ∧
      thresholdAsConfigured options (NewConsoleDriver options).1.minLevel) ∧
    ((NewJSONFileDriver (GoMap.set options "min_level" v) os).1 =
        (NewJSONFileDriver options os).1 ∧
      (NewJSONFileDriver (GoMap.set options "min_level" v) os).2.2 =
        (NewJSONFileDriver options os).2.2 ∧
      ((NewJSONFileDriver (GoMap.set options "min_level" v) os).2.1 = none ↔
        (NewJSONFileDriver options os).2.1 = none) ∧
      (∀ d, (NewJSONFileDriver options os).2.1 = some d →
        thresholdAsConfigured options d.minLevel)) ∧
    ((NewTextFileDriver (GoMap.set options "min_level" v) os).1 =
        (NewTextFileDriver options os).1 ∧
      (NewTextFileDriver (GoMap.set options "min_level" v) os).2.2 =
        (NewTextFileDriver options os).2.2 ∧
      ((NewTextFileDriver (GoMap.set options "min_level" v) os).2.1 = none ↔
        (NewTextFileDriver options os).2.1 = none) ∧
      (∀ d, (NewTextFileDriver options os).2.1 = some d →
        thresholdAsConfigured options d.minLevel)) ∧
    (∀ fp, GoMap.get options "file_path" = some (Value.str fp) → fp ≠ "" →
      os.outcomes.headD none = none → os.outcomes.tail.headD none = none →
      ∃ dj dt,
        (NewJSONFileDriver options os).2 = (some dj, none) ∧
        (NewTextFileDriver options os).2 = (some dt, none) ∧
        dj.filePath = fp ∧ dt.filePath = fp ∧
        dj.file = some dj.encoder.w ∧ dj.encoder.err = none ∧ dt.file ≠ none ∧
        thresholdAsConfigured options dj.minLevel ∧
        thresholdAsConfigured options dt.minLevel ∧
        ((∀ s, GoMap.get options "min_level" = some (Value.str s) → (ParseLevel s).2 ≠ none) →
          e.Level ∈ [Debug, Info, Warning, core.Error] →
          dj.minLevel = Debug ∧ dt.minLevel = Debug ∧
          (NewConsoleDriver options).1.minLevel = Debug ∧
          (∃ h bytes, wroteExactly os2 (dj.Log rt e os2).1.2 h bytes) ∧
          (∃ h bytes, wroteExactly os2 (dt.Log rt e os2).1.2 h bytes) ∧
          (∃ h bytes,
            wroteExactly os2 ((NewConsoleDriver options).1.Log rt e os2).1.2 h bytes))) ∧
    (Debug ≤ Debug ∧ Debug ≤ Info ∧ Debug ≤ Warning ∧ Debug ≤ core.Error) ∧
    (ParseLevel "invalid").1 = Info ∧ (ParseLevel "invalid").2 ≠ none ∧
    (NewConsoleDriver [("min_level", Value.str "invalid")]).1.minLevel = Debug ∧
    (NewConsoleDriver [("min_level", Value.int 2)]).1.minLevel = Debug ∧
    (NewConsoleDriver [("min_level", Value.str "warn")]).1.minLevel = Warning := by
  have hcons := thresholdAsConfigured_of_eq _ _ (NewConsoleDriver_minLevel options)
  refine ⟨⟨rfl, hcons⟩, ?_, ?_, ?_, by decide, by decide, by decide, by decide, by decide,
    by decide⟩
  · obtain ⟨a1, a2, a3, a4⟩ := NewJSONFileDriver_result options os
    obtain ⟨b1, b2, b3, _⟩ := NewJSONFileDriver_result (GoMap.set options "min_level" v) os
    rw [openLogFile_set_min_level] at b1 b2 b3
    refine ⟨by rw [a1, b1], by rw [a2, b2], by rw [a3, b3], ?_⟩
    intro d hd
    exact thresholdAsConfigured_of_eq _ _ (a4 d hd).1
  · obtain ⟨a1, a2, a3, a4⟩ := NewTextFileDriver_result options os
    obtain ⟨b1, b2, b3, _⟩ := NewTextFileDriver_result (GoMap.set options "min_level" v) os
    rw [openLogFile_set_min_level] at b1 b2 b3
    refine ⟨by rw [a1, b1], by rw [a2, b2], by rw [a3, b3], ?_⟩
    intro d hd
    exact thresholdAsConfigured_of_eq _ _ (a4 d hd).1
  · intro fp hfp hne hmk hop
    have hopen := openLogFile_opened options os fp hfp hne hmk hop
    obtain ⟨_, _, _, j4⟩ := NewJSONFileDriver_result options os
    obtain ⟨_, _, _, t4⟩ := NewTextFileDriver_result options os
    have hj : ∃ dj, (NewJSONFileDriver options os).2 = (some dj, none) ∧ dj.filePath = fp ∧
        dj.file = some (3 + (os.calls.length + 1)) := by
      cases ho : openLogFile options os with
      | mk os1 r =>
        rw [ho] at hopen
        simp only at hopen
        subst hopen
        simp only [NewJSONFileDriver, ho]
        cases options.string "min_level" with
        | none => exact ⟨_, rfl, rfl, rfl⟩
        | some s =>
          cases hp : ParseLevel s with
          | mk l r2 => cases r2 <;> simp only [hp] <;> exact ⟨_, rfl, rfl, rfl⟩
    have ht : ∃ dt, (NewTextFileDriver options os).2 = (some dt, none) ∧ dt.filePath = fp ∧
        dt.file = some (3 + (os.calls.length + 1)) := by
      cases ho : openLogFile options os with
      | mk os1 r =>
        rw [ho] at hopen
        simp only at hopen
        subst hopen
        simp only [NewTextFileDriver, ho]
        cases options.string "min_level" with
        | none => exact ⟨_, rfl, rfl, rfl⟩
        | some s =>
          cases hp : ParseLevel s with
          | mk l r2 => cases r2 <;> simp only [hp] <;> exact ⟨_, rfl, rfl, rfl⟩
    obtain ⟨dj, hdj, hjp, hjf⟩ := hj
    obtain ⟨dt, hdt, htp, htf⟩ := ht
    have hdj1 : (NewJSONFileDriver options os).2.1 = some dj := by rw [hdj]
    have hdt1 : (NewTextFileDriver options os).2.1 = some dt := by rw [hdt]
    have hfresh := NewJSONFileDriver_fresh options os dj hdj1
    have hjm := thresholdAsConfigured_of_eq _ _ (j4 dj hdj1).1
    have htm := thresholdAsConfigured_of_eq _ _ (t4 dt hdt1).1
    refine ⟨dj, dt, hdj, hdt, hjp, htp, hfresh.1, hfresh.2, by rw [htf]; simp, hjm, htm, ?_⟩
    intro hbad hl
    have hjD := thresholdAsConfigured_unusable options _ hjm hbad
    have htD := thresholdAsConfigured_unusable options _ htm hbad
    have hcD := thresholdAsConfigured_unusable options _ hcons hbad
    have hge := four_levels_from_Debug e.Level hl
    refine ⟨hjD, htD, hcD, ?_, ?_, ?_⟩
    · rw [JSONFileDriver_Log_open rt dj e os2 (by rw [hjD]; exact not_lt.mpr hge) _ hjf
        hfresh.2]
      exact ⟨_, _, perform_calls _ _⟩
    · rw [TextFileDriver_Log_open rt dt e os2 (by rw [htD]; exact not_lt.mpr hge) _ htf]
      exact ⟨_, _, perform_calls _ _⟩
    · rw [ConsoleDriver_Log_from rt _ e os2 (by rw [hcD]; exact not_lt.mpr hge)]
      exact ⟨_, _, perform_calls _ _⟩

/-- Witness for C16: the JSON file and text file constructors of
`TestDriverCreationWithInvalidOptions`, given a `file_path` and `min_level`
`invalid`, each return a driver and no error, and the drivers have the threshold
`Debug`. -/
theorem min_level_option_sets_threshold_witness :
    (∃ dj dt,
      (NewJSONFileDriver [("file_path", Value.str "test.json"), ("min_level", Value.str "invalid")]
        (OS.mk [] [])).2 = (some dj, none) ∧
      (NewTextFileDriver [("file_path", Value.str "test.json"), ("min_level", Value.str "invalid")]
        (OS.mk [] [])).2 = (some dt, none) ∧
      dj.minLevel = Debug ∧ dt.minLevel = Debug) ∧
    (NewJSONFileDriver [("file_path", Value.str "test.json"), ("min_level", Value.str "invalid")]
        (OS.mk [] [])).2 =
      (some (JSONFileDriver.mk "test.json" (some 4) (NewEncoder 4) Debug), none) ∧
    (NewTextFileDriver [("file_path", Value.str "test.json"), ("min_level", Value.str "invalid")]
        (OS.mk [] [])).2 =
      (some (TextFileDriver.mk "test.json" (some 4) Debug), none) :=
  ⟨(fun ⟨dj, dt, h1, h2, _, _, _, _, _, _, _, h3⟩ =>
      ⟨dj, dt, h1, h2,
        (h3 (fun s hs => by
            have hget : GoMap.get
                [("file_path", Value.str "test.json"), ("min_level", Value.str "invalid")]
                "min_level" = some (Value.str "invalid") := by decide
            rw [hget] at hs
            simp only [Option.some.injEq, Value.str.injEq] at hs
            subst hs
            decide)
          (by decide)).1,
        (h3 (fun s hs => by
            have hget : GoMap.get
                [("file_path", Value.str "test.json"), ("min_level", Value.str "invalid")]
                "min_level" = some (Value.str "invalid") := by decide
            rw [hget] at hs
            simp only [Option.some.injEq, Value.str.injEq] at hs
            subst hs
            decide)
          (by decide)).2.1⟩)
      ((min_level_option_sets_threshold exampleRuntime
        [("file_path", Value.str "test.json"), ("min_level", Value.str "invalid")]
        (OS.mk [] []) Value.null (LogEntry.mk 7 Info "kept" [] "") (OS.mk [] [])).2.2.2.1
        "test.json" (by decide) (by decide) rfl rfl),
    by decide, by decide⟩

/-- C17: the JSON file and text file constructors, given options in which `file_path`
is absent, is not a string or is the empty string, return the nil driver with
the error "file_path is required" and make no call on the operating system (no
directory is created, no file opened); the console constructor returns a `nil`
error for every options map. -/
theorem file_path_is_required (options : Options) (os : OS) :
    (filePathMissing options →
      NewJSONFileDriver options os = (os, (none, some "file_path is required")) ∧
      NewTextFileDriver options os = (os, (none, some "file_path is required"))) ∧
    (NewConsoleDriver options).2 = none := by
  refine ⟨?_, rfl⟩
  intro h
  have hmiss : openLogFile options os = (os, (none, some "file_path is required")) := by
    apply openLogFile_missing
    rcases h with h | h
    · exact Or.inl ((Options.string_eq_none_iff options "file_path").mpr h)
    · exact Or.inr ((Options.string_eq_some_iff options "file_path" "").mpr h)
  constructor
  · simp only [NewJSONFileDriver, hmiss]
  · simp only [NewTextFileDriver, hmiss]

/-- Witness for C17: `file_path` given as a number. -/
theorem file_path_is_required_witness :
    NewJSONFileDriver [("file_path", Value.int 3)] (OS.mk [] [some "EACCES"]) =
        (OS.mk [] [some "EACCES"], (none, some "file_path is required")) ∧
      NewTextFileDriver [("file_path", Value.int 3)] (OS.mk [] [some "EACCES"]) =
        (OS.mk [] [some "EACCES"], (none, some "file_path is required")) :=
  (file_path_is_required [("file_path", Value.int 3)] (OS.mk [] [some "EACCES"])).1
    (Or.inl (fun s h => by
      have h1 : GoMap.get [("file_path", Value.int 3)] "file_path" = some (Value.int 3) := by
        decide
      rw [h1] at h
      exact absurd h (by simp)))

/-! ## Records written -/

theorem written_perform_write (os : OS) (h1 h : Handle) (bytes : String) :
    (os.perform (SysCall.write h1 bytes)).1.written h =
      if h1 = h then os.written h ++ [bytes] else os.written h := by
  by_cases hh : h1 = h <;> simp [OS.written, OS.perform, List.filterMap_append, hh]

/-- C18: a console driver, for an entry at or above its minimum level, issues exactly
one `Write`, of the formatted line closed by a newline: on its error stream when
the level is at or above `Error`, on its standard stream otherwise, and nothing
is written on any other writer; `Log` returns the outcome of that `Write`, so
it fails exactly when the `Write` fails.  The two streams of a driver built by
`NewConsoleDriver` are `os.Stdout` and `os.Stderr`. -/
theorem console_routes_by_level (rt : Runtime) (c : ConsoleDriver) (e : LogEntry) (os : OS)
    (h : Handle) (options : Options) :
    (c.minLevel ≤ e.Level → core.Error ≤ e.Level →
      wroteExactly os (c.Log rt e os).1.2 c.stderr (c.format rt e ++ "\n") ∧
      (h ≠ c.stderr → (c.Log rt e os).1.2.written h = os.written h)) ∧
    (c.minLevel ≤ e.Level → e.Level < core.Error →
      wroteExactly os (c.Log rt e os).1.2 c.stdout (c.format rt e ++ "\n") ∧
      (h ≠ c.stdout → (c.Log rt e os).1.2.written h = os.written h)) ∧
    (c.minLevel ≤ e.Level → (c.Log rt e os).2 = os.outcomes.headD none) ∧
    ((NewConsoleDriver options).1.stdout = Stdout ∧
      (NewConsoleDriver options).1.stderr = Stderr ∧ Stdout ≠ Stderr) := by
  refine ⟨?_, ?_, ?_, ?_⟩
  · intro hmin herr
    have hge : e.Level ≥ core.Error := herr
    rw [ConsoleDriver_Log_from rt c e os (not_lt.mpr hmin)]
    simp only [if_pos hge]
    refine ⟨perform_calls _ _, ?_⟩
    intro hne
    rw [written_perform_write, if_neg (Ne.symm hne)]
  · intro hmin hlt
    have hge : ¬ e.Level ≥ core.Error := not_le.mpr hlt
    rw [ConsoleDriver_Log_from rt c e os (not_lt.mpr hmin)]
    simp only [if_neg hge]
    refine ⟨perform_calls _ _, ?_⟩
    intro hne
    rw [written_perform_write, if_neg (Ne.symm hne)]
  · intro hmin
    rw [ConsoleDriver_Log_from rt c e os (not_lt.mpr hmin)]
    rfl
  · unfold NewConsoleDriver
    refine ⟨?_, ?_, by decide⟩
    · cases options.string "min_level" with
      | none => cases options.string "time_format" <;> cases options.bool "colorized" <;> rfl
      | some s =>
        cases hp : ParseLevel s with
        | mk l r =>
          cases r <;> cases options.string "time_format" <;> cases options.bool "colorized" <;>
            simp [hp]
    · cases options.string "min_level" with
      | none => cases options.string "time_format" <;> cases options.bool "colorized" <;> rfl
      | some s =>
        cases hp : ParseLevel s with
        | mk l r =>
          cases r <;> cases options.string "time_format" <;> cases options.bool "colorized" <;>
            simp [hp]

/-- Witness for C18: the driver of `TestConsoleDriver` (two buffers, no colours) writes
an `Error` entry on its error buffer and nothing on its standard buffer, and
returns the error of the failing `Write`. -/
theorem console_routes_by_level_witness :
    wroteExactly (OS.mk [] [some "EPIPE"])
        ((NewConsoleDriverWithOptions [WithStdout 10, WithStderr 11, WithMinLevel Debug,
            WithTimeFormat RFC3339, WithColorized false]).Log exampleRuntime
          (LogEntry.mk 7 core.Error "error message" [] "") (OS.mk [] [some "EPIPE"])).1.2
        11 "T7 [ERROR] error message\n" ∧
      ((NewConsoleDriverWithOptions [WithStdout 10, WithStderr 11, WithMinLevel Debug,
            WithTimeFormat RFC3339, WithColorized false]).Log exampleRuntime
          (LogEntry.mk 7 core.Error "error message" [] "") (OS.mk [] [some "EPIPE"])).1.2.written
        10 = [] ∧
      ((NewConsoleDriverWithOptions [WithStdout 10, WithStderr 11, WithMinLevel Debug,
            WithTimeFormat RFC3339, WithColorized false]).Log exampleRuntime
          (LogEntry.mk 7 core.Error "error message" [] "") (OS.mk [] [some "EPIPE"])).2 =
        some "EPIPE" :=
  ⟨((console_routes_by_level exampleRuntime
      (NewConsoleDriverWithOptions [WithStdout 10, WithStderr 11, WithMinLevel Debug,
        WithTimeFormat RFC3339, WithColorized false])
      (LogEntry.mk 7 core.Error "error message" [] "") (OS.mk [] [some "EPIPE"]) 10 []).1
      (by decide) (by decide)).1,
    ((console_routes_by_level exampleRuntime
      (NewConsoleDriverWithOptions [WithStdout 10, WithStderr 11, WithMinLevel Debug,
        WithTimeFormat RFC3339, WithColorized false])
      (LogEntry.mk 7 core.Error "error message" [] "") (OS.mk [] [some "EPIPE"]) 10 []).1
      (by decide) (by decide)).2 (by decide),
    (console_routes_by_level exampleRuntime
      (NewConsoleDriverWithOptions [WithStdout 10, WithStderr 11, WithMinLevel Debug,
        WithTimeFormat RFC3339, WithColorized false])
      (LogEntry.mk 7 core.Error "error message" [] "") (OS.mk [] [some "EPIPE"]) 10 []).2.2.1
      (by decide)⟩

/-- C20: an open text file driver, for an entry at or above its minimum level, issues
exactly one `Write` on its file, of these bytes: the formatted timestamp, `" ["`,
the level name, `"] "`, the message; then, exactly when the entry has an
attribute, `" {"`, the attributes as `k=v` joined by `", "` in the order `range`
yields them (an enumeration of the attributes, each once), and `"}"`; then,
exactly when the transaction identifier is not empty, `" (txn: "`, the
identifier and `")"`; then a newline.  `Log` returns the outcome of the `Write`. -/
theorem text_line_shape (rt : Runtime) (t : TextFileDriver) (e : LogEntry) (os : OS) :
    (∀ file, t.minLevel ≤ e.Level → t.file = some file →
      wroteExactly os (t.Log rt e os).1.2 file (textLine rt e (rt.rangeOrder e.Attrs)) ∧
      (t.Log rt e os).2 = os.outcomes.headD none) ∧
    (rt.rangeOrder e.Attrs).Perm e.Attrs ∧
    textLine rt e (rt.rangeOrder e.Attrs) =
      rt.Format e.Timestamp fileTimeLayout ++ " [" ++ e.Level.String ++ "] " ++ e.Message
        ++ (if e.Attrs ≠ [] then
              " \x7b" ++ ", ".intercalate
                ((rt.rangeOrder e.Attrs).map (fun kv => kv.1 ++ "=" ++ kv.2)) ++ "\x7d"
            else "")
        ++ (if e.TransactionID ≠ "" then " (txn: " ++ e.TransactionID ++ ")" else "")
        ++ "\n" ∧
    textLine exampleRuntime (LogEntry.mk 7 Info "tx message" [("key", "value")] "tx-123")
        [("key", "value")] =
      "T7 [INFO] tx message \x7bkey=value\x7d (txn: tx-123)\n" ∧
    textLine exampleRuntime (LogEntry.mk 7 Debug "debug message" [] "") [] =
      "T7 [DEBUG] debug message\n" := by
  refine ⟨?_, rt.rangeOrder_perm e.Attrs, ?_, by decide, by decide⟩
  · intro file hmin hf
    rw [TextFileDriver_Log_open rt t e os (not_lt.mpr hmin) file hf]
    exact ⟨perform_calls _ _, rfl⟩
  · have hlen : (e.Attrs.length > 0) = (e.Attrs ≠ []) := by
      simp [List.length_pos]
    simp only [textLine, joinPairs, hlen]

/-- Witness for C20: an open text file driver writes the line of an `Info` entry with
one attribute and a transaction identifier. -/
theorem text_line_shape_witness :
    wroteExactly (OS.mk [] [])
      ((TextFileDriver.mk "app.log" (some 5) Debug).Log exampleRuntime
        (LogEntry.mk 7 Info "tx message" [("key", "value")] "tx-123") (OS.mk [] [])).1.2
      5 "T7 [INFO] tx message \x7bkey=value\x7d (txn: tx-123)\n" :=
  ((text_line_shape exampleRuntime (TextFileDriver.mk "app.log" (some 5) Debug)
    (LogEntry.mk 7 Info "tx message" [("key", "value")] "tx-123") (OS.mk [] [])).1 5
    (by decide) rfl).1

theorem hexDigit_ne_newline (n : Nat) : hexDigit n ≠ newlineChar := by
  by_cases h : n < 16
  · interval_cases n <;> decide
  · have h2 : "0123456789abcdef".data.length ≤ n := by
      have : "0123456789abcdef".data.length = 16 := by decide
      omega
    rw [hexDigit, List.getD_eq_default _ _ h2]
    decide

theorem jsonEscape_noNewline (c : Char) : newlineChar ∉ jsonEscape c := by
  unfold jsonEscape
  by_cases a1 : c = quoteChar
  · rw [if_pos a1]; decide
  rw [if_neg a1]
  by_cases a2 : c = backslashChar
  · rw [if_pos a2]; decide
  rw [if_neg a2]
  by_cases a3 : c = Char.ofNat 8
  · rw [if_pos a3]; decide
  rw [if_neg a3]
  by_cases a4 : c = Char.ofNat 12
  · rw [if_pos a4]; decide
  rw [if_neg a4]
  by_cases a5 : c = newlineChar
  · rw [if_pos a5]; decide
  rw [if_neg a5]
  by_cases a6 : c = Char.ofNat 13
  · rw [if_pos a6]; decide
  rw [if_neg a6]
  by_cases a7 : c = Char.ofNat 9
  · rw [if_pos a7]; decide
  rw [if_neg a7]
  by_cases a8 : c.toNat < 32 ∨ c = '<' ∨ c = '>' ∨ c = '&'
  · rw [if_pos a8]
    have h1 := hexDigit_ne_newline (c.toNat / 16)
    have h2 := hexDigit_ne_newline (c.toNat % 16)
    have hb : newlineChar ≠ backslashChar := by decide
    have hu : newlineChar ≠ 'u' := by decide
    have h0 : newlineChar ≠ '0' := by decide
    simp only [List.mem_cons, List.mem_singleton, List.not_mem_nil, or_false, not_or]
    exact ⟨hb, hu, h0, h0, Ne.symm h1, Ne.symm h2⟩
  rw [if_neg a8]
  by_cases a9 : c = Char.ofNat 0x2028
  · rw [if_pos a9]; decide
  rw [if_neg a9]
  by_cases a10 : c = Char.ofNat 0x2029
  · rw [if_pos a10]; decide
  rw [if_neg a10]
  simp only [List.mem_singleton]
  exact Ne.symm a5

theorem noNewline_append (a b : String) (ha : noNewline a) (hb : noNewline b) :
    noNewline (a ++ b) := by
  simp only [noNewline, String.data_append, List.mem_append, not_or]
  exact ⟨ha, hb⟩

theorem jsonString_noNewline (s : String) : noNewline (jsonString s) := by
  simp only [noNewline, jsonString, List.mem_cons, List.mem_append, List.mem_flatMap,
    List.mem_singleton, List.not_mem_nil, or_false, not_or, not_exists, not_and]
  exact ⟨by decide, fun c _ => jsonEscape_noNewline c, by decide⟩

theorem noNewline_intercalate_go (sep : String) (hsep : noNewline sep) (l : List String) :
    ∀ acc : String, noNewline acc → (∀ x ∈ l, noNewline x) →
      noNewline (String.intercalate.go acc sep l) := by
  induction l with
  | nil => intro acc hacc _; simpa [String.intercalate.go] using hacc
  | cons x xs ih =>
    intro acc hacc hl
    simp only [String.intercalate.go]
    apply ih
    · exact noNewline_append _ _ (noNewline_append _ _ hacc hsep)
        (hl x (List.mem_cons_self x xs))
    · intro y hy
      exact hl y (List.mem_cons_of_mem x hy)

theorem noNewline_intercalate (sep : String) (hsep : noNewline sep) (l : List String)
    (hl : ∀ x ∈ l, noNewline x) : noNewline (sep.intercalate l) := by
  cases l with
  | nil => simp [String.intercalate, noNewline]
  | cons x xs =>
    simp only [String.intercalate]
    exact noNewline_intercalate_go sep hsep xs x (hl x (List.mem_cons_self x xs))
      (fun y hy => hl y (List.mem_cons_of_mem x hy))

theorem JSONField.render_noNewline (f : JSONField) : noNewline f.render := by
  cases f with
  | str s => exact jsonString_noNewline s
  | strMap m =>
    simp only [JSONField.render]
    refine noNewline_append _ _ (noNewline_append _ _ (by decide) ?_) (by decide)
    apply noNewline_intercalate _ (by decide)
    intro x hx
    obtain ⟨kv, _, rfl⟩ := List.mem_map.mp hx
    exact noNewline_append _ _ (noNewline_append _ _ (jsonString_noNewline _) (by decide))
      (jsonString_noNewline _)

theorem renderObject_noNewline (fields : List (String × JSONField)) :
    noNewline (renderObject fields) := by
  simp only [renderObject]
  refine noNewline_append _ _ (noNewline_append _ _ (by decide) ?_) (by decide)
  apply noNewline_intercalate _ (by decide)
  intro x hx
  obtain ⟨f, _, rfl⟩ := List.mem_map.mp hx
  exact noNewline_append _ _ (noNewline_append _ _ (jsonString_noNewline _) (by decide))
    (JSONField.render_noNewline _)

theorem JSONLogEntry.fields_get (v : JSONLogEntry) :
    GoMap.get v.fields "timestamp" = some (JSONField.str v.Timestamp) ∧
    GoMap.get v.fields "level" = some (JSONField.str v.Level) ∧
    GoMap.get v.fields "message" = some (JSONField.str v.Message) ∧
    GoMap.get v.fields "attributes" =
      (if v.Attributes ≠ [] then some (JSONField.strMap v.Attributes) else none) ∧
    GoMap.get v.fields "transaction_id" =
      (if v.TransactionID ≠ "" then some (JSONField.str v.TransactionID) else none) ∧
    (v.fields.map Prod.fst).Nodup := by
  have hlen : (v.Attributes.length > 0) = (v.Attributes ≠ []) := by
    simp [List.length_pos]
  simp only [JSONLogEntry.fields, GoMap.get, hlen]
  by_cases ha : v.Attributes = [] <;> by_cases ht : v.TransactionID = "" <;>
    simp [ha, ht, List.lookup]

/-- C21: the line a console driver formats is the timestamp in the driver's layout,
`" ["`, the level name, `"]"`, then `" (tx: id)"` exactly when the transaction
identifier is not empty, then `" [k=v, ...]"` (the attributes in the order `range`
yields them, each once, joined by `", "`) exactly when the entry has an
attribute, then a space and the message.  With colours on, the level name is
replaced by `colorizeLevel` of it: the name between a colour code and the reset
code for the four levels, the name itself for any other level. -/
theorem console_line_shape (rt : Runtime) (d : ConsoleDriver) (e : LogEntry) :
    (d.colorized = false →
      d.format rt e =
        rt.Format e.Timestamp d.timeFormat ++ " [" ++ e.Level.String ++ "]"
          ++ (if e.TransactionID ≠ "" then " (tx: " ++ e.TransactionID ++ ")" else "")
          ++ (if e.Attrs ≠ [] then
                " [" ++ ", ".intercalate
                  ((rt.rangeOrder e.Attrs).map (fun kv => kv.1 ++ "=" ++ kv.2)) ++ "]"
              else "")
          ++ " " ++ e.Message) ∧
    (d.colorized = true →
      d.format rt e =
        rt.Format e.Timestamp d.timeFormat ++ " [" ++ d.colorizeLevel e.Level e.Level.String
          ++ "]"
          ++ (if e.TransactionID ≠ "" then " (tx: " ++ e.TransactionID ++ ")" else "")
          ++ (if e.Attrs ≠ [] then
                " [" ++ ", ".intercalate
                  ((rt.rangeOrder e.Attrs).map (fun kv => kv.1 ++ "=" ++ kv.2)) ++ "]"
              else "")
          ++ " " ++ e.Message) ∧
    (rt.rangeOrder e.Attrs).Perm e.Attrs ∧
    (∀ s : String,
      d.colorizeLevel Debug s = "\x1b[34m" ++ s ++ "\x1b[0m" ∧
      d.colorizeLevel Info s = "\x1b[32m" ++ s ++ "\x1b[0m" ∧
      d.colorizeLevel Warning s = "\x1b[33m" ++ s ++ "\x1b[0m" ∧
      d.colorizeLevel core.Error s = "\x1b[31m" ++ s ++ "\x1b[0m" ∧
      (∀ l : Level, l ≠ Debug → l ≠ Info → l ≠ Warning → l ≠ core.Error →
        d.colorizeLevel l s = s)) ∧
    (NewConsoleDriverWithOptions [WithColorized false]).format exampleRuntime
        (LogEntry.mk 7 Info "tx message" [("key", "value")] "tx-123") =
      "T7 [INFO] (tx: tx-123) [key=value] tx message" ∧
    (NewConsoleDriverWithOptions []).format exampleRuntime
        (LogEntry.mk 7 Warning "careful" [] "") =
      "T7 [\x1b[33mWARNING\x1b[0m] careful" := by
  have hlen : (e.Attrs.length > 0) = (e.Attrs ≠ []) := by
    simp [List.length_pos]
  refine ⟨?_, ?_, rt.rangeOrder_perm e.Attrs, ?_, by decide, by decide⟩
  · intro hc
    simp only [ConsoleDriver.format, hc, hlen, Bool.false_eq_true, if_false]
  · intro hc
    simp only [ConsoleDriver.format, hc, hlen, if_true]
  · intro s
    refine ⟨rfl, rfl, rfl, rfl, ?_⟩
    intro l h0 h1 h2 h3
    simp only [ConsoleDriver.colorizeLevel, h0, h1, h2, h3, if_false]

/-- Witness for C21: an entry of an unknown level keeps its plain name with colours
on. -/
theorem console_line_shape_witness :
    (NewConsoleDriverWithOptions []).colorizeLevel 99 "UNKNOWN(99)" = "UNKNOWN(99)" :=
  ((console_line_shape exampleRuntime (NewConsoleDriverWithOptions [])
    (LogEntry.mk 7 99 "odd" [] "")).2.2.2.1 "UNKNOWN(99)").2.2.2.2 99
    (by decide) (by decide) (by decide) (by decide)

theorem NewConsoleDriver_timeFormat (options : Options) :
    (NewConsoleDriver options).1.timeFormat =
      (match options.string "time_format" with
      | some format => format
      | none => RFC3339) := by
  unfold NewConsoleDriver
  cases options.string "min_level" with
  | none => cases options.string "time_format" <;> cases options.bool "colorized" <;> rfl
  | some s =>
    cases hp : ParseLevel s with
    | mk l r =>
      cases r <;> cases options.string "time_format" <;> cases options.bool "colorized" <;>
        simp [hp]

/-- C23: the claim holds for the console driver and the code breaks it for the file
drivers.  With a runtime in which the layout shows in the timestamp, a console
driver constructed with `time_format` set to `time.RFC3339` writes the timestamp
in that layout, while a text file driver and a JSON file driver constructed with
the same option, as in `TestTextFileDriver`, write it in the fixed layout with
milliseconds, which is not what the layout `time.RFC3339` gives. -/
theorem file_drivers_ignore_time_format :
    (NewConsoleDriver [("time_format", Value.str RFC3339), ("colorized", Value.bool false)]
        ).1.format layoutRuntime (LogEntry.mk 7 Info "info message" [] "") =
      "2006-01-02T15:04:05Z07:00@7 [INFO] info message" ∧
    (∃ d os1,
      NewTextFileDriver [("file_path", Value.str "app.log"), ("min_level", Value.str "debug"),
          ("time_format", Value.str RFC3339)]
        (OS.mk [] []) = (os1, (some d, none)) ∧
      ((d.Log layoutRuntime (LogEntry.mk 7 Info "info message" [] "") os1).1.2).written 4 =
        ["2006-01-02T15:04:05.000Z07:00@7 [INFO] info message\n"]) ∧
    (∃ d os1,
      NewJSONFileDriver [("file_path", Value.str "app.json"), ("time_format", Value.str RFC3339)]
        (OS.mk [] []) = (os1, (some d, none)) ∧
      GoMap.get (jsonRecord layoutRuntime (LogEntry.mk 7 Info "info message" [] "")).fields
        "timestamp" = some (JSONField.str "2006-01-02T15:04:05.000Z07:00@7") ∧
      wroteExactly os1 (d.Log layoutRuntime (LogEntry.mk 7 Info "info message" [] "") os1).1.2 4
        ((jsonRecord layoutRuntime (LogEntry.mk 7 Info "info message" [] "")).Marshal ++ "\n")) ∧
    layoutRuntime.Format 7 RFC3339 = "2006-01-02T15:04:05Z07:00@7" ∧
    layoutRuntime.Format 7 RFC3339 ≠ "2006-01-02T15:04:05.000Z07:00@7" := by
  refine ⟨by decide, ⟨TextFileDriver.mk "app.log" (some 4) Debug,
      OS.mk [SysCall.mkdirAll "app.log", SysCall.openFile "app.log"] [], by decide, by decide⟩,
    ⟨JSONFileDriver.mk "app.json" (some 4) (NewEncoder 4) Debug,
      OS.mk [SysCall.mkdirAll "app.json", SysCall.openFile "app.json"] [], by decide, by decide,
      rfl⟩, by decide, by decide⟩

/-- A console driver constructed with the string `f` under `time_format` formats the
timestamp of every line with the layout `f`, and with `time.RFC3339` when
`time_format` is absent or not a string. -/
theorem console_honours_time_format (rt : Runtime) (options : Options) (f : String)
    (e : LogEntry) :
    (GoMap.get options "time_format" = some (Value.str f) →
      (NewConsoleDriver options).1.timeFormat = f ∧
      (NewConsoleDriver options).1.format rt e =
        rt.Format e.Timestamp f ++ " ["
          ++ (if (NewConsoleDriver options).1.colorized then
                (NewConsoleDriver options).1.colorizeLevel e.Level e.Level.String
              else e.Level.String)
          ++ "]"
          ++ (if e.TransactionID ≠ "" then " (tx: " ++ e.TransactionID ++ ")" else "")
          ++ (if e.Attrs ≠ [] then
                " [" ++ ", ".intercalate
                  ((rt.rangeOrder e.Attrs).map (fun kv => kv.1 ++ "=" ++ kv.2)) ++ "]"
              else "")
          ++ " " ++ e.Message) ∧
    ((∀ s, GoMap.get options "time_format" ≠ some (Value.str s)) →
      (NewConsoleDriver options).1.timeFormat = RFC3339) := by
  have hlen : (e.Attrs.length > 0) = (e.Attrs ≠ []) := by
    simp [List.length_pos]
  refine ⟨?_, ?_⟩
  · intro hf
    have hs := (Options.string_eq_some_iff options "time_format" f).mpr hf
    have htf : (NewConsoleDriver options).1.timeFormat = f := by
      rw [NewConsoleDriver_timeFormat, hs]
    refine ⟨htf, ?_⟩
    simp only [ConsoleDriver.format, htf, hlen]
  · intro hnone
    have hs := (Options.string_eq_none_iff options "time_format").mpr hnone
    rw [NewConsoleDriver_timeFormat, hs]

theorem digitChar_ne_newline (n : Nat) : Nat.digitChar n ≠ newlineChar := by
  by_cases h : n < 16
  · interval_cases n <;> decide
  · have hstar : Nat.digitChar n = '*' := by
      unfold Nat.digitChar
      repeat rw [if_neg (by omega)]
    rw [hstar]
    decide

theorem toDigitsCore_noNewline (fuel : Nat) :
    ∀ (n : Nat) (ds : List Char), newlineChar ∉ ds →
      newlineChar ∉ Nat.toDigitsCore 10 fuel n ds := by
  induction fuel with
  | zero => intro n ds h; simpa [Nat.toDigitsCore] using h
  | succ fuel ih =>
    intro n ds h
    have hcons : newlineChar ∉ Nat.digitChar (n % 10) :: ds := by
      simp only [List.mem_cons, not_or]
      exact ⟨Ne.symm (digitChar_ne_newline _), h⟩
    simp only [Nat.toDigitsCore]
    split_ifs
    · exact hcons
    · exact ih _ _ hcons

theorem Nat_repr_noNewline (n : Nat) : noNewline (Nat.repr n) := by
  simp only [noNewline, Nat.repr, Nat.toDigits, List.asString]
  exact toDigitsCore_noNewline _ _ _ (by simp)

theorem Int_toString_noNewline (n : Int) : noNewline (toString n) := by
  cases n with
  | ofNat m => exact Nat_repr_noNewline m
  | negSucc m =>
    show noNewline ("-" ++ Nat.repr (Nat.succ m))
    exact noNewline_append _ _ (by decide) (Nat_repr_noNewline _)

theorem Level_String_noNewline (l : Level) : noNewline l.String := by
  unfold Level.String
  split_ifs
  · decide
  · decide
  · decide
  · decide
  · exact noNewline_append _ _ (noNewline_append _ _ (by decide) (Int_toString_noNewline l))
      (by decide)

theorem joinPairs_noNewline (pairs : List (String × String))
    (h : ∀ kv ∈ pairs, noNewline kv.1 ∧ noNewline kv.2) : noNewline (joinPairs pairs) := by
  unfold joinPairs
  apply noNewline_intercalate _ (by decide)
  intro x hx
  obtain ⟨kv, hkv, rfl⟩ := List.mem_map.mp hx
  exact noNewline_append _ _ (noNewline_append _ _ (h kv hkv).1 (by decide)) (h kv hkv).2

theorem newlineCount_append (a b : String) :
    newlineCount (a ++ b) = newlineCount a + newlineCount b := by
  simp [newlineCount, String.data_append, List.count_append]

theorem newlineCount_of_noNewline (a : String) (h : noNewline a) : newlineCount a = 0 := by
  simp only [newlineCount]
  exact List.count_eq_zero.mpr h

/-- The line of the text file driver without its closing newline. -/
theorem textLine_split (rt : Runtime) (e : LogEntry) (pairs : List (String × String)) :
    textLine rt e pairs =
      (rt.Format e.Timestamp fileTimeLayout ++ " [" ++ e.Level.String ++ "] " ++ e.Message
        ++ (if e.Attrs.length > 0 then " \x7b" ++ joinPairs pairs ++ "\x7d" else "")
        ++ (if e.TransactionID ≠ "" then " (txn: " ++ e.TransactionID ++ ")" else ""))
      ++ "\n" := rfl

/-- C25 as stated fails: for an entry whose message holds a line feed the text file
driver writes a record with two line feeds, the first one inside the record. -/
theorem text_record_with_newline_in_message :
    wroteExactly (OS.mk [] [])
        ((TextFileDriver.mk "app.log" (some 4) Debug).Log exampleRuntime
          (LogEntry.mk 7 Info "first\nsecond" [] "") (OS.mk [] [])).1.2
        4 "T7 [INFO] first\nsecond\n" ∧
      newlineCount "T7 [INFO] first\nsecond\n" = 2 := by
  constructor
  · rfl
  · decide

/-- C25, amended: the bytes an open text file driver writes in one `Log` call, for an
entry at or above its threshold, end with a line feed; the record holds exactly
one line feed, the last byte, when the formatted timestamp, the message, the
attribute keys and values and the transaction identifier hold none, and as many
more as these hold otherwise. -/
theorem text_record_ends_with_newline (rt : Runtime) (t : TextFileDriver) (e : LogEntry)
    (os : OS) :
    (∀ file, t.minLevel ≤ e.Level → t.file = some file →
      wroteExactly os (t.Log rt e os).1.2 file (textLine rt e (rt.rangeOrder e.Attrs))) ∧
    (textLine rt e (rt.rangeOrder e.Attrs)).data.getLast? = some newlineChar ∧
    1 ≤ newlineCount (textLine rt e (rt.rangeOrder e.Attrs)) ∧
    (noNewline (rt.Format e.Timestamp fileTimeLayout) → noNewline e.Message →
      (∀ kv ∈ e.Attrs, noNewline kv.1 ∧ noNewline kv.2) → noNewline e.TransactionID →
      newlineCount (textLine rt e (rt.rangeOrder e.Attrs)) = 1) ∧
    (e.Attrs = [] → e.TransactionID = "" →
      newlineCount (textLine rt e (rt.rangeOrder e.Attrs)) =
        newlineCount (rt.Format e.Timestamp fileTimeLayout) + newlineCount e.Message + 1) := by
  have hone : newlineCount "\n" = 1 := by decide
  refine ⟨?_, ?_, ?_, ?_, ?_⟩
  · intro file hmin hf
    rw [TextFileDriver_Log_open rt t e os (not_lt.mpr hmin) file hf]
    exact perform_calls _ _
  · rw [textLine_split, String.data_append]
    exact List.getLast?_concat _
  · rw [textLine_split, newlineCount_append, hone]
    omega
  · intro hts hmsg hattrs htx
    have hpairs : ∀ kv ∈ rt.rangeOrder e.Attrs, noNewline kv.1 ∧ noNewline kv.2 := by
      intro kv hkv
      exact hattrs kv ((rt.rangeOrder_perm e.Attrs).mem_iff.mp hkv)
    have h1 : noNewline (rt.Format e.Timestamp fileTimeLayout ++ " [") :=
      noNewline_append _ _ hts (by decide)
    have h2 : noNewline (rt.Format e.Timestamp fileTimeLayout ++ " [" ++ e.Level.String) :=
      noNewline_append _ _ h1 (Level_String_noNewline _)
    have h3 : noNewline
        (rt.Format e.Timestamp fileTimeLayout ++ " [" ++ e.Level.String ++ "] ") :=
      noNewline_append _ _ h2 (by decide)
    have h4 : noNewline
        (rt.Format e.Timestamp fileTimeLayout ++ " [" ++ e.Level.String ++ "] "
          ++ e.Message) :=
      noNewline_append _ _ h3 hmsg
    have h5 : noNewline
        (if e.Attrs.length > 0 then " \x7b" ++ joinPairs (rt.rangeOrder e.Attrs) ++ "\x7d"
          else "") := by
      split_ifs
      · exact noNewline_append _ _ (noNewline_append _ _ (by decide)
          (joinPairs_noNewline _ hpairs)) (by decide)
      · decide
    have h6 : noNewline
        (if e.TransactionID ≠ "" then " (txn: " ++ e.TransactionID ++ ")" else "") := by
      split_ifs
      · exact noNewline_append _ _ (noNewline_append _ _ (by decide) htx) (by decide)
      · decide
    have hbody := noNewline_append _ _ (noNewline_append _ _ h4 h5) h6
    rw [textLine_split, newlineCount_append, hone, newlineCount_of_noNewline _ hbody]
  · intro ha ht
    have hl : newlineCount e.Level.String = 0 :=
      newlineCount_of_noNewline _ (Level_String_noNewline _)
    have h1 : newlineCount " [" = 0 := by decide
    have h2 : newlineCount "] " = 0 := by decide
    have h3 : newlineCount "" = 0 := by decide
    simp only [textLine_split, ha, ht, List.length_nil, gt_iff_lt, lt_self_iff_false, if_false,
      ne_eq, not_true_eq_false, newlineCount_append, hone, hl, h1, h2, h3]
    omega

/-- Witness for C25 amended: the record of an `Info` entry with an attribute and a
transaction identifier, none holding a line feed, has one line feed. -/
theorem text_record_ends_with_newline_witness :
    newlineCount (textLine exampleRuntime
      (LogEntry.mk 7 Info "tx message" [("key", "value")] "tx-123") [("key", "value")]) = 1 :=
  (text_record_ends_with_newline exampleRuntime (TextFileDriver.mk "app.log" (some 5) Debug)
    (LogEntry.mk 7 Info "tx message" [("key", "value")] "tx-123") (OS.mk [] [])).2.2.2.1
    (by decide) (by decide) (by decide) (by decide)

end drivers

namespace config

open core drivers

/-! ## Lemmas on `CreateLogger` -/

theorem get_recordedRegistry {σ δ : Type} (name : String) :
    ∀ registry : Registry σ δ,
      GoMap.get (recordedRegistry registry) name =
        (GoMap.get registry name).map (recorded name) := by
  intro registry
  induction registry with
  | nil => rfl
  | cons nc rest ih =>
    obtain ⟨n, c⟩ := nc
    simp only [recordedRegistry, GoMap.get, List.map_cons, List.lookup_cons] at ih ⊢
    by_cases h : name = n
    · subst h
      simp
    · have h1 : (name == n) = false := by simpa using h
      simp only [h1]
      exact ih

theorem Create_recorded {σ δ : Type} (registry : Registry σ δ) (name : String)
    (options : Options) (w : σ) (tr : List (String × Options)) :
    Create (recordedRegistry registry) name options (w, tr) =
      (((Create registry name options w).1,
          tr ++ (if (GoMap.get registry name).isSome then [(name, options)] else [])),
        (Create registry name options w).2) := by
  simp only [Create, get_recordedRegistry]
  cases GoMap.get registry name with
  | none => simp
  | some c => simp [recorded]

theorem mapAt_append_length (maps : Maps) (o : Options) :
    mapAt (maps ++ [o]) maps.length = o := by
  simp [mapAt]

theorem mapAt_append_lt (maps : Maps) (o : Options) (q : Nat) (hq : q < maps.length) :
    mapAt (maps ++ [o]) q = mapAt maps q := by
  simp [mapAt, List.getElem?_append_left hq]

theorem mapAt_set_self (maps : Maps) (p : Nat) (o : Options) (hp : p < maps.length) :
    mapAt (maps.set p o) p = o := by
  simp [mapAt, List.getElem?_set_self hp]

theorem mapAt_set_ne (maps : Maps) (p q : Nat) (o : Options) (h : p ≠ q) :
    mapAt (maps.set p o) q = mapAt maps q := by
  simp [mapAt, List.getElem?_set_ne h]

theorem set_mapAt_self (maps : Maps) (p : Nat) (hp : p < maps.length) :
    maps.set p (mapAt maps p) = maps := by
  have h : maps[p]? = some (mapAt maps p) := by
    simp [mapAt, List.getElem?_eq_getElem hp]
  exact list_set_self maps p _ h

theorem set_append_length (maps : Maps) (o o1 : Options) :
    (maps ++ [o]).set maps.length o1 = maps ++ [o1] := by
  induction maps with
  | nil => rfl
  | cons m ms ih => simp only [List.cons_append, List.length_cons, List.set_cons_succ, ih]

theorem refValid_iff (maps : Maps) (dc : DriverConfig) :
    refValid maps dc = true ↔ ∀ p, dc.Options = some p → p < maps.length := by
  unfold refValid
  cases dc.Options with
  | none => simp
  | some q => simp

theorem mapsAfter_length (maps : Maps) (dc : DriverConfig) :
    maps.length ≤ (mapsAfter maps dc).length := by
  unfold mapsAfter
  cases dc.Options with
  | none => simp
  | some p => simp

theorem refValid_mono (maps maps1 : Maps) (dc : DriverConfig) (h : maps.length ≤ maps1.length)
    (hv : refValid maps dc = true) : refValid maps1 dc = true := by
  rw [refValid_iff] at hv ⊢
  intro p hp
  exact lt_of_lt_of_le (hv p hp) h

theorem validRefs_cons (maps : Maps) (dc : DriverConfig) (rest : List DriverConfig) :
    validRefs maps (dc :: rest) = true ↔ refValid maps dc = true ∧ validRefs maps rest = true := by
  simp [validRefs]

theorem validRefs_mono (maps maps1 : Maps) (dcs : List DriverConfig)
    (h : maps.length ≤ maps1.length) (hv : validRefs maps dcs = true) :
    validRefs maps1 dcs = true := by
  simp only [validRefs, List.all_eq_true] at hv ⊢
  intro dc hdc
  exact refValid_mono maps maps1 dc h (hv dc hdc)

/-- One turn of the loop of `CreateLogger`, in the terms of `passedOptions` and
`mapsAfter`. -/
theorem createLoop_cons {σ δ : Type} (registry : Registry σ δ) (dc : DriverConfig)
    (rest : List DriverConfig) (acc : List (Option δ)) (maps : Maps) (w : σ)
    (hv : refValid maps dc = true) :
    createLoop registry (dc :: rest) acc maps w =
      (match Create registry dc.Typ (passedOptions maps dc) w with
      | (w1, (_, some err)) =>
        ((mapsAfter maps dc, w1),
          (none, some ("failed to create driver '" ++ dc.Typ ++ "': " ++ err)))
      | (w1, (driver, none)) =>
        createLoop registry rest (acc ++ [driver]) (mapsAfter maps dc) w1) := by
  obtain ⟨typ, minLevel, options⟩ := dc
  cases options with
  | none =>
    simp only [createLoop, mapAt_append_length, passedOptions, configuredOptions, mapsAfter,
      GoMap.get, List.lookup_nil, Option.isNone_none, true_and]
    by_cases hl : minLevel = ""
    · simp only [hl, ne_eq, not_true_eq_false, if_false, mapAt_append_length]
    · simp only [hl, ne_eq, not_false_eq_true, if_true, set_append_length, mapAt_append_length]
  | some p =>
    have hp : p < maps.length := (refValid_iff maps _).mp hv p rfl
    simp only [createLoop, passedOptions, configuredOptions, mapsAfter]
    cases hm : GoMap.get (mapAt maps p) "min_level" with
    | some v =>
      simp only [Option.isNone_some, Bool.false_eq_true, false_and, if_false,
        set_mapAt_self maps p hp]
    | none =>
      by_cases hl : minLevel = ""
      · simp only [hl, ne_eq, not_true_eq_false, and_false, if_false, set_mapAt_self maps p hp]
      · simp only [hl, ne_eq, not_false_eq_true, and_true, Option.isNone_none, if_true,
          mapAt_set_self maps p _ hp]

theorem passedOptions_cases (maps : Maps) (dc : DriverConfig) :
    (∀ v, GoMap.get (configuredOptions maps dc) "min_level" = some v →
      passedOptions maps dc = configuredOptions maps dc) ∧
    (GoMap.get (configuredOptions maps dc) "min_level" = none → dc.MinLevel ≠ "" →
      GoMap.get (passedOptions maps dc) "min_level" = some (Value.str dc.MinLevel) ∧
      ∀ k, k ≠ "min_level" →
        GoMap.get (passedOptions maps dc) k = GoMap.get (configuredOptions maps dc) k) ∧
    (GoMap.get (configuredOptions maps dc) "min_level" = none → dc.MinLevel = "" →
      passedOptions maps dc = configuredOptions maps dc ∧
      GoMap.get (passedOptions maps dc) "min_level" = none) := by
  refine ⟨?_, ?_, ?_⟩
  · intro v hv
    simp only [passedOptions, hv]
  · intro hnone hl
    simp only [passedOptions, hnone, hl, ne_eq, not_false_eq_true, if_true]
    refine ⟨by rw [GoMap.get_set, if_pos rfl], ?_⟩
    intro k hk
    rw [GoMap.get_set, if_neg hk]
  · intro hnone hl
    simp only [passedOptions, hnone, hl, ne_eq, not_true_eq_false, if_false, and_self]

theorem createLoop_recorded {σ δ : Type} (registry : Registry σ δ) (dcs : List DriverConfig) :
    ∀ (acc : List (Option δ)) (maps : Maps) (w : σ) (tr : List (String × Options)),
      validRefs maps dcs = true →
      ∃ calls : List (String × Options),
        createLoop (recordedRegistry registry) dcs acc maps (w, tr) =
          (((createLoop registry dcs acc maps w).1.1,
              ((createLoop registry dcs acc maps w).1.2, tr ++ calls)),
            (createLoop registry dcs acc maps w).2) ∧
        calls <+: plannedCalls maps dcs ∧
        ((createLoop registry dcs acc maps w).2.2 = none →
          calls = plannedCalls maps dcs ∧
          (createLoop registry dcs acc maps w).2.1 =
            some (acc ++ createdDrivers registry maps dcs w)) ∧
        ((createLoop registry dcs acc maps w).2.2 ≠ none →
          (createLoop registry dcs acc maps w).2.1 = none) := by
  induction dcs with
  | nil =>
    intro acc maps w tr _
    exact ⟨[], by simp [createLoop], by simp [plannedCalls],
      fun _ => ⟨rfl, by simp [createLoop, createdDrivers]⟩, fun h => absurd rfl h⟩
  | cons dc rest ih =>
    intro acc maps w tr hv
    obtain ⟨hv1, hv2⟩ := (validRefs_cons maps dc rest).mp hv
    have hv3 := validRefs_mono maps (mapsAfter maps dc) rest (mapsAfter_length maps dc) hv2
    rw [createLoop_cons _ _ _ _ _ _ hv1, createLoop_cons _ _ _ _ _ _ hv1, Create_recorded]
    cases hc : Create registry dc.Typ (passedOptions maps dc) w with
    | mk w1 r =>
      obtain ⟨driver, err⟩ := r
      cases err with
      | some e =>
        refine ⟨if (GoMap.get registry dc.Typ).isSome then [(dc.Typ, passedOptions maps dc)]
          else [], rfl, ?_, ?_, ?_⟩
        · by_cases hreg : (GoMap.get registry dc.Typ).isSome
          · simp only [hreg, if_true, plannedCalls]
            exact ⟨plannedCalls (mapsAfter maps dc) rest, rfl⟩
          · simp only [hreg]
            exact List.nil_prefix
        · intro h
          simp at h
        · intro _
          rfl
      | none =>
        have hreg : (GoMap.get registry dc.Typ).isSome = true := by
          cases hg : GoMap.get registry dc.Typ with
          | some c => rfl
          | none =>
            simp only [Create, hg] at hc
            simp [ErrDriverNotFound] at hc
        obtain ⟨calls, hrun, hpre, hok, hfail⟩ :=
          ih (acc ++ [driver]) (mapsAfter maps dc) w1 (tr ++ [(dc.Typ, passedOptions maps dc)]) hv3
        refine ⟨(dc.Typ, passedOptions maps dc) :: calls, ?_, ?_, ?_, ?_⟩
        · simp only [hreg, if_true]
          rw [hrun]
          simp
        · simp only [plannedCalls]
          exact (List.prefix_cons_inj _).mpr hpre
        · intro h
          obtain ⟨hcalls, hds⟩ := hok h
          refine ⟨by simp [hcalls, plannedCalls], ?_⟩
          simp only [hds, createdDrivers, hc, List.append_assoc, List.singleton_append]
        · intro h
          exact hfail h

/-- The run of the loop over `pre ++ dc :: post` when the run over `pre` succeeds:
it goes on with `dc` from the drivers, map objects and world that run left. -/
theorem createLoop_after_prefix {σ δ : Type} (registry : Registry σ δ) (dc : DriverConfig)
    (post : List DriverConfig) (pre : List DriverConfig) :
    ∀ (acc : List (Option δ)) (maps maps1 : Maps) (w w1 : σ) (acc1 : Logger δ),
      validRefs maps (pre ++ dc :: post) = true →
      createLoop registry pre acc maps w = ((maps1, w1), (some acc1, none)) →
      refValid maps1 dc = true ∧ validRefs maps1 post = true ∧
      createLoop registry (pre ++ dc :: post) acc maps w =
        createLoop registry (dc :: post) acc1 maps1 w1 := by
  induction pre with
  | nil =>
    intro acc maps maps1 w w1 acc1 hv hpre
    simp only [createLoop, Prod.mk.injEq, Option.some.injEq, and_true] at hpre
    obtain ⟨⟨hm, hw⟩, hacc⟩ := hpre
    subst hm hw hacc
    rw [List.nil_append] at hv ⊢
    obtain ⟨h1, h2⟩ := (validRefs_cons _ _ _).mp hv
    exact ⟨h1, h2, rfl⟩
  | cons p ps ih =>
    intro acc maps maps1 w w1 acc1 hv hpre
    rw [List.cons_append] at hv ⊢
    obtain ⟨hv1, hv2⟩ := (validRefs_cons _ _ _).mp hv
    have hv3 := validRefs_mono maps (mapsAfter maps p) _ (mapsAfter_length maps p) hv2
    rw [createLoop_cons _ _ _ _ _ _ hv1] at hpre ⊢
    cases hp : Create registry p.Typ (passedOptions maps p) w with
    | mk wp r =>
      obtain ⟨drv, err⟩ := r
      rw [hp] at hpre
      cases err with
      | some e1 => simp at hpre
      | none => exact ih _ _ _ _ _ _ hv3 hpre

theorem createLoop_unregistered {σ δ : Type} (registry : Registry σ δ)
    (dcs : List DriverConfig) :
    ∀ (acc : List (Option δ)) (maps : Maps) (w : σ), validRefs maps dcs = true →
      (∃ dc ∈ dcs, GoMap.get registry dc.Typ = none) →
      (createLoop registry dcs acc maps w).2.2 ≠ none := by
  induction dcs with
  | nil =>
    intro acc maps w _ h
    obtain ⟨dc, hdc, _⟩ := h
    simp at hdc
  | cons p rest ih =>
    intro acc maps w hv h
    obtain ⟨hv1, hv2⟩ := (validRefs_cons _ _ _).mp hv
    have hv3 := validRefs_mono maps (mapsAfter maps p) _ (mapsAfter_length maps p) hv2
    rw [createLoop_cons _ _ _ _ _ _ hv1]
    cases hp : Create registry p.Typ (passedOptions maps p) w with
    | mk wp r =>
      obtain ⟨drv, err⟩ := r
      cases err with
      | some e1 => simp
      | none =>
        obtain ⟨dc, hdc, hnone⟩ := h
        rcases List.mem_cons.mp hdc with heq | hmem
        · subst heq
          simp only [Create, hnone] at hp
          simp [ErrDriverNotFound] at hp
        · exact ih _ _ _ hv3 ⟨dc, hmem, hnone⟩

/-- When every type configured is registered with a constructor that never fails, the
loop ends with a logger and a `nil` error. -/
theorem createLoop_all_succeed {σ δ : Type} (registry : Registry σ δ)
    (dcs : List DriverConfig) :
    ∀ (acc : List (Option δ)) (maps : Maps) (w : σ), validRefs maps dcs = true →
      (∀ dc ∈ dcs, ∃ ctor, GoMap.get registry dc.Typ = some ctor ∧
        ∀ o w1, (ctor o w1).2.2 = none) →
      (createLoop registry dcs acc maps w).2 =
        (some (acc ++ createdDrivers registry maps dcs w), none) := by
  induction dcs with
  | nil =>
    intro acc maps w _ _
    simp [createLoop, createdDrivers]
  | cons p rest ih =>
    intro acc maps w hv h
    obtain ⟨hv1, hv2⟩ := (validRefs_cons _ _ _).mp hv
    have hv3 := validRefs_mono maps (mapsAfter maps p) _ (mapsAfter_length maps p) hv2
    obtain ⟨ctor, hget, hok⟩ := h p (List.mem_cons_self p rest)
    rw [createLoop_cons _ _ _ _ _ _ hv1]
    have hnil : (Create registry p.Typ (passedOptions maps p) w).2.2 = none := by
      simp only [Create, hget, hok]
    cases hp : Create registry p.Typ (passedOptions maps p) w with
    | mk wp r =>
      obtain ⟨drv, err⟩ := r
      rw [hp] at hnil
      simp only at hnil
      subst hnil
      simp only
      rw [ih _ _ _ hv3 (fun dc hdc => h dc (List.mem_cons_of_mem p hdc))]
      simp only [createdDrivers, hp, List.append_assoc, List.singleton_append]

theorem createdDrivers_length {σ δ : Type} (registry : Registry σ δ)
    (dcs : List DriverConfig) :
    ∀ (maps : Maps) (w : σ), (createdDrivers registry maps dcs w).length = dcs.length := by
  induction dcs with
  | nil => intro maps w; rfl
  | cons p rest ih => intro maps w; simp only [createdDrivers, List.length_cons, ih]

theorem plannedCalls_types (dcs : List DriverConfig) :
    ∀ maps : Maps, (plannedCalls maps dcs).map Prod.fst = dcs.map (fun x : DriverConfig => x.Typ) := by
  induction dcs with
  | nil => intro maps; rfl
  | cons p rest ih => intro maps; simp only [plannedCalls, List.map_cons, ih]

/-- The turn of a driver configuration leaves the options under a configuration with
another map object, or with a nil map, as they were. -/
theorem configuredOptions_mapsAfter (maps : Maps) (dc dc1 : DriverConfig)
    (hv : refValid maps dc1 = true)
    (hne : ∀ p, dc1.Options = some p → dc.Options ≠ some p) :
    configuredOptions (mapsAfter maps dc) dc1 = configuredOptions maps dc1 := by
  unfold configuredOptions
  cases h1 : dc1.Options with
  | none => rfl
  | some q =>
    have hq : q < maps.length := (refValid_iff maps dc1).mp hv q h1
    have hne1 := hne q h1
    unfold mapsAfter
    cases h : dc.Options with
    | none => exact mapAt_append_lt maps _ q hq
    | some p =>
      have hpq : p ≠ q := by
        intro hpq
        rw [h, hpq] at hne1
        exact hne1 rfl
      exact mapAt_set_ne maps p q _ hpq

theorem passedOptions_mapsAfter (maps : Maps) (dc dc1 : DriverConfig)
    (hv : refValid maps dc1 = true)
    (hne : ∀ p, dc1.Options = some p → dc.Options ≠ some p) :
    passedOptions (mapsAfter maps dc) dc1 = passedOptions maps dc1 := by
  simp only [passedOptions, configuredOptions_mapsAfter maps dc dc1 hv hne]

/-- When no two driver configurations share a map object, the options passed are
those computed from the map objects as `CreateLogger` found them. -/
theorem plannedCalls_distinct (dcs : List DriverConfig) :
    ∀ maps : Maps, validRefs maps dcs = true → distinctRefs dcs →
      plannedCalls maps dcs = dcs.map (fun x : DriverConfig => (x.Typ, passedOptions maps x)) := by
  induction dcs with
  | nil => intro maps _ _; rfl
  | cons p rest ih =>
    intro maps hv hd
    obtain ⟨hv1, hv2⟩ := (validRefs_cons _ _ _).mp hv
    have hv3 := validRefs_mono maps (mapsAfter maps p) _ (mapsAfter_length maps p) hv2
    have hdrest : distinctRefs rest := by
      unfold distinctRefs at hd ⊢
      cases hp : p.Options with
      | none => simpa [List.filterMap_cons, hp] using hd
      | some q =>
        simp only [List.filterMap_cons, hp, List.nodup_cons] at hd
        exact hd.2
    have hfresh : ∀ x ∈ rest, ∀ q, x.Options = some q → p.Options ≠ some q := by
      intro x hx q hxq hpq
      unfold distinctRefs at hd
      simp only [List.filterMap_cons, hpq, List.nodup_cons, List.mem_filterMap, not_exists,
        not_and] at hd
      exact hd.1 x hx hxq
    simp only [plannedCalls, List.map_cons, ih _ hv3 hdrest]
    congr 1
    apply List.map_congr_left
    intro x hx
    have hvx : refValid maps x = true := by
      simp only [validRefs, List.all_eq_true] at hv2
      exact hv2 x hx
    rw [passedOptions_mapsAfter maps p x hvx (hfresh x hx)]

end config
